import Mathlib

/-!
Verification of the equality-saturation engine (union-find, functional-dependency
tables, SSA term graph, rebuilder, abstract interpreter).

The Rust source is embedded shallowly:
* `ClassId` and all u32 columns become `Nat` (i32 literals are bit-reinterpreted
  through `u32OfI32` / `i32OfU32`, so `-1` packs to `4294967295`);
* interior mutability (path compression inside `find`, splicing inside `merge`)
  becomes explicit state passing: `find` returns the updated structure together
  with the representative;
* the unbounded `loop` constructs (`find`, `merge`, the rebuild passes and
  `corebuild`) take explicit fuel; exhaustion is reported with `Option` (or, for
  `find`/`merge`, closed with a sufficient default that the stated well-formedness
  invariant proves never runs out).
-/

namespace EqSat

/-- Tombstone sentinel (`const EMPTY: u32 = 0xFFFFFFFF` in `table.rs`). -/
def EMPTY : Nat := 4294967295

/-! ## Union-find (`util/src/union_find.rs`)

`ClassId` is a transparent wrapper over `u32`; we use `Nat` directly.  The
`vec: Vec<Cell<ClassId>>` becomes a `List Nat` of parent pointers. -/

structure UnionFind where
  vec : List Nat
deriving DecidableEq, Repr

namespace UnionFind

def new : UnionFind := ⟨[]⟩

/-- `new_all_not_equals(amount)`: `amount` singleton classes. -/
def new_all_not_equals (amount : Nat) : UnionFind := ⟨List.range amount⟩

/-- `new_all_equals(amount)`: all parents `0`. -/
def new_all_equals (amount : Nat) : UnionFind := ⟨List.replicate amount 0⟩

/-- `makeset`: push a self-parented class, return its id. -/
def makeset (uf : UnionFind) : UnionFind × Nat :=
  (⟨uf.vec ++ [uf.vec.length]⟩, uf.vec.length)

def num_classes (uf : UnionFind) : Nat := uf.vec.length

/-- `parent(id)`; out-of-range indexing (a panic in Rust) defaults to `id`. -/
def parent (uf : UnionFind) (id : Nat) : Nat := uf.vec.getD id id

def setParent (uf : UnionFind) (id p : Nat) : UnionFind := ⟨uf.vec.set id p⟩

/-- The loop of `find`: path halving, `id := parent(id)` after the halving
write (which makes `id` jump to the old grandparent). -/
def findFuel : Nat → UnionFind → Nat → UnionFind × Nat
  | 0, uf, id => (uf, id)
  | fuel + 1, uf, id =>
    if uf.parent id = id then (uf, id)
    else
      let uf' := uf.setParent id (uf.parent (uf.parent id))
      findFuel fuel uf' (uf.parent (uf.parent id))

/-- `find(id)`: under `WF` the chain strictly decreases, so `id + 1` fuel
never runs out. -/
def find (uf : UnionFind) (id : Nat) : UnionFind × Nat :=
  findFuel (id + 1) uf id

/-- The loop of `merge`, returning the state plus the final value of the local
`x` (the Rust function returns `self.parent(x)` for that `x`). -/
def mergeFuel : Nat → UnionFind → Nat → Nat → UnionFind × Nat
  | 0, uf, x, _ => (uf, x)
  | fuel + 1, uf, x, y =>
    if uf.parent x = uf.parent y then (uf, x)
    else if uf.parent y < uf.parent x then
      if x = uf.parent x then (uf.setParent x (uf.parent y), x)
      else mergeFuel fuel (uf.setParent x (uf.parent y)) (uf.parent x) y
    else
      if y = uf.parent y then (uf.setParent y (uf.parent x), x)
      else mergeFuel fuel (uf.setParent y (uf.parent x)) x (uf.parent y)

/-- `merge(x, y)`: under `WF` each iteration strictly decreases `x` or `y`,
so `x + y + 1` fuel suffices. -/
def merge (uf : UnionFind) (x y : Nat) : UnionFind × Nat :=
  match mergeFuel (x + y + 1) uf x y with
  | (uf', x') => (uf', uf'.parent x')

/-- Well-formedness: every allocated parent pointer is at most its index (the
reachable states of the Rust code; `makeset` self-parents and every later
write only lowers a pointer). -/
def WF (uf : UnionFind) : Prop :=
  ∀ i, i < uf.vec.length → uf.vec.getD i i ≤ i

instance (uf : UnionFind) : Decidable (WF uf) := by
  unfold WF; infer_instance

/-- Pure representative (no compression), for specification. -/
def rootFuel : Nat → UnionFind → Nat → Nat
  | 0, _, id => id
  | fuel + 1, uf, id =>
    if uf.parent id = id then id else rootFuel fuel uf (uf.parent id)

def root (uf : UnionFind) (id : Nat) : Nat := rootFuel (id + 1) uf id

/-- `v` lies on the parent chain of `a` (including `a` itself). -/
def onChainFuel : Nat → UnionFind → Nat → Nat → Bool
  | 0, _, a, v => a = v
  | fuel + 1, uf, a, v =>
    if a = v then true
    else if uf.parent a = a then false
    else onChainFuel fuel uf (uf.parent a) v

def onChain (uf : UnionFind) (a v : Nat) : Bool := onChainFuel (a + 1) uf a v

end UnionFind

/-- The public union-find operations, for stating state-evolution claims. -/
inductive UfOp where
  | mkset
  | findOp (i : Nat)
  | mergeOp (i j : Nat)
deriving DecidableEq, Repr

/-- Apply one operation (discarding the returned id). -/
def applyOp (uf : UnionFind) : UfOp → UnionFind
  | .mkset => (uf.makeset).1
  | .findOp i => (uf.find i).1
  | .mergeOp i j => (uf.merge i j).1

def applyOps (uf : UnionFind) : List UfOp → UnionFind
  | [] => uf
  | op :: rest => applyOps (applyOp uf op) rest

/-- A sequence of operations is valid when every `find`/`merge` argument is
an allocated class at the time of the call (the Rust code panics
otherwise). -/
def validOps (uf : UnionFind) : List UfOp → Bool
  | [] => true
  | op :: rest =>
    (match op with
     | .mkset => true
     | .findOp i => decide (i < uf.vec.length)
     | .mergeOp i j => decide (i < uf.vec.length) && decide (j < uf.vec.length)) &&
    validOps (applyOp uf op) rest

/-! ## Functional-dependency table (`db/src/table.rs`)

`Table<DET_COLS, DEP_COLS>` stores rows of u32 tuples; both tuples become
`List Nat` (their lengths are the parameters `D`, `P`).  The
`determine_map: HashMap<&det, (RowId, &dep)>` becomes an association list keyed
by the determinant; the Rust map's references always point at the live row for
their key, so storing the copied tuples is equivalent.  `RowId` is the physical
index.  The `symbol` field is display-only and omitted. -/

structure Table (D P : Nat) where
  contents : List (List Nat × List Nat)
  dmap : List (List Nat × Nat × List Nat)
  num_allocated_rows : Nat
  num_free_rows : Nat
deriving DecidableEq, Repr

namespace Table

def new (D P : Nat) : Table D P := ⟨[], [], 0, 0⟩

/-- The tombstone row: all columns `EMPTY`. -/
def emptyRow (D P : Nat) : List Nat × List Nat :=
  (List.replicate D EMPTY, List.replicate P EMPTY)

/-- `HashMap::get` on the association list. -/
def mapGet (m : List (List Nat × Nat × List Nat)) (det : List Nat) :
    Option (Nat × List Nat) :=
  match m with
  | [] => none
  | e :: rest => if e.1 = det then some e.2 else mapGet rest det

/-- `HashMap::insert`: replace the entry for the key if present, else add. -/
def mapInsert (m : List (List Nat × Nat × List Nat)) (det : List Nat)
    (v : Nat × List Nat) : List (List Nat × Nat × List Nat) :=
  match m with
  | [] => [(det, v)]
  | e :: rest => if e.1 = det then (det, v) :: rest else e :: mapInsert rest det v

/-- `HashMap::remove`, also reporting whether the key was present. -/
def mapRemove (m : List (List Nat × Nat × List Nat)) (det : List Nat) :
    List (List Nat × Nat × List Nat) × Bool :=
  match m with
  | [] => ([], false)
  | e :: rest =>
    if e.1 = det then (rest, true)
    else
      let r := mapRemove rest det
      (e :: r.1, r.2)

variable {D P : Nat}

def push_row (t : Table D P) (det dep : List Nat) : Table D P × List Nat :=
  let idx := t.contents.length
  (⟨t.contents ++ [(det, dep)], mapInsert t.dmap det (idx, dep),
    t.num_allocated_rows + 1, t.num_free_rows⟩, dep)

/-- `get_row`; out-of-range (a panic in Rust) defaults to the tombstone. -/
def get_row (t : Table D P) (row : Nat) : List Nat × List Nat :=
  t.contents.getD row (emptyRow D P)

def delete_row (t : Table D P) (row : Nat) : Table D P × Bool :=
  match mapRemove t.dmap (t.get_row row).1 with
  | (m', present) =>
    if present then
      (⟨t.contents.set row (emptyRow D P), m',
        t.num_allocated_rows - 1, t.num_free_rows + 1⟩, true)
    else (t, false)

/-- `insert_row` with its caller-supplied merge closure; the closure may carry
state `σ` (the SSA layer's closures merge class ids in the union-find). -/
def insert_row {σ : Type} (t : Table D P) (det dep : List Nat)
    (mrg : σ → List Nat → List Nat → σ × List Nat) (s : σ) :
    σ × Table D P × List Nat :=
  match mapGet t.dmap det with
  | some (prior, inTableDep) =>
    match mrg s dep inTableDep with
    | (s', merged) =>
      match t.delete_row prior with
      | (t1, _) =>
        match t1.push_row det merged with
        | (t2, dep') => (s', t2, dep')
  | none =>
    match t.push_row det dep with
    | (t1, dep') => (s, t1, dep')

/-- The resident-keeping merge function (`|_, x| *x`). -/
def keepResident : Unit → List Nat → List Nat → Unit × List Nat :=
  fun _ _ old => ((), old)

def liveAt (t : Table D P) (row : Nat) : Prop :=
  row < t.contents.length ∧ t.get_row row ≠ emptyRow D P

instance (t : Table D P) (row : Nat) : Decidable (t.liveAt row) := by
  unfold liveAt; infer_instance

def first_rowAux (t : Table D P) : Nat → Option Nat
  | 0 => none
  | fuel + 1 =>
    let idx := t.contents.length - (fuel + 1)
    if t.get_row idx ≠ emptyRow D P then some idx
    else first_rowAux t fuel

/-- `first_row`: least live physical index. -/
def first_row (t : Table D P) : Option Nat :=
  first_rowAux t t.contents.length

def next_rowAux (t : Table D P) : Nat → Nat → Option Nat
  | _, 0 => none
  | idx, fuel + 1 =>
    if t.get_row idx ≠ emptyRow D P then some idx
    else next_rowAux t (idx + 1) fuel

/-- `next_row(row)`: least live physical index strictly above `row`. -/
def next_row (t : Table D P) (row : Nat) : Option Nat :=
  next_rowAux t (row + 1) (t.contents.length - (row + 1))

/-- `iter()`: the live rows in physical order. -/
def iterRows (t : Table D P) : List (List Nat × List Nat) :=
  t.contents.filter (fun r => r ≠ emptyRow D P)

end Table

/-! ## SSA term layer (`imp/src/ssa.rs`)

The nine constructors, their bit-reinterpreting encoders/decoders, and the
`Graph` of one table per constructor plus the owning union-find. -/

/-- Two's-complement packing of an `i32` into a u32 column. -/
def u32OfI32 (v : Int) : Nat := (v % 4294967296).toNat

/-- Inverse reinterpretation of a u32 column as an `i32`. -/
def i32OfU32 (n : Nat) : Int :=
  if n < 2147483648 then (n : Int) else (n : Int) - 4294967296

inductive Term where
  | Constant (value : Int) (root : Nat)
  | Param (index : Nat) (root : Nat)
  | Start (root : Nat)
  | Region (lhs rhs root : Nat)
  | Branch (pred cond root : Nat)
  | ControlProj (pred index root : Nat)
  | Finish (pred value root : Nat)
  | Phi (region lhs rhs root : Nat)
  | Add (lhs rhs root : Nat)
deriving DecidableEq, Repr

namespace Term

def root : Term → Nat
  | Constant _ r => r
  | Param _ r => r
  | Start r => r
  | Region _ _ r => r
  | Branch _ _ r => r
  | ControlProj _ _ r => r
  | Finish _ _ r => r
  | Phi _ _ _ r => r
  | Add _ _ r => r

/-- `ENode::canonicalize`: replace every ClassId field with its `find`; the
`find` calls compress, so the union-find is threaded in field order. -/
def canonicalize (uf : UnionFind) : Term → UnionFind × Term
  | Constant v r =>
    match uf.find r with
    | (u1, fr) => (u1, Constant v fr)
  | Param i r =>
    match uf.find r with
    | (u1, fr) => (u1, Param i fr)
  | Start r =>
    match uf.find r with
    | (u1, fr) => (u1, Start fr)
  | Region a b r =>
    match uf.find a with
    | (u1, fa) =>
      match u1.find b with
      | (u2, fb) =>
        match u2.find r with
        | (u3, fr) => (u3, Region fa fb fr)
  | Branch p c r =>
    match uf.find p with
    | (u1, fp) =>
      match u1.find c with
      | (u2, fc) =>
        match u2.find r with
        | (u3, fr) => (u3, Branch fp fc fr)
  | ControlProj p i r =>
    match uf.find p with
    | (u1, fp) =>
      match u1.find r with
      | (u2, fr) => (u2, ControlProj fp i fr)
  | Finish p v r =>
    match uf.find p with
    | (u1, fp) =>
      match u1.find v with
      | (u2, fv) =>
        match u2.find r with
        | (u3, fr) => (u3, Finish fp fv fr)
  | Phi g a b r =>
    match uf.find g with
    | (u1, fg) =>
      match u1.find a with
      | (u2, fa) =>
        match u2.find b with
        | (u3, fb) =>
          match u3.find r with
          | (u4, fr) => (u4, Phi fg fa fb fr)
  | Add a b r =>
    match uf.find a with
    | (u1, fa) =>
      match u1.find b with
      | (u2, fb) =>
        match u2.find r with
        | (u3, fr) => (u3, Add fa fb fr)

end Term

/-- `constant_encode` (the other encoders are inlined in `Graph.encode`):
`([value as u32], [root])`. -/
def constant_encode (value : Int) (root : Nat) : List Nat × List Nat :=
  ([u32OfI32 value], [root])

/-- Which of the nine tables a term goes to. -/
inductive Ctor where
  | constant | param | start | region | branch | controlProj | finish | phi | add
deriving DecidableEq, Repr

def Term.ctor : Term → Ctor
  | .Constant _ _ => .constant
  | .Param _ _ => .param
  | .Start _ => .start
  | .Region _ _ _ => .region
  | .Branch _ _ _ => .branch
  | .ControlProj _ _ _ => .controlProj
  | .Finish _ _ _ => .finish
  | .Phi _ _ _ _ => .phi
  | .Add _ _ _ => .add

/-- The per-constructor encoders (`*_encode` in `ssa.rs`). -/
def Term.encode : Term → List Nat × List Nat
  | .Constant v r => constant_encode v r
  | .Param i r => ([i], [r])
  | .Start r => ([], [r])
  | .Region a b r => ([a, b], [r])
  | .Branch p c r => ([p, c], [r])
  | .ControlProj p i r => ([p, i], [r])
  | .Finish p v r => ([p, v], [r])
  | .Phi g a b r => ([g, a, b], [r])
  | .Add a b r => ([a, b], [r])

/-- The per-constructor decoders (`*_decode` in `ssa.rs`); the tuples are
read positionally, missing columns (impossible on real rows) default to 0. -/
def decodeCtor (c : Ctor) (det dep : List Nat) : Term :=
  match c with
  | .constant => .Constant (i32OfU32 (det.getD 0 0)) (dep.getD 0 0)
  | .param => .Param (det.getD 0 0) (dep.getD 0 0)
  | .start => .Start (dep.getD 0 0)
  | .region => .Region (det.getD 0 0) (det.getD 1 0) (dep.getD 0 0)
  | .branch => .Branch (det.getD 0 0) (det.getD 1 0) (dep.getD 0 0)
  | .controlProj => .ControlProj (det.getD 0 0) (det.getD 1 0) (dep.getD 0 0)
  | .finish => .Finish (det.getD 0 0) (det.getD 1 0) (dep.getD 0 0)
  | .phi => .Phi (det.getD 0 0) (det.getD 1 0) (det.getD 2 0) (dep.getD 0 0)
  | .add => .Add (det.getD 0 0) (det.getD 1 0) (dep.getD 0 0)

/-- The graph: one table per constructor plus the owning union-find
(the never-written `interval` table is included for completeness). -/
structure Graph where
  constant : Table 1 1
  param : Table 1 1
  start : Table 0 1
  region : Table 2 1
  branch : Table 2 1
  control_proj : Table 2 1
  finish : Table 2 1
  phi : Table 3 1
  add : Table 2 1
  interval : Table 1 2
  uf : UnionFind
deriving DecidableEq, Repr

namespace Graph

def new : Graph :=
  ⟨Table.new 1 1, Table.new 1 1, Table.new 0 1, Table.new 2 1, Table.new 2 1,
   Table.new 2 1, Table.new 2 1, Table.new 3 1, Table.new 2 1, Table.new 1 2,
   UnionFind.new⟩

def makeset (g : Graph) : Graph × Nat :=
  match g.uf.makeset with
  | (uf', id) => ({ g with uf := uf' }, id)

def find (g : Graph) (id : Nat) : Graph × Nat :=
  match g.uf.find id with
  | (uf', r) => ({ g with uf := uf' }, r)

def merge (g : Graph) (a b : Nat) : Graph × Nat :=
  match g.uf.merge a b with
  | (uf', r) => ({ g with uf := uf' }, r)

/-- The merge closure every `Graph::insert` arm passes to `insert_row`:
merge the two root class ids when the dependents differ, keep the resident. -/
def insertMerge (uf : UnionFind) (newDep oldDep : List Nat) :
    UnionFind × List Nat :=
  if newDep ≠ oldDep then
    match uf.merge (newDep.getD 0 0) (oldDep.getD 0 0) with
    | (uf', _) => (uf', [oldDep.getD 0 0])
  else (uf, [oldDep.getD 0 0])

/-- `Graph::insert`: encode, insert into the constructor's table with the
class-merging closure, decode the resident. -/
def insert (g : Graph) (t : Term) : Graph × Term :=
  match t.ctor, t.encode with
  | .constant, (det, dep) =>
    match g.constant.insert_row det dep insertMerge g.uf with
    | (uf', t', nd) =>
      ({ g with constant := t', uf := uf' }, decodeCtor .constant det nd)
  | .param, (det, dep) =>
    match g.param.insert_row det dep insertMerge g.uf with
    | (uf', t', nd) =>
      ({ g with param := t', uf := uf' }, decodeCtor .param det nd)
  | .start, (det, dep) =>
    match g.start.insert_row det dep insertMerge g.uf with
    | (uf', t', nd) =>
      ({ g with start := t', uf := uf' }, decodeCtor .start det nd)
  | .region, (det, dep) =>
    match g.region.insert_row det dep insertMerge g.uf with
    | (uf', t', nd) =>
      ({ g with region := t', uf := uf' }, decodeCtor .region det nd)
  | .branch, (det, dep) =>
    match g.branch.insert_row det dep insertMerge g.uf with
    | (uf', t', nd) =>
      ({ g with branch := t', uf := uf' }, decodeCtor .branch det nd)
  | .controlProj, (det, dep) =>
    match g.control_proj.insert_row det dep insertMerge g.uf with
    | (uf', t', nd) =>
      ({ g with control_proj := t', uf := uf' }, decodeCtor .controlProj det nd)
  | .finish, (det, dep) =>
    match g.finish.insert_row det dep insertMerge g.uf with
    | (uf', t', nd) =>
      ({ g with finish := t', uf := uf' }, decodeCtor .finish det nd)
  | .phi, (det, dep) =>
    match g.phi.insert_row det dep insertMerge g.uf with
    | (uf', t', nd) =>
      ({ g with phi := t', uf := uf' }, decodeCtor .phi det nd)
  | .add, (det, dep) =>
    match g.add.insert_row det dep insertMerge g.uf with
    | (uf', t', nd) =>
      ({ g with add := t', uf := uf' }, decodeCtor .add det nd)

/-- `Graph::terms`: decoded live rows, chained in the source's table order. -/
def terms (g : Graph) : List Term :=
  g.constant.iterRows.map (fun r => decodeCtor .constant r.1 r.2) ++
  g.param.iterRows.map (fun r => decodeCtor .param r.1 r.2) ++
  g.start.iterRows.map (fun r => decodeCtor .start r.1 r.2) ++
  g.region.iterRows.map (fun r => decodeCtor .region r.1 r.2) ++
  g.branch.iterRows.map (fun r => decodeCtor .branch r.1 r.2) ++
  g.control_proj.iterRows.map (fun r => decodeCtor .controlProj r.1 r.2) ++
  g.finish.iterRows.map (fun r => decodeCtor .finish r.1 r.2) ++
  g.phi.iterRows.map (fun r => decodeCtor .phi r.1 r.2) ++
  g.add.iterRows.map (fun r => decodeCtor .add r.1 r.2)

end Graph

/-! ## Rebuilder (`db/src/rebuild.rs` and `Graph::rebuild` in `imp/src/ssa.rs`)

`rebuild_table`'s row loop and whole-table-pass loop, `corebuild`'s
partition-refinement loop, and the outer `Graph::rebuild` loop all take fuel
and report exhaustion with `none`.  The `insert_row` call inside the row loop
keeps the resident dependent (the conflict is resolved by the explicit
`uf.merge` that follows, exactly as in the source). -/

/-- One step of `rebuild_table`'s inner row loop, continuing at `mrow`. -/
def passRows (c : Ctor) {D P : Nat} :
    Nat → Table D P → UnionFind → Option Nat → Bool →
    Option (Table D P × UnionFind × Bool)
  | 0, _, _, _, _ => none
  | _ + 1, t, uf, none, changed => some (t, uf, changed)
  | fuel + 1, t, uf, some rid, changed =>
    match t.get_row rid with
    | (rdet, rdep) =>
      let term := decodeCtor c rdet rdep
      match Term.canonicalize uf term with
      | (uf1, cterm) =>
        if term = cterm then passRows c fuel t uf1 (t.next_row rid) changed
        else
          match t.delete_row rid with
          | (t1, _) =>
            match cterm.encode with
            | (cdet, cdep) =>
              match t1.insert_row cdet cdep Table.keepResident () with
              | (_, t2, newDep) =>
                if newDep ≠ cdep then
                  match uf1.merge cterm.root (decodeCtor c cdet newDep).root with
                  | (uf2, _) => passRows c fuel t2 uf2 (t2.next_row rid) true
                else passRows c fuel t2 uf1 (t2.next_row rid) true

/-- `rebuild_table`'s outer loop: whole-table passes until one changes
nothing; returns whether any pass changed anything. -/
def rebuildPasses (c : Ctor) {D P : Nat} :
    Nat → Table D P → UnionFind → Bool → Option (Table D P × UnionFind × Bool)
  | 0, _, _, _ => none
  | fuel + 1, t, uf, ever =>
    match passRows c (fuel + 1) t uf t.first_row false with
    | none => none
    | some (t', uf', changed) =>
      if changed then rebuildPasses c fuel t' uf' true
      else some (t', uf', ever)

/-- `rebuild_enode_table`. -/
def rebuild_enode_table (c : Ctor) {D P : Nat} (fuel : Nat) (t : Table D P)
    (uf : UnionFind) : Option (Table D P × UnionFind × Bool) :=
  rebuildPasses c fuel t uf false

/-- `HashSet::insert` on an observation bucket (membership is all that is
ever consumed, via `is_disjoint`). -/
def obsInsert (ts : List Term) (t : Term) : List Term :=
  if t ∈ ts then ts else ts ++ [t]

/-- `corebuild`'s observation phase: canonicalize each term under `last_uf`
(compressing it) and bucket it by its original root. -/
def obsPhase : List Term → UnionFind → List (List Term) →
    UnionFind × List (List Term)
  | [], last, obs => (last, obs)
  | t :: rest, last, obs =>
    match Term.canonicalize last t with
    | (last', ct) =>
      obsPhase rest last' (obs.set t.root (obsInsert (obs.getD t.root []) ct))

/-- `!is_disjoint`: the two buckets share an element. -/
def obsIntersect (a b : List Term) : Bool :=
  a.any (fun x => b.contains x)

/-- The inner `for rhs in 0..num_classes` of `corebuild`'s merge phase:
`rhs` runs from `n - fuel` upward. -/
def mergeRow (obsl : List Term) (obs : List (List Term)) (n l : Nat) :
    Nat → UnionFind → UnionFind
  | 0, next => next
  | fuel + 1, next =>
    let r := n - (fuel + 1)
    if obsIntersect obsl (obs.getD r []) then
      match next.merge l r with
      | (next', _) => mergeRow obsl obs n l fuel next'
    else mergeRow obsl obs n l fuel next

/-- The outer `for lhs in 0..num_classes` of `corebuild`'s merge phase:
merge every pair of classes whose observation sets intersect into
`next_uf` (pairs in ascending lexicographic order, as the source's nested
range loops produce them). -/
def mergePhase (obs : List (List Term)) (n : Nat) :
    Nat → UnionFind → UnionFind
  | 0, next => next
  | fuel + 1, next =>
    let l := n - (fuel + 1)
    mergePhase obs n fuel (mergeRow (obs.getD l []) obs n l n next)

/-- One iteration of `corebuild`'s loop: returns the (compressed) `last_uf`
and the freshly built `next_uf`. -/
def corebuildStep (ts : List Term) (n : Nat) (last : UnionFind) :
    UnionFind × UnionFind :=
  match obsPhase ts last (List.replicate n []) with
  | (last', obs) =>
    (last', mergePhase obs n n (UnionFind.new_all_not_equals n))

/-- `corebuild`'s refinement loop; the exit test `last_uf == next_uf` is the
derived structural equality on the parent vectors. -/
def corebuildLoop : Nat → List Term → Nat → UnionFind → Option UnionFind
  | 0, _, _, _ => none
  | fuel + 1, ts, n, last =>
    match corebuildStep ts n last with
    | (lastC, next) =>
      if lastC = next then some lastC else corebuildLoop fuel ts n next

/-- `corebuild`'s final phase: merge every class with its `last_uf.find`
into the real union-find (`id` runs from `n - fuel` upward). -/
def finalMerges (n : Nat) : Nat → UnionFind → UnionFind → UnionFind
  | 0, uf, _ => uf
  | fuel + 1, uf, last =>
    let idx := n - (fuel + 1)
    match last.find idx with
    | (last', canon) =>
      match uf.merge idx canon with
      | (uf', _) => finalMerges n fuel uf' last'

/-- `corebuild(terms, uf)`. -/
def corebuild (fuel : Nat) (ts : List Term) (uf : UnionFind) :
    Option UnionFind :=
  let n := uf.num_classes
  match corebuildLoop fuel ts n (UnionFind.new_all_equals n) with
  | none => none
  | some last => some (finalMerges n n uf last)

namespace Graph

/-- The nine `rebuild_enode_table` calls of `Graph::rebuild`, in source
order, threading the union-find and or-ing the changed flags. -/
def rebuildTables (fuel : Nat) (g : Graph) : Option (Graph × Bool) :=
  match rebuild_enode_table .constant fuel g.constant g.uf with
  | none => none
  | some (t1, u1, c1) =>
  match rebuild_enode_table .param fuel g.param u1 with
  | none => none
  | some (t2, u2, c2) =>
  match rebuild_enode_table .start fuel g.start u2 with
  | none => none
  | some (t3, u3, c3) =>
  match rebuild_enode_table .region fuel g.region u3 with
  | none => none
  | some (t4, u4, c4) =>
  match rebuild_enode_table .branch fuel g.branch u4 with
  | none => none
  | some (t5, u5, c5) =>
  match rebuild_enode_table .controlProj fuel g.control_proj u5 with
  | none => none
  | some (t6, u6, c6) =>
  match rebuild_enode_table .finish fuel g.finish u6 with
  | none => none
  | some (t7, u7, c7) =>
  match rebuild_enode_table .phi fuel g.phi u7 with
  | none => none
  | some (t8, u8, c8) =>
  match rebuild_enode_table .add fuel g.add u8 with
  | none => none
  | some (t9, u9, c9) =>
    some (⟨t1, t2, t3, t4, t5, t6, t7, t8, t9, g.interval, u9⟩,
          c1 || c2 || c3 || c4 || c5 || c6 || c7 || c8 || c9)

/-- `Graph::rebuild`'s outer loop: `corebuild`, then the per-table rebuilds,
until no table reports a change. -/
def rebuildLoop : Nat → Graph → Option Graph
  | 0, _ => none
  | fuel + 1, g =>
    match corebuild (fuel + 1) g.terms g.uf with
    | none => none
    | some uf' =>
      match rebuildTables (fuel + 1) { g with uf := uf' } with
      | none => none
      | some (g2, changed) =>
        if changed then rebuildLoop fuel g2 else some g2

/-- `Graph::rebuild`, with fuel on every unbounded loop. -/
def rebuildFuel (fuel : Nat) (g : Graph) : Option Graph :=
  rebuildLoop fuel g

end Graph

/-! ## Abstract interpreter (`imp/src/ai.rs`)

`IdentifierId` becomes `Nat`.  The `AbstractStore` (`BTreeMap<IdentifierId,
ClassId>`) becomes an association list kept sorted by key, so iteration is in
ascending key order as for the `BTreeMap`.  The `ControlLinker` cell is
threaded explicitly.  Only the expression forms the interpreter handles are
modelled (`NumberLiteral`, `Variable`, `Add`; the remaining forms hit
`todo!()` in the source).  The `while` fixed-point `loop` takes fuel. -/

inductive ExpressionAST where
  | NumberLiteral (value : Int)
  | Variable (iden : Nat)
  | Add (lhs rhs : ExpressionAST)
deriving DecidableEq, Repr

inductive StatementAST where
  | Block (stmts : List StatementAST)
  | Assign (iden : Nat) (expr : ExpressionAST)
  | IfElse (cond : ExpressionAST) (lhs : List StatementAST)
      (rhs : Option (List StatementAST))
  | While (cond : ExpressionAST) (body : List StatementAST)
  | Return (expr : ExpressionAST)
deriving Repr

structure FunctionAST where
  params : List Nat
  block : List StatementAST
deriving Repr

structure ProgramAST where
  funcs : List FunctionAST
deriving Repr

/-- `AbstractStore`, sorted by identifier. -/
def AbstractStore := List (Nat × Nat)

def storeGet (s : List (Nat × Nat)) (k : Nat) : Option Nat :=
  match s with
  | [] => none
  | e :: rest => if e.1 = k then some e.2 else storeGet rest k

/-- `BTreeMap::insert`, returning the previous value for the key. -/
def storeInsertGet (s : List (Nat × Nat)) (k v : Nat) :
    Option Nat × List (Nat × Nat) :=
  match s with
  | [] => (none, [(k, v)])
  | e :: rest =>
    if e.1 = k then (some e.2, (k, v) :: rest)
    else if k < e.1 then (none, (k, v) :: e :: rest)
    else
      let r := storeInsertGet rest k v
      (r.1, e :: r.2)

def storeInsert (s : List (Nat × Nat)) (k v : Nat) : List (Nat × Nat) :=
  (storeInsertGet s k v).2

/-- `ai_expr`.  The control linker is read-only here; the graph threads. -/
def aiExpr : ExpressionAST → List (Nat × Nat) → Graph → Graph × Nat
  | .NumberLiteral v, _, g =>
    match g.makeset with
    | (g1, root) =>
      match g1.insert (Term.Constant v root) with
      | (g2, _) => g2.find root
  | .Variable iden, s, g => (g, (storeGet s iden).getD 0)
  | .Add l r, s, g =>
    match aiExpr l s g with
    | (g1, lv) =>
      match aiExpr r s g1 with
      | (g2, rv) =>
        match g2.makeset with
        | (g3, root) =>
          match g3.insert (Term.Add lv rv root) with
          | (g4, _) => g4.find root

/-- The `merge_down` closure: walk the lhs store in key order, keep agreeing
bindings, emit a `Phi` for each disagreement. -/
def mergeDown (region : Nat) :
    List (Nat × Nat) → List (Nat × Nat) → Graph → List (Nat × Nat) × Graph
  | [], _, g => ([], g)
  | (iden, le) :: rest, rhs, g =>
    match storeGet rhs iden with
    | none => mergeDown region rest rhs g
    | some re =>
      if le = re then
        match mergeDown region rest rhs g with
        | (s', g') => ((iden, le) :: s', g')
      else
        match g.makeset with
        | (g1, root) =>
          match g1.insert (Term.Phi region le re root) with
          | (g2, _) =>
            match g2.find root with
            | (g3, fr) =>
              match mergeDown region rest rhs g3 with
              | (s', g') => ((iden, fr) :: s', g')

/-- The `iter_mut` body of the `while` fixed-point loop: walk the pre-body
store in key order, recording disagreements with the post-body store in
`last_concrete_expr`, allocating static phis, and rewriting entries. -/
def whileScan :
    List (Nat × Nat) → List (Nat × Nat) → List (Nat × Nat) →
    List (Nat × Nat) → Bool → Graph →
    List (Nat × Nat) × List (Nat × Nat) × List (Nat × Nat) × Bool × Graph
  | [], _, lastConcrete, staticPhis, changed, g =>
    ([], lastConcrete, staticPhis, changed, g)
  | (iden, newExpr) :: rest, afterBody, lastConcrete, staticPhis, changed, g =>
    match
      (match storeGet afterBody iden with
       | some oldExpr =>
         if newExpr ≠ oldExpr then
           match storeInsertGet lastConcrete iden newExpr with
           | (some concrete, lc') =>
             (newExpr, lc', staticPhis,
              (decide (concrete ≠ newExpr) || changed), g)
           | (none, lc') =>
             match g.makeset with
             | (g1, sp) => (sp, lc', storeInsert staticPhis iden sp, true, g1)
         else (newExpr, lastConcrete, staticPhis, changed, g)
       | none => (newExpr, lastConcrete, staticPhis, changed, g)) with
    | (ne1, lc1, sp1, ch1, g1) =>
      let newExpr2 :=
        match storeGet sp1 iden with
        | some sp => sp
        | none => ne1
      match whileScan rest afterBody lc1 sp1 ch1 g1 with
      | (entries, lc2, sp2, ch2, g2) =>
        ((iden, newExpr2) :: entries, lc2, sp2, ch2, g2)

/-- The static-phi resolution on exit: merge each placeholder with its last
concrete expression, in key order. -/
def resolvePhis (lastConcrete : List (Nat × Nat)) :
    List (Nat × Nat) → Graph → Graph
  | [], g => g
  | (iden, sp) :: rest, g =>
    match g.merge sp ((storeGet lastConcrete iden).getD 0) with
    | (g', _) => resolvePhis lastConcrete rest g'

/-- The statement walker.  The source's three mutually recursive procedures
(`ai_block`, `ai_stmt`, and the `while` fixed-point `loop` inside the `While`
arm of `ai_stmt`) are packed into one fuel-indexed dispatcher so that the
recursion is structural in the fuel; each `AiJob` arm below is the body of
the corresponding source procedure. -/
inductive AiJob where
  | stmtJ (stmt : StatementAST) (s : List (Nat × Nat))
  | blockJ (stmts : List StatementAST) (s : List (Nat × Nat))
  | whileJ (cond : ExpressionAST) (body : List StatementAST)
      (inS : List (Nat × Nat)) (loopBodyRegion : Nat)
      (afterBodyS lastConcrete staticPhis : List (Nat × Nat))
      (changed : Bool)

/-- Run one `AiJob`.  For `stmtJ`/`blockJ` the result is
`(store, graph, ctrl, 0)`; for `whileJ` (the `While` fixed-point loop) it is
`(after_body_s, graph, loop_body_bottom, cond_expr)`. -/
def aiExec : Nat → AiJob → Graph → Nat →
    Option (List (Nat × Nat) × Graph × Nat × Nat)
  | _, .blockJ [] s, g, ctrl => some (s, g, ctrl, 0)
  | 0, _, _, _ => none
  | fuel + 1, .blockJ (stmt :: rest) s, g, ctrl =>
    match aiExec fuel (.stmtJ stmt s) g ctrl with
    | none => none
    | some (s', g', ctrl', _) => aiExec fuel (.blockJ rest s') g' ctrl'
  | fuel + 1, .stmtJ (.Block stmts) s, g, ctrl =>
    aiExec fuel (.blockJ stmts s) g ctrl
  | _ + 1, .stmtJ (.Assign iden expr) s, g, ctrl =>
    match aiExpr expr s g with
    | (g', e) => some (storeInsert s iden e, g', ctrl, 0)
  | fuel + 1, .stmtJ (.IfElse cond lhs rhs) inS, g, ctrl =>
    match aiExpr cond inS g with
    | (gc, c) =>
      match gc.makeset with
      | (g1, br) =>
        match g1.insert (Term.Branch ctrl c br) with
        | (g2, _) =>
          match g2.find br with
          | (g3, brF) =>
            match g3.makeset with
            | (g4, lhsProj) =>
              match g4.insert (Term.ControlProj brF 1 lhsProj) with
              | (g5, _) =>
                match g5.makeset with
                | (g6, rhsProj) =>
                  match g6.insert (Term.ControlProj brF 0 rhsProj) with
                  | (g7, _) =>
                    match aiExec fuel (.blockJ lhs inS) g7 lhsProj with
                    | none => none
                    | some (lhsS, g8, lhsRoot, _) =>
                      match
                        (match rhs with
                         | some rblk => aiExec fuel (.blockJ rblk inS) g8 rhsProj
                         | none => some (inS, g8, rhsProj, 0)) with
                      | none => none
                      | some (rhsS, g9, rhsRoot, _) =>
                        match g9.makeset with
                        | (g10, reg) =>
                          match g10.insert (Term.Region lhsRoot rhsRoot reg) with
                          | (g11, _) =>
                            match mergeDown reg lhsS rhsS g11 with
                            | (outS, g12) => some (outS, g12, reg, 0)
  | fuel + 1, .stmtJ (.While cond body) inS, g, ctrl =>
    match g.makeset with
    | (gA, loopBodyRegion) =>
      match gA.makeset with
      | (gB, loopExitRegion) =>
        match gB.makeset with
        | (gC, loopBodyBranch) =>
          match gC.makeset with
          | (gD, loopEntryProj) =>
            match aiExpr cond inS gD with
            | (gE, originalCondExpr) =>
              match aiExec fuel (.blockJ body inS) gE loopBodyRegion with
              | none => none
              | some (afterBodyS, g1, ctrl1, _) =>
                match aiExec fuel (.whileJ cond body inS loopBodyRegion
                    afterBodyS [] [] true) g1 ctrl1 with
                | none => none
                | some (afterBodyS2, g2, loopBodyBottom, condExpr) =>
                  match g2.makeset with
                  | (g3, entryBranch) =>
                    match g3.insert
                        (Term.Branch ctrl originalCondExpr entryBranch) with
                    | (g4, _) =>
                      match g4.makeset with
                      | (g5, skipProj) =>
                        match g5.insert
                            (Term.ControlProj entryBranch 0 skipProj) with
                        | (g6, _) =>
                          match g6.insert
                              (Term.ControlProj entryBranch 1 loopEntryProj) with
                          | (g7, _) =>
                            match g7.insert (Term.Branch loopBodyBottom
                                condExpr loopBodyBranch) with
                            | (g8, _) =>
                              match g8.makeset with
                              | (g9, doneProj) =>
                                match g9.insert (Term.ControlProj
                                    loopBodyBranch 0 doneProj) with
                                | (g10, _) =>
                                  match g10.makeset with
                                  | (g11, continueProj) =>
                                    match g11.insert (Term.ControlProj
                                        loopBodyBranch 1 continueProj) with
                                    | (g12, _) =>
                                      match g12.insert (Term.Region
                                          loopEntryProj continueProj
                                          loopBodyRegion) with
                                      | (g13, _) =>
                                        match g13.insert (Term.Region skipProj
                                            doneProj loopExitRegion) with
                                        | (g14, _) =>
                                          match mergeDown loopExitRegion inS
                                              afterBodyS2 g14 with
                                          | (outS, g15) =>
                                            some (outS, g15, loopExitRegion, 0)
  | _ + 1, .stmtJ (.Return expr) inS, g, ctrl =>
    match aiExpr expr inS g with
    | (gv, v) =>
      match gv.makeset with
      | (g1, root) =>
        match g1.insert (Term.Finish ctrl v root) with
        | (g2, _) => some (inS, g2, ctrl, 0)
  | fuel + 1, .whileJ cond body inS loopBodyRegion afterBodyS lastConcrete
      staticPhis changed, g, _ =>
    match mergeDown loopBodyRegion inS afterBodyS g with
    | (beforeBodyS, gm) =>
      if changed then
        match whileScan beforeBodyS afterBodyS lastConcrete staticPhis
            false gm with
        | (beforeBodyS', lc', sp', changed', gs) =>
          match aiExec fuel (.blockJ body beforeBodyS') gs loopBodyRegion with
          | none => none
          | some (afterBodyS', g', ctrl', _) =>
            match aiExpr cond afterBodyS' g' with
            | (gc, _) =>
              aiExec fuel (.whileJ cond body inS loopBodyRegion afterBodyS'
                lc' sp' changed') gc ctrl'
      else
        let g1 := resolvePhis lastConcrete staticPhis gm
        match aiExec fuel (.blockJ body beforeBodyS) g1 loopBodyRegion with
        | none => none
        | some (afterBodyS', g', ctrl', _) =>
          match aiExpr cond afterBodyS' g' with
          | (gc, condExpr) => some (afterBodyS', gc, ctrl', condExpr)

/-- `ai_block` (entry point used by `ai_func`). -/
def aiBlock (fuel : Nat) (stmts : List StatementAST) (s : List (Nat × Nat))
    (g : Graph) (ctrl : Nat) : Option (List (Nat × Nat) × Graph × Nat) :=
  match aiExec fuel (.blockJ stmts s) g ctrl with
  | none => none
  | some (s', g', ctrl', _) => some (s', g', ctrl')

/-- The parameter-binding loop of `ai_func`: `Param(idx)` per identifier. -/
def bindParams (idx : Nat) (s : List (Nat × Nat)) (g : Graph) :
    List Nat → List (Nat × Nat) × Graph
  | [] => (s, g)
  | iden :: rest =>
    match g.makeset with
    | (g1, root) =>
      match g1.insert (Term.Param idx root) with
      | (g2, _) =>
        match g2.find root with
        | (g3, fr) => bindParams (idx + 1) (storeInsert s iden fr) g3 rest

/-- `ai_func`: emit `Start`, bind the parameters, interpret the body. -/
def aiFunc (fuel : Nat) (f : FunctionAST) (g : Graph) : Option Graph :=
  match g.makeset with
  | (g1, root) =>
    match g1.insert (Term.Start root) with
    | (g2, _) =>
      match bindParams 0 [] g2 f.params with
      | (s, g3) =>
        match aiBlock fuel f.block s g3 root with
        | none => none
        | some (_, g', _) => some g'

/-- The per-function loop of `abstract_interpret`. -/
def aiFuncs (fuel : Nat) : List FunctionAST → Option (List Graph)
  | [] => some []
  | f :: rest =>
    match aiFunc fuel f Graph.new with
    | none => none
    | some g =>
      match aiFuncs fuel rest with
      | none => none
      | some gs => some (g :: gs)

/-- `abstract_interpret`: one fresh graph per function. -/
def abstract_interpret (fuel : Nat) (p : ProgramAST) : Option (List Graph) :=
  aiFuncs fuel p.funcs

/-! ### Evaluation ladder for the `basic` program (test `simple_ai`)
The states below are the concrete intermediate values of the pipeline;
each small lemma verifies one phase on explicit states, and the chain
lemmas stitch them into the full `abstract_interpret` + `rebuild` run. -/
def basicProg : ProgramAST :=
  ⟨[⟨[0], [.While (.Variable 0) [.Assign 0 (.Add (.Variable 0) (.NumberLiteral (-1)))],
     .Return (.Variable 0)]⟩]⟩
def c3G0 : Graph :=
  ⟨⟨[([4294967295], [4294967295]), ([4294967295], [4294967295]), ([4294967295], [4294967295]), ([4294967295], [4294967295]), ([4294967295], [6])], [([4294967295], 4, [6])], 1, 4⟩,
   ⟨[([0], [1])], [([0], 0, [1])], 1, 0⟩,
   ⟨[([], [0])], [([], 0, [0])], 1, 0⟩,
   ⟨[([5, 24], [2]), ([22, 23], [3])], [([5, 24], 0, [2]), ([22, 23], 1, [3])], 2, 0⟩,
   ⟨[([0, 1], [21]), ([2, 20], [4])], [([0, 1], 0, [21]), ([2, 20], 1, [4])], 2, 0⟩,
   ⟨[([21, 0], [22]), ([21, 1], [5]), ([4, 0], [23]), ([4, 1], [24])], [([21, 0], 0, [22]), ([21, 1], 1, [5]), ([4, 0], 2, [23]), ([4, 1], 3, [24])], 4, 0⟩,
   ⟨[([3, 25], [26])], [([3, 25], 0, [26])], 1, 0⟩,
   ⟨[([2, 1, 7], [8]), ([4294967295, 4294967295, 4294967295], [4294967295]), ([4294967295, 4294967295, 4294967295], [4294967295]), ([2, 1, 11], [12]), ([3, 1, 20], [25])], [([2, 1, 7], 0, [8]), ([2, 1, 11], 3, [12]), ([3, 1, 20], 4, [25])], 3, 2⟩,
   ⟨[([1, 6], [7]), ([4294967295, 4294967295], [4294967295]), ([4294967295, 4294967295], [4294967295]), ([9, 6], [11]), ([12, 6], [20])], [([1, 6], 0, [7]), ([9, 6], 3, [11]), ([12, 6], 4, [20])], 3, 2⟩,
   Table.new 1 2,
   ⟨[0, 1, 2, 3, 4, 5, 6, 7, 8, 9, 6, 11, 9, 6, 11, 12, 6, 11, 12, 6, 20, 21, 22, 23, 24, 25, 26]⟩⟩
def c3ts1 : List Term := [Term.Constant (-1) 6, Term.Param 0 1, Term.Start 0, Term.Region 5 24 2, Term.Region 22 23 3, Term.Branch 0 1 21, Term.Branch 2 20 4, Term.ControlProj 21 0 22, Term.ControlProj 21 1 5, Term.ControlProj 4 0 23, Term.ControlProj 4 1 24, Term.Finish 3 25 26, Term.Phi 2 1 7 8, Term.Phi 2 1 11 12, Term.Phi 3 1 20 25, Term.Add 1 6 7, Term.Add 9 6 11, Term.Add 12 6 20]
def c3L1_1 : UnionFind := ⟨[0, 0, 0, 0, 0, 0, 0, 0, 0, 0, 0, 0, 0, 0, 0, 0, 0, 0, 0, 0, 0, 0, 0, 0, 0, 0, 0]⟩
def c3C1_1 : UnionFind := ⟨[0, 0, 0, 0, 0, 0, 0, 0, 0, 0, 0, 0, 0, 0, 0, 0, 0, 0, 0, 0, 0, 0, 0, 0, 0, 0, 0]⟩
def c3O1_1 : List (List Term) := [[Term.Start 0], [Term.Param 0 0], [Term.Region 0 0 0], [Term.Region 0 0 0], [Term.Branch 0 0 0], [Term.ControlProj 0 1 0], [Term.Constant (-1) 0], [Term.Add 0 0 0], [Term.Phi 0 0 0 0], [], [], [Term.Add 0 0 0], [Term.Phi 0 0 0 0], [], [], [], [], [], [], [], [Term.Add 0 0 0], [Term.Branch 0 0 0], [Term.ControlProj 0 0 0], [Term.ControlProj 0 0 0], [Term.ControlProj 0 1 0], [Term.Phi 0 0 0 0], [Term.Finish 0 0 0]]
def c3N1_1 : UnionFind := ⟨[0, 1, 2, 2, 4, 5, 6, 7, 8, 9, 10, 7, 8, 13, 14, 15, 16, 17, 18, 19, 7, 4, 22, 22, 5, 8, 26]⟩
def c3L1_2 : UnionFind := ⟨[0, 1, 2, 2, 4, 5, 6, 7, 8, 9, 10, 7, 8, 13, 14, 15, 16, 17, 18, 19, 7, 4, 22, 22, 5, 8, 26]⟩
def c3C1_2 : UnionFind := ⟨[0, 1, 2, 2, 4, 5, 6, 7, 8, 9, 10, 7, 8, 13, 14, 15, 16, 17, 18, 19, 7, 4, 22, 22, 5, 8, 26]⟩
def c3O1_2 : List (List Term) := [[Term.Start 0], [Term.Param 0 1], [Term.Region 5 5 2], [Term.Region 22 22 2], [Term.Branch 2 7 4], [Term.ControlProj 4 1 5], [Term.Constant (-1) 6], [Term.Add 1 6 7], [Term.Phi 2 1 7 8], [], [], [Term.Add 9 6 7], [Term.Phi 2 1 7 8], [], [], [], [], [], [], [], [Term.Add 8 6 7], [Term.Branch 0 1 4], [Term.ControlProj 4 0 22], [Term.ControlProj 4 0 22], [Term.ControlProj 4 1 5], [Term.Phi 2 1 7 8], [Term.Finish 2 8 26]]
def c3N1_2 : UnionFind := ⟨[0, 1, 2, 3, 4, 5, 6, 7, 8, 9, 10, 11, 8, 13, 14, 15, 16, 17, 18, 19, 20, 21, 22, 22, 5, 8, 26]⟩
def c3L1_3 : UnionFind := ⟨[0, 1, 2, 3, 4, 5, 6, 7, 8, 9, 10, 11, 8, 13, 14, 15, 16, 17, 18, 19, 20, 21, 22, 22, 5, 8, 26]⟩
def c3C1_3 : UnionFind := ⟨[0, 1, 2, 3, 4, 5, 6, 7, 8, 9, 10, 11, 8, 13, 14, 15, 16, 17, 18, 19, 20, 21, 22, 22, 5, 8, 26]⟩
def c3O1_3 : List (List Term) := [[Term.Start 0], [Term.Param 0 1], [Term.Region 5 5 2], [Term.Region 22 22 3], [Term.Branch 2 20 4], [Term.ControlProj 21 1 5], [Term.Constant (-1) 6], [Term.Add 1 6 7], [Term.Phi 2 1 7 8], [], [], [Term.Add 9 6 11], [Term.Phi 2 1 11 8], [], [], [], [], [], [], [], [Term.Add 8 6 20], [Term.Branch 0 1 21], [Term.ControlProj 21 0 22], [Term.ControlProj 4 0 22], [Term.ControlProj 4 1 5], [Term.Phi 3 1 20 8], [Term.Finish 3 8 26]]
def c3N1_3 : UnionFind := ⟨[0, 1, 2, 3, 4, 5, 6, 7, 8, 9, 10, 11, 12, 13, 14, 15, 16, 17, 18, 19, 20, 21, 22, 23, 24, 25, 26]⟩
def c3L1_4 : UnionFind := ⟨[0, 1, 2, 3, 4, 5, 6, 7, 8, 9, 10, 11, 12, 13, 14, 15, 16, 17, 18, 19, 20, 21, 22, 23, 24, 25, 26]⟩
def c3C1_4 : UnionFind := ⟨[0, 1, 2, 3, 4, 5, 6, 7, 8, 9, 10, 11, 12, 13, 14, 15, 16, 17, 18, 19, 20, 21, 22, 23, 24, 25, 26]⟩
def c3O1_4 : List (List Term) := [[Term.Start 0], [Term.Param 0 1], [Term.Region 5 24 2], [Term.Region 22 23 3], [Term.Branch 2 20 4], [Term.ControlProj 21 1 5], [Term.Constant (-1) 6], [Term.Add 1 6 7], [Term.Phi 2 1 7 8], [], [], [Term.Add 9 6 11], [Term.Phi 2 1 11 12], [], [], [], [], [], [], [], [Term.Add 12 6 20], [Term.Branch 0 1 21], [Term.ControlProj 21 0 22], [Term.ControlProj 4 0 23], [Term.ControlProj 4 1 24], [Term.Phi 3 1 20 25], [Term.Finish 3 25 26]]
def c3N1_4 : UnionFind := ⟨[0, 1, 2, 3, 4, 5, 6, 7, 8, 9, 10, 11, 12, 13, 14, 15, 16, 17, 18, 19, 20, 21, 22, 23, 24, 25, 26]⟩
def c3UFin1 : UnionFind := ⟨[0, 1, 2, 3, 4, 5, 6, 7, 8, 9, 6, 11, 9, 6, 11, 12, 6, 11, 12, 6, 20, 21, 22, 23, 24, 25, 26]⟩
def c3UFcb1 : UnionFind := ⟨[0, 1, 2, 3, 4, 5, 6, 7, 8, 9, 6, 11, 9, 6, 11, 12, 6, 11, 12, 6, 20, 21, 22, 23, 24, 25, 26]⟩
def c3T1_1i : Table 1 1 := ⟨[([4294967295], [4294967295]), ([4294967295], [4294967295]), ([4294967295], [4294967295]), ([4294967295], [4294967295]), ([4294967295], [6])], [([4294967295], 4, [6])], 1, 4⟩
def c3T1_1o : Table 1 1 := ⟨[([4294967295], [4294967295]), ([4294967295], [4294967295]), ([4294967295], [4294967295]), ([4294967295], [4294967295]), ([4294967295], [6])], [([4294967295], 4, [6])], 1, 4⟩
def c3U1_1i : UnionFind := ⟨[0, 1, 2, 3, 4, 5, 6, 7, 8, 9, 6, 11, 9, 6, 11, 12, 6, 11, 12, 6, 20, 21, 22, 23, 24, 25, 26]⟩
def c3U1_1o : UnionFind := ⟨[0, 1, 2, 3, 4, 5, 6, 7, 8, 9, 6, 11, 9, 6, 11, 12, 6, 11, 12, 6, 20, 21, 22, 23, 24, 25, 26]⟩
def c3T1_2i : Table 1 1 := ⟨[([0], [1])], [([0], 0, [1])], 1, 0⟩
def c3T1_2o : Table 1 1 := ⟨[([0], [1])], [([0], 0, [1])], 1, 0⟩
def c3U1_2i : UnionFind := ⟨[0, 1, 2, 3, 4, 5, 6, 7, 8, 9, 6, 11, 9, 6, 11, 12, 6, 11, 12, 6, 20, 21, 22, 23, 24, 25, 26]⟩
def c3U1_2o : UnionFind := ⟨[0, 1, 2, 3, 4, 5, 6, 7, 8, 9, 6, 11, 9, 6, 11, 12, 6, 11, 12, 6, 20, 21, 22, 23, 24, 25, 26]⟩
def c3T1_3i : Table 0 1 := ⟨[([], [0])], [([], 0, [0])], 1, 0⟩
def c3T1_3o : Table 0 1 := ⟨[([], [0])], [([], 0, [0])], 1, 0⟩
def c3U1_3i : UnionFind := ⟨[0, 1, 2, 3, 4, 5, 6, 7, 8, 9, 6, 11, 9, 6, 11, 12, 6, 11, 12, 6, 20, 21, 22, 23, 24, 25, 26]⟩
def c3U1_3o : UnionFind := ⟨[0, 1, 2, 3, 4, 5, 6, 7, 8, 9, 6, 11, 9, 6, 11, 12, 6, 11, 12, 6, 20, 21, 22, 23, 24, 25, 26]⟩
def c3T1_4i : Table 2 1 := ⟨[([5, 24], [2]), ([22, 23], [3])], [([5, 24], 0, [2]), ([22, 23], 1, [3])], 2, 0⟩
def c3T1_4o : Table 2 1 := ⟨[([5, 24], [2]), ([22, 23], [3])], [([5, 24], 0, [2]), ([22, 23], 1, [3])], 2, 0⟩
def c3U1_4i : UnionFind := ⟨[0, 1, 2, 3, 4, 5, 6, 7, 8, 9, 6, 11, 9, 6, 11, 12, 6, 11, 12, 6, 20, 21, 22, 23, 24, 25, 26]⟩
def c3U1_4o : UnionFind := ⟨[0, 1, 2, 3, 4, 5, 6, 7, 8, 9, 6, 11, 9, 6, 11, 12, 6, 11, 12, 6, 20, 21, 22, 23, 24, 25, 26]⟩
def c3T1_5i : Table 2 1 := ⟨[([0, 1], [21]), ([2, 20], [4])], [([0, 1], 0, [21]), ([2, 20], 1, [4])], 2, 0⟩
def c3T1_5o : Table 2 1 := ⟨[([0, 1], [21]), ([2, 20], [4])], [([0, 1], 0, [21]), ([2, 20], 1, [4])], 2, 0⟩
def c3U1_5i : UnionFind := ⟨[0, 1, 2, 3, 4, 5, 6, 7, 8, 9, 6, 11, 9, 6, 11, 12, 6, 11, 12, 6, 20, 21, 22, 23, 24, 25, 26]⟩
def c3U1_5o : UnionFind := ⟨[0, 1, 2, 3, 4, 5, 6, 7, 8, 9, 6, 11, 9, 6, 11, 12, 6, 11, 12, 6, 20, 21, 22, 23, 24, 25, 26]⟩
def c3T1_6i : Table 2 1 := ⟨[([21, 0], [22]), ([21, 1], [5]), ([4, 0], [23]), ([4, 1], [24])], [([21, 0], 0, [22]), ([21, 1], 1, [5]), ([4, 0], 2, [23]), ([4, 1], 3, [24])], 4, 0⟩
def c3T1_6o : Table 2 1 := ⟨[([21, 0], [22]), ([21, 1], [5]), ([4, 0], [23]), ([4, 1], [24])], [([21, 0], 0, [22]), ([21, 1], 1, [5]), ([4, 0], 2, [23]), ([4, 1], 3, [24])], 4, 0⟩
def c3U1_6i : UnionFind := ⟨[0, 1, 2, 3, 4, 5, 6, 7, 8, 9, 6, 11, 9, 6, 11, 12, 6, 11, 12, 6, 20, 21, 22, 23, 24, 25, 26]⟩
def c3U1_6o : UnionFind := ⟨[0, 1, 2, 3, 4, 5, 6, 7, 8, 9, 6, 11, 9, 6, 11, 12, 6, 11, 12, 6, 20, 21, 22, 23, 24, 25, 26]⟩
def c3T1_7i : Table 2 1 := ⟨[([3, 25], [26])], [([3, 25], 0, [26])], 1, 0⟩
def c3T1_7o : Table 2 1 := ⟨[([3, 25], [26])], [([3, 25], 0, [26])], 1, 0⟩
def c3U1_7i : UnionFind := ⟨[0, 1, 2, 3, 4, 5, 6, 7, 8, 9, 6, 11, 9, 6, 11, 12, 6, 11, 12, 6, 20, 21, 22, 23, 24, 25, 26]⟩
def c3U1_7o : UnionFind := ⟨[0, 1, 2, 3, 4, 5, 6, 7, 8, 9, 6, 11, 9, 6, 11, 12, 6, 11, 12, 6, 20, 21, 22, 23, 24, 25, 26]⟩
def c3T1_8i : Table 3 1 := ⟨[([2, 1, 7], [8]), ([4294967295, 4294967295, 4294967295], [4294967295]), ([4294967295, 4294967295, 4294967295], [4294967295]), ([2, 1, 11], [12]), ([3, 1, 20], [25])], [([2, 1, 7], 0, [8]), ([2, 1, 11], 3, [12]), ([3, 1, 20], 4, [25])], 3, 2⟩
def c3T1_8o : Table 3 1 := ⟨[([2, 1, 7], [8]), ([4294967295, 4294967295, 4294967295], [4294967295]), ([4294967295, 4294967295, 4294967295], [4294967295]), ([4294967295, 4294967295, 4294967295], [4294967295]), ([3, 1, 20], [25]), ([2, 1, 11], [9])], [([2, 1, 7], 0, [8]), ([3, 1, 20], 4, [25]), ([2, 1, 11], 5, [9])], 3, 3⟩
def c3U1_8i : UnionFind := ⟨[0, 1, 2, 3, 4, 5, 6, 7, 8, 9, 6, 11, 9, 6, 11, 12, 6, 11, 12, 6, 20, 21, 22, 23, 24, 25, 26]⟩
def c3U1_8o : UnionFind := ⟨[0, 1, 2, 3, 4, 5, 6, 7, 8, 9, 6, 11, 9, 6, 11, 12, 6, 11, 12, 6, 20, 21, 22, 23, 24, 25, 26]⟩
def c3T1_9i : Table 2 1 := ⟨[([1, 6], [7]), ([4294967295, 4294967295], [4294967295]), ([4294967295, 4294967295], [4294967295]), ([9, 6], [11]), ([12, 6], [20])], [([1, 6], 0, [7]), ([9, 6], 3, [11]), ([12, 6], 4, [20])], 3, 2⟩
def c3T1_9o : Table 2 1 := ⟨[([1, 6], [7]), ([4294967295, 4294967295], [4294967295]), ([4294967295, 4294967295], [4294967295]), ([4294967295, 4294967295], [4294967295]), ([4294967295, 4294967295], [4294967295]), ([9, 6], [11])], [([1, 6], 0, [7]), ([9, 6], 5, [11])], 2, 4⟩
def c3U1_9i : UnionFind := ⟨[0, 1, 2, 3, 4, 5, 6, 7, 8, 9, 6, 11, 9, 6, 11, 12, 6, 11, 12, 6, 20, 21, 22, 23, 24, 25, 26]⟩
def c3U1_9o : UnionFind := ⟨[0, 1, 2, 3, 4, 5, 6, 7, 8, 9, 6, 11, 9, 6, 11, 12, 6, 11, 12, 6, 11, 21, 22, 23, 24, 25, 26]⟩
def c3GM1 : Graph :=
  ⟨c3T1_1i, c3T1_2i, c3T1_3i, c3T1_4i, c3T1_5i, c3T1_6i, c3T1_7i, c3T1_8i, c3T1_9i, Table.new 1 2, c3UFcb1⟩
def c3G1 : Graph :=
  ⟨c3T1_1o, c3T1_2o, c3T1_3o, c3T1_4o, c3T1_5o, c3T1_6o, c3T1_7o, c3T1_8o, c3T1_9o, Table.new 1 2, c3U1_9o⟩
def c3ts2 : List Term := [Term.Constant (-1) 6, Term.Param 0 1, Term.Start 0, Term.Region 5 24 2, Term.Region 22 23 3, Term.Branch 0 1 21, Term.Branch 2 20 4, Term.ControlProj 21 0 22, Term.ControlProj 21 1 5, Term.ControlProj 4 0 23, Term.ControlProj 4 1 24, Term.Finish 3 25 26, Term.Phi 2 1 7 8, Term.Phi 3 1 20 25, Term.Phi 2 1 11 9, Term.Add 1 6 7, Term.Add 9 6 11]
def c3L2_1 : UnionFind := ⟨[0, 0, 0, 0, 0, 0, 0, 0, 0, 0, 0, 0, 0, 0, 0, 0, 0, 0, 0, 0, 0, 0, 0, 0, 0, 0, 0]⟩
def c3C2_1 : UnionFind := ⟨[0, 0, 0, 0, 0, 0, 0, 0, 0, 0, 0, 0, 0, 0, 0, 0, 0, 0, 0, 0, 0, 0, 0, 0, 0, 0, 0]⟩
def c3O2_1 : List (List Term) := [[Term.Start 0], [Term.Param 0 0], [Term.Region 0 0 0], [Term.Region 0 0 0], [Term.Branch 0 0 0], [Term.ControlProj 0 1 0], [Term.Constant (-1) 0], [Term.Add 0 0 0], [Term.Phi 0 0 0 0], [Term.Phi 0 0 0 0], [], [Term.Add 0 0 0], [], [], [], [], [], [], [], [], [], [Term.Branch 0 0 0], [Term.ControlProj 0 0 0], [Term.ControlProj 0 0 0], [Term.ControlProj 0 1 0], [Term.Phi 0 0 0 0], [Term.Finish 0 0 0]]
def c3N2_1 : UnionFind := ⟨[0, 1, 2, 2, 4, 5, 6, 7, 8, 8, 10, 7, 12, 13, 14, 15, 16, 17, 18, 19, 20, 4, 22, 22, 5, 8, 26]⟩
def c3L2_2 : UnionFind := ⟨[0, 1, 2, 2, 4, 5, 6, 7, 8, 8, 10, 7, 12, 13, 14, 15, 16, 17, 18, 19, 20, 4, 22, 22, 5, 8, 26]⟩
def c3C2_2 : UnionFind := ⟨[0, 1, 2, 2, 4, 5, 6, 7, 8, 8, 10, 7, 12, 13, 14, 15, 16, 17, 18, 19, 20, 4, 22, 22, 5, 8, 26]⟩
def c3O2_2 : List (List Term) := [[Term.Start 0], [Term.Param 0 1], [Term.Region 5 5 2], [Term.Region 22 22 2], [Term.Branch 2 20 4], [Term.ControlProj 4 1 5], [Term.Constant (-1) 6], [Term.Add 1 6 7], [Term.Phi 2 1 7 8], [Term.Phi 2 1 7 8], [], [Term.Add 8 6 7], [], [], [], [], [], [], [], [], [], [Term.Branch 0 1 4], [Term.ControlProj 4 0 22], [Term.ControlProj 4 0 22], [Term.ControlProj 4 1 5], [Term.Phi 2 1 20 8], [Term.Finish 2 8 26]]
def c3N2_2 : UnionFind := ⟨[0, 1, 2, 3, 4, 5, 6, 7, 8, 8, 10, 11, 12, 13, 14, 15, 16, 17, 18, 19, 20, 21, 22, 22, 5, 25, 26]⟩
def c3L2_3 : UnionFind := ⟨[0, 1, 2, 3, 4, 5, 6, 7, 8, 8, 10, 11, 12, 13, 14, 15, 16, 17, 18, 19, 20, 21, 22, 22, 5, 25, 26]⟩
def c3C2_3 : UnionFind := ⟨[0, 1, 2, 3, 4, 5, 6, 7, 8, 8, 10, 11, 12, 13, 14, 15, 16, 17, 18, 19, 20, 21, 22, 22, 5, 25, 26]⟩
def c3O2_3 : List (List Term) := [[Term.Start 0], [Term.Param 0 1], [Term.Region 5 5 2], [Term.Region 22 22 3], [Term.Branch 2 20 4], [Term.ControlProj 21 1 5], [Term.Constant (-1) 6], [Term.Add 1 6 7], [Term.Phi 2 1 7 8], [Term.Phi 2 1 11 8], [], [Term.Add 8 6 11], [], [], [], [], [], [], [], [], [], [Term.Branch 0 1 21], [Term.ControlProj 21 0 22], [Term.ControlProj 4 0 22], [Term.ControlProj 4 1 5], [Term.Phi 3 1 20 25], [Term.Finish 3 25 26]]
def c3N2_3 : UnionFind := ⟨[0, 1, 2, 3, 4, 5, 6, 7, 8, 9, 10, 11, 12, 13, 14, 15, 16, 17, 18, 19, 20, 21, 22, 23, 24, 25, 26]⟩
def c3L2_4 : UnionFind := ⟨[0, 1, 2, 3, 4, 5, 6, 7, 8, 9, 10, 11, 12, 13, 14, 15, 16, 17, 18, 19, 20, 21, 22, 23, 24, 25, 26]⟩
def c3C2_4 : UnionFind := ⟨[0, 1, 2, 3, 4, 5, 6, 7, 8, 9, 10, 11, 12, 13, 14, 15, 16, 17, 18, 19, 20, 21, 22, 23, 24, 25, 26]⟩
def c3O2_4 : List (List Term) := [[Term.Start 0], [Term.Param 0 1], [Term.Region 5 24 2], [Term.Region 22 23 3], [Term.Branch 2 20 4], [Term.ControlProj 21 1 5], [Term.Constant (-1) 6], [Term.Add 1 6 7], [Term.Phi 2 1 7 8], [Term.Phi 2 1 11 9], [], [Term.Add 9 6 11], [], [], [], [], [], [], [], [], [], [Term.Branch 0 1 21], [Term.ControlProj 21 0 22], [Term.ControlProj 4 0 23], [Term.ControlProj 4 1 24], [Term.Phi 3 1 20 25], [Term.Finish 3 25 26]]
def c3N2_4 : UnionFind := ⟨[0, 1, 2, 3, 4, 5, 6, 7, 8, 9, 10, 11, 12, 13, 14, 15, 16, 17, 18, 19, 20, 21, 22, 23, 24, 25, 26]⟩
def c3UFin2 : UnionFind := ⟨[0, 1, 2, 3, 4, 5, 6, 7, 8, 9, 6, 11, 9, 6, 11, 12, 6, 11, 12, 6, 11, 21, 22, 23, 24, 25, 26]⟩
def c3UFcb2 : UnionFind := ⟨[0, 1, 2, 3, 4, 5, 6, 7, 8, 9, 6, 11, 9, 6, 11, 12, 6, 11, 12, 6, 11, 21, 22, 23, 24, 25, 26]⟩
def c3T2_1i : Table 1 1 := ⟨[([4294967295], [4294967295]), ([4294967295], [4294967295]), ([4294967295], [4294967295]), ([4294967295], [4294967295]), ([4294967295], [6])], [([4294967295], 4, [6])], 1, 4⟩
def c3T2_1o : Table 1 1 := ⟨[([4294967295], [4294967295]), ([4294967295], [4294967295]), ([4294967295], [4294967295]), ([4294967295], [4294967295]), ([4294967295], [6])], [([4294967295], 4, [6])], 1, 4⟩
def c3U2_1i : UnionFind := ⟨[0, 1, 2, 3, 4, 5, 6, 7, 8, 9, 6, 11, 9, 6, 11, 12, 6, 11, 12, 6, 11, 21, 22, 23, 24, 25, 26]⟩
def c3U2_1o : UnionFind := ⟨[0, 1, 2, 3, 4, 5, 6, 7, 8, 9, 6, 11, 9, 6, 11, 12, 6, 11, 12, 6, 11, 21, 22, 23, 24, 25, 26]⟩
def c3T2_2i : Table 1 1 := ⟨[([0], [1])], [([0], 0, [1])], 1, 0⟩
def c3T2_2o : Table 1 1 := ⟨[([0], [1])], [([0], 0, [1])], 1, 0⟩
def c3U2_2i : UnionFind := ⟨[0, 1, 2, 3, 4, 5, 6, 7, 8, 9, 6, 11, 9, 6, 11, 12, 6, 11, 12, 6, 11, 21, 22, 23, 24, 25, 26]⟩
def c3U2_2o : UnionFind := ⟨[0, 1, 2, 3, 4, 5, 6, 7, 8, 9, 6, 11, 9, 6, 11, 12, 6, 11, 12, 6, 11, 21, 22, 23, 24, 25, 26]⟩
def c3T2_3i : Table 0 1 := ⟨[([], [0])], [([], 0, [0])], 1, 0⟩
def c3T2_3o : Table 0 1 := ⟨[([], [0])], [([], 0, [0])], 1, 0⟩
def c3U2_3i : UnionFind := ⟨[0, 1, 2, 3, 4, 5, 6, 7, 8, 9, 6, 11, 9, 6, 11, 12, 6, 11, 12, 6, 11, 21, 22, 23, 24, 25, 26]⟩
def c3U2_3o : UnionFind := ⟨[0, 1, 2, 3, 4, 5, 6, 7, 8, 9, 6, 11, 9, 6, 11, 12, 6, 11, 12, 6, 11, 21, 22, 23, 24, 25, 26]⟩
def c3T2_4i : Table 2 1 := ⟨[([5, 24], [2]), ([22, 23], [3])], [([5, 24], 0, [2]), ([22, 23], 1, [3])], 2, 0⟩
def c3T2_4o : Table 2 1 := ⟨[([5, 24], [2]), ([22, 23], [3])], [([5, 24], 0, [2]), ([22, 23], 1, [3])], 2, 0⟩
def c3U2_4i : UnionFind := ⟨[0, 1, 2, 3, 4, 5, 6, 7, 8, 9, 6, 11, 9, 6, 11, 12, 6, 11, 12, 6, 11, 21, 22, 23, 24, 25, 26]⟩
def c3U2_4o : UnionFind := ⟨[0, 1, 2, 3, 4, 5, 6, 7, 8, 9, 6, 11, 9, 6, 11, 12, 6, 11, 12, 6, 11, 21, 22, 23, 24, 25, 26]⟩
def c3T2_5i : Table 2 1 := ⟨[([0, 1], [21]), ([2, 20], [4])], [([0, 1], 0, [21]), ([2, 20], 1, [4])], 2, 0⟩
def c3T2_5o : Table 2 1 := ⟨[([0, 1], [21]), ([4294967295, 4294967295], [4294967295]), ([2, 11], [4])], [([0, 1], 0, [21]), ([2, 11], 2, [4])], 2, 1⟩
def c3U2_5i : UnionFind := ⟨[0, 1, 2, 3, 4, 5, 6, 7, 8, 9, 6, 11, 9, 6, 11, 12, 6, 11, 12, 6, 11, 21, 22, 23, 24, 25, 26]⟩
def c3U2_5o : UnionFind := ⟨[0, 1, 2, 3, 4, 5, 6, 7, 8, 9, 6, 11, 9, 6, 11, 12, 6, 11, 12, 6, 11, 21, 22, 23, 24, 25, 26]⟩
def c3T2_6i : Table 2 1 := ⟨[([21, 0], [22]), ([21, 1], [5]), ([4, 0], [23]), ([4, 1], [24])], [([21, 0], 0, [22]), ([21, 1], 1, [5]), ([4, 0], 2, [23]), ([4, 1], 3, [24])], 4, 0⟩
def c3T2_6o : Table 2 1 := ⟨[([21, 0], [22]), ([21, 1], [5]), ([4, 0], [23]), ([4, 1], [24])], [([21, 0], 0, [22]), ([21, 1], 1, [5]), ([4, 0], 2, [23]), ([4, 1], 3, [24])], 4, 0⟩
def c3U2_6i : UnionFind := ⟨[0, 1, 2, 3, 4, 5, 6, 7, 8, 9, 6, 11, 9, 6, 11, 12, 6, 11, 12, 6, 11, 21, 22, 23, 24, 25, 26]⟩
def c3U2_6o : UnionFind := ⟨[0, 1, 2, 3, 4, 5, 6, 7, 8, 9, 6, 11, 9, 6, 11, 12, 6, 11, 12, 6, 11, 21, 22, 23, 24, 25, 26]⟩
def c3T2_7i : Table 2 1 := ⟨[([3, 25], [26])], [([3, 25], 0, [26])], 1, 0⟩
def c3T2_7o : Table 2 1 := ⟨[([3, 25], [26])], [([3, 25], 0, [26])], 1, 0⟩
def c3U2_7i : UnionFind := ⟨[0, 1, 2, 3, 4, 5, 6, 7, 8, 9, 6, 11, 9, 6, 11, 12, 6, 11, 12, 6, 11, 21, 22, 23, 24, 25, 26]⟩
def c3U2_7o : UnionFind := ⟨[0, 1, 2, 3, 4, 5, 6, 7, 8, 9, 6, 11, 9, 6, 11, 12, 6, 11, 12, 6, 11, 21, 22, 23, 24, 25, 26]⟩
def c3T2_8i : Table 3 1 := ⟨[([2, 1, 7], [8]), ([4294967295, 4294967295, 4294967295], [4294967295]), ([4294967295, 4294967295, 4294967295], [4294967295]), ([4294967295, 4294967295, 4294967295], [4294967295]), ([3, 1, 20], [25]), ([2, 1, 11], [9])], [([2, 1, 7], 0, [8]), ([3, 1, 20], 4, [25]), ([2, 1, 11], 5, [9])], 3, 3⟩
def c3T2_8o : Table 3 1 := ⟨[([2, 1, 7], [8]), ([4294967295, 4294967295, 4294967295], [4294967295]), ([4294967295, 4294967295, 4294967295], [4294967295]), ([4294967295, 4294967295, 4294967295], [4294967295]), ([4294967295, 4294967295, 4294967295], [4294967295]), ([2, 1, 11], [9]), ([3, 1, 11], [25])], [([2, 1, 7], 0, [8]), ([2, 1, 11], 5, [9]), ([3, 1, 11], 6, [25])], 3, 4⟩
def c3U2_8i : UnionFind := ⟨[0, 1, 2, 3, 4, 5, 6, 7, 8, 9, 6, 11, 9, 6, 11, 12, 6, 11, 12, 6, 11, 21, 22, 23, 24, 25, 26]⟩
def c3U2_8o : UnionFind := ⟨[0, 1, 2, 3, 4, 5, 6, 7, 8, 9, 6, 11, 9, 6, 11, 12, 6, 11, 12, 6, 11, 21, 22, 23, 24, 25, 26]⟩
def c3T2_9i : Table 2 1 := ⟨[([1, 6], [7]), ([4294967295, 4294967295], [4294967295]), ([4294967295, 4294967295], [4294967295]), ([4294967295, 4294967295], [4294967295]), ([4294967295, 4294967295], [4294967295]), ([9, 6], [11])], [([1, 6], 0, [7]), ([9, 6], 5, [11])], 2, 4⟩
def c3T2_9o : Table 2 1 := ⟨[([1, 6], [7]), ([4294967295, 4294967295], [4294967295]), ([4294967295, 4294967295], [4294967295]), ([4294967295, 4294967295], [4294967295]), ([4294967295, 4294967295], [4294967295]), ([9, 6], [11])], [([1, 6], 0, [7]), ([9, 6], 5, [11])], 2, 4⟩
def c3U2_9i : UnionFind := ⟨[0, 1, 2, 3, 4, 5, 6, 7, 8, 9, 6, 11, 9, 6, 11, 12, 6, 11, 12, 6, 11, 21, 22, 23, 24, 25, 26]⟩
def c3U2_9o : UnionFind := ⟨[0, 1, 2, 3, 4, 5, 6, 7, 8, 9, 6, 11, 9, 6, 11, 12, 6, 11, 12, 6, 11, 21, 22, 23, 24, 25, 26]⟩
def c3GM2 : Graph :=
  ⟨c3T2_1i, c3T2_2i, c3T2_3i, c3T2_4i, c3T2_5i, c3T2_6i, c3T2_7i, c3T2_8i, c3T2_9i, Table.new 1 2, c3UFcb2⟩
def c3G2 : Graph :=
  ⟨c3T2_1o, c3T2_2o, c3T2_3o, c3T2_4o, c3T2_5o, c3T2_6o, c3T2_7o, c3T2_8o, c3T2_9o, Table.new 1 2, c3U2_9o⟩
def c3ts3 : List Term := [Term.Constant (-1) 6, Term.Param 0 1, Term.Start 0, Term.Region 5 24 2, Term.Region 22 23 3, Term.Branch 0 1 21, Term.Branch 2 11 4, Term.ControlProj 21 0 22, Term.ControlProj 21 1 5, Term.ControlProj 4 0 23, Term.ControlProj 4 1 24, Term.Finish 3 25 26, Term.Phi 2 1 7 8, Term.Phi 2 1 11 9, Term.Phi 3 1 11 25, Term.Add 1 6 7, Term.Add 9 6 11]
def c3L3_1 : UnionFind := ⟨[0, 0, 0, 0, 0, 0, 0, 0, 0, 0, 0, 0, 0, 0, 0, 0, 0, 0, 0, 0, 0, 0, 0, 0, 0, 0, 0]⟩
def c3C3_1 : UnionFind := ⟨[0, 0, 0, 0, 0, 0, 0, 0, 0, 0, 0, 0, 0, 0, 0, 0, 0, 0, 0, 0, 0, 0, 0, 0, 0, 0, 0]⟩
def c3O3_1 : List (List Term) := [[Term.Start 0], [Term.Param 0 0], [Term.Region 0 0 0], [Term.Region 0 0 0], [Term.Branch 0 0 0], [Term.ControlProj 0 1 0], [Term.Constant (-1) 0], [Term.Add 0 0 0], [Term.Phi 0 0 0 0], [Term.Phi 0 0 0 0], [], [Term.Add 0 0 0], [], [], [], [], [], [], [], [], [], [Term.Branch 0 0 0], [Term.ControlProj 0 0 0], [Term.ControlProj 0 0 0], [Term.ControlProj 0 1 0], [Term.Phi 0 0 0 0], [Term.Finish 0 0 0]]
def c3N3_1 : UnionFind := ⟨[0, 1, 2, 2, 4, 5, 6, 7, 8, 8, 10, 7, 12, 13, 14, 15, 16, 17, 18, 19, 20, 4, 22, 22, 5, 8, 26]⟩
def c3L3_2 : UnionFind := ⟨[0, 1, 2, 2, 4, 5, 6, 7, 8, 8, 10, 7, 12, 13, 14, 15, 16, 17, 18, 19, 20, 4, 22, 22, 5, 8, 26]⟩
def c3C3_2 : UnionFind := ⟨[0, 1, 2, 2, 4, 5, 6, 7, 8, 8, 10, 7, 12, 13, 14, 15, 16, 17, 18, 19, 20, 4, 22, 22, 5, 8, 26]⟩
def c3O3_2 : List (List Term) := [[Term.Start 0], [Term.Param 0 1], [Term.Region 5 5 2], [Term.Region 22 22 2], [Term.Branch 2 7 4], [Term.ControlProj 4 1 5], [Term.Constant (-1) 6], [Term.Add 1 6 7], [Term.Phi 2 1 7 8], [Term.Phi 2 1 7 8], [], [Term.Add 8 6 7], [], [], [], [], [], [], [], [], [], [Term.Branch 0 1 4], [Term.ControlProj 4 0 22], [Term.ControlProj 4 0 22], [Term.ControlProj 4 1 5], [Term.Phi 2 1 7 8], [Term.Finish 2 8 26]]
def c3N3_2 : UnionFind := ⟨[0, 1, 2, 3, 4, 5, 6, 7, 8, 8, 10, 11, 12, 13, 14, 15, 16, 17, 18, 19, 20, 21, 22, 22, 5, 8, 26]⟩
def c3L3_3 : UnionFind := ⟨[0, 1, 2, 3, 4, 5, 6, 7, 8, 8, 10, 11, 12, 13, 14, 15, 16, 17, 18, 19, 20, 21, 22, 22, 5, 8, 26]⟩
def c3C3_3 : UnionFind := ⟨[0, 1, 2, 3, 4, 5, 6, 7, 8, 8, 10, 11, 12, 13, 14, 15, 16, 17, 18, 19, 20, 21, 22, 22, 5, 8, 26]⟩
def c3O3_3 : List (List Term) := [[Term.Start 0], [Term.Param 0 1], [Term.Region 5 5 2], [Term.Region 22 22 3], [Term.Branch 2 11 4], [Term.ControlProj 21 1 5], [Term.Constant (-1) 6], [Term.Add 1 6 7], [Term.Phi 2 1 7 8], [Term.Phi 2 1 11 8], [], [Term.Add 8 6 11], [], [], [], [], [], [], [], [], [], [Term.Branch 0 1 21], [Term.ControlProj 21 0 22], [Term.ControlProj 4 0 22], [Term.ControlProj 4 1 5], [Term.Phi 3 1 11 8], [Term.Finish 3 8 26]]
def c3N3_3 : UnionFind := ⟨[0, 1, 2, 3, 4, 5, 6, 7, 8, 9, 10, 11, 12, 13, 14, 15, 16, 17, 18, 19, 20, 21, 22, 23, 24, 25, 26]⟩
def c3L3_4 : UnionFind := ⟨[0, 1, 2, 3, 4, 5, 6, 7, 8, 9, 10, 11, 12, 13, 14, 15, 16, 17, 18, 19, 20, 21, 22, 23, 24, 25, 26]⟩
def c3C3_4 : UnionFind := ⟨[0, 1, 2, 3, 4, 5, 6, 7, 8, 9, 10, 11, 12, 13, 14, 15, 16, 17, 18, 19, 20, 21, 22, 23, 24, 25, 26]⟩
def c3O3_4 : List (List Term) := [[Term.Start 0], [Term.Param 0 1], [Term.Region 5 24 2], [Term.Region 22 23 3], [Term.Branch 2 11 4], [Term.ControlProj 21 1 5], [Term.Constant (-1) 6], [Term.Add 1 6 7], [Term.Phi 2 1 7 8], [Term.Phi 2 1 11 9], [], [Term.Add 9 6 11], [], [], [], [], [], [], [], [], [], [Term.Branch 0 1 21], [Term.ControlProj 21 0 22], [Term.ControlProj 4 0 23], [Term.ControlProj 4 1 24], [Term.Phi 3 1 11 25], [Term.Finish 3 25 26]]
def c3N3_4 : UnionFind := ⟨[0, 1, 2, 3, 4, 5, 6, 7, 8, 9, 10, 11, 12, 13, 14, 15, 16, 17, 18, 19, 20, 21, 22, 23, 24, 25, 26]⟩
def c3UFin3 : UnionFind := ⟨[0, 1, 2, 3, 4, 5, 6, 7, 8, 9, 6, 11, 9, 6, 11, 12, 6, 11, 12, 6, 11, 21, 22, 23, 24, 25, 26]⟩
def c3UFcb3 : UnionFind := ⟨[0, 1, 2, 3, 4, 5, 6, 7, 8, 9, 6, 11, 9, 6, 11, 12, 6, 11, 12, 6, 11, 21, 22, 23, 24, 25, 26]⟩
def c3T3_1i : Table 1 1 := ⟨[([4294967295], [4294967295]), ([4294967295], [4294967295]), ([4294967295], [4294967295]), ([4294967295], [4294967295]), ([4294967295], [6])], [([4294967295], 4, [6])], 1, 4⟩
def c3T3_1o : Table 1 1 := ⟨[([4294967295], [4294967295]), ([4294967295], [4294967295]), ([4294967295], [4294967295]), ([4294967295], [4294967295]), ([4294967295], [6])], [([4294967295], 4, [6])], 1, 4⟩
def c3U3_1i : UnionFind := ⟨[0, 1, 2, 3, 4, 5, 6, 7, 8, 9, 6, 11, 9, 6, 11, 12, 6, 11, 12, 6, 11, 21, 22, 23, 24, 25, 26]⟩
def c3U3_1o : UnionFind := ⟨[0, 1, 2, 3, 4, 5, 6, 7, 8, 9, 6, 11, 9, 6, 11, 12, 6, 11, 12, 6, 11, 21, 22, 23, 24, 25, 26]⟩
def c3T3_2i : Table 1 1 := ⟨[([0], [1])], [([0], 0, [1])], 1, 0⟩
def c3T3_2o : Table 1 1 := ⟨[([0], [1])], [([0], 0, [1])], 1, 0⟩
def c3U3_2i : UnionFind := ⟨[0, 1, 2, 3, 4, 5, 6, 7, 8, 9, 6, 11, 9, 6, 11, 12, 6, 11, 12, 6, 11, 21, 22, 23, 24, 25, 26]⟩
def c3U3_2o : UnionFind := ⟨[0, 1, 2, 3, 4, 5, 6, 7, 8, 9, 6, 11, 9, 6, 11, 12, 6, 11, 12, 6, 11, 21, 22, 23, 24, 25, 26]⟩
def c3T3_3i : Table 0 1 := ⟨[([], [0])], [([], 0, [0])], 1, 0⟩
def c3T3_3o : Table 0 1 := ⟨[([], [0])], [([], 0, [0])], 1, 0⟩
def c3U3_3i : UnionFind := ⟨[0, 1, 2, 3, 4, 5, 6, 7, 8, 9, 6, 11, 9, 6, 11, 12, 6, 11, 12, 6, 11, 21, 22, 23, 24, 25, 26]⟩
def c3U3_3o : UnionFind := ⟨[0, 1, 2, 3, 4, 5, 6, 7, 8, 9, 6, 11, 9, 6, 11, 12, 6, 11, 12, 6, 11, 21, 22, 23, 24, 25, 26]⟩
def c3T3_4i : Table 2 1 := ⟨[([5, 24], [2]), ([22, 23], [3])], [([5, 24], 0, [2]), ([22, 23], 1, [3])], 2, 0⟩
def c3T3_4o : Table 2 1 := ⟨[([5, 24], [2]), ([22, 23], [3])], [([5, 24], 0, [2]), ([22, 23], 1, [3])], 2, 0⟩
def c3U3_4i : UnionFind := ⟨[0, 1, 2, 3, 4, 5, 6, 7, 8, 9, 6, 11, 9, 6, 11, 12, 6, 11, 12, 6, 11, 21, 22, 23, 24, 25, 26]⟩
def c3U3_4o : UnionFind := ⟨[0, 1, 2, 3, 4, 5, 6, 7, 8, 9, 6, 11, 9, 6, 11, 12, 6, 11, 12, 6, 11, 21, 22, 23, 24, 25, 26]⟩
def c3T3_5i : Table 2 1 := ⟨[([0, 1], [21]), ([4294967295, 4294967295], [4294967295]), ([2, 11], [4])], [([0, 1], 0, [21]), ([2, 11], 2, [4])], 2, 1⟩
def c3T3_5o : Table 2 1 := ⟨[([0, 1], [21]), ([4294967295, 4294967295], [4294967295]), ([2, 11], [4])], [([0, 1], 0, [21]), ([2, 11], 2, [4])], 2, 1⟩
def c3U3_5i : UnionFind := ⟨[0, 1, 2, 3, 4, 5, 6, 7, 8, 9, 6, 11, 9, 6, 11, 12, 6, 11, 12, 6, 11, 21, 22, 23, 24, 25, 26]⟩
def c3U3_5o : UnionFind := ⟨[0, 1, 2, 3, 4, 5, 6, 7, 8, 9, 6, 11, 9, 6, 11, 12, 6, 11, 12, 6, 11, 21, 22, 23, 24, 25, 26]⟩
def c3T3_6i : Table 2 1 := ⟨[([21, 0], [22]), ([21, 1], [5]), ([4, 0], [23]), ([4, 1], [24])], [([21, 0], 0, [22]), ([21, 1], 1, [5]), ([4, 0], 2, [23]), ([4, 1], 3, [24])], 4, 0⟩
def c3T3_6o : Table 2 1 := ⟨[([21, 0], [22]), ([21, 1], [5]), ([4, 0], [23]), ([4, 1], [24])], [([21, 0], 0, [22]), ([21, 1], 1, [5]), ([4, 0], 2, [23]), ([4, 1], 3, [24])], 4, 0⟩
def c3U3_6i : UnionFind := ⟨[0, 1, 2, 3, 4, 5, 6, 7, 8, 9, 6, 11, 9, 6, 11, 12, 6, 11, 12, 6, 11, 21, 22, 23, 24, 25, 26]⟩
def c3U3_6o : UnionFind := ⟨[0, 1, 2, 3, 4, 5, 6, 7, 8, 9, 6, 11, 9, 6, 11, 12, 6, 11, 12, 6, 11, 21, 22, 23, 24, 25, 26]⟩
def c3T3_7i : Table 2 1 := ⟨[([3, 25], [26])], [([3, 25], 0, [26])], 1, 0⟩
def c3T3_7o : Table 2 1 := ⟨[([3, 25], [26])], [([3, 25], 0, [26])], 1, 0⟩
def c3U3_7i : UnionFind := ⟨[0, 1, 2, 3, 4, 5, 6, 7, 8, 9, 6, 11, 9, 6, 11, 12, 6, 11, 12, 6, 11, 21, 22, 23, 24, 25, 26]⟩
def c3U3_7o : UnionFind := ⟨[0, 1, 2, 3, 4, 5, 6, 7, 8, 9, 6, 11, 9, 6, 11, 12, 6, 11, 12, 6, 11, 21, 22, 23, 24, 25, 26]⟩
def c3T3_8i : Table 3 1 := ⟨[([2, 1, 7], [8]), ([4294967295, 4294967295, 4294967295], [4294967295]), ([4294967295, 4294967295, 4294967295], [4294967295]), ([4294967295, 4294967295, 4294967295], [4294967295]), ([4294967295, 4294967295, 4294967295], [4294967295]), ([2, 1, 11], [9]), ([3, 1, 11], [25])], [([2, 1, 7], 0, [8]), ([2, 1, 11], 5, [9]), ([3, 1, 11], 6, [25])], 3, 4⟩
def c3T3_8o : Table 3 1 := ⟨[([2, 1, 7], [8]), ([4294967295, 4294967295, 4294967295], [4294967295]), ([4294967295, 4294967295, 4294967295], [4294967295]), ([4294967295, 4294967295, 4294967295], [4294967295]), ([4294967295, 4294967295, 4294967295], [4294967295]), ([2, 1, 11], [9]), ([3, 1, 11], [25])], [([2, 1, 7], 0, [8]), ([2, 1, 11], 5, [9]), ([3, 1, 11], 6, [25])], 3, 4⟩
def c3U3_8i : UnionFind := ⟨[0, 1, 2, 3, 4, 5, 6, 7, 8, 9, 6, 11, 9, 6, 11, 12, 6, 11, 12, 6, 11, 21, 22, 23, 24, 25, 26]⟩
def c3U3_8o : UnionFind := ⟨[0, 1, 2, 3, 4, 5, 6, 7, 8, 9, 6, 11, 9, 6, 11, 12, 6, 11, 12, 6, 11, 21, 22, 23, 24, 25, 26]⟩
def c3T3_9i : Table 2 1 := ⟨[([1, 6], [7]), ([4294967295, 4294967295], [4294967295]), ([4294967295, 4294967295], [4294967295]), ([4294967295, 4294967295], [4294967295]), ([4294967295, 4294967295], [4294967295]), ([9, 6], [11])], [([1, 6], 0, [7]), ([9, 6], 5, [11])], 2, 4⟩
def c3T3_9o : Table 2 1 := ⟨[([1, 6], [7]), ([4294967295, 4294967295], [4294967295]), ([4294967295, 4294967295], [4294967295]), ([4294967295, 4294967295], [4294967295]), ([4294967295, 4294967295], [4294967295]), ([9, 6], [11])], [([1, 6], 0, [7]), ([9, 6], 5, [11])], 2, 4⟩
def c3U3_9i : UnionFind := ⟨[0, 1, 2, 3, 4, 5, 6, 7, 8, 9, 6, 11, 9, 6, 11, 12, 6, 11, 12, 6, 11, 21, 22, 23, 24, 25, 26]⟩
def c3U3_9o : UnionFind := ⟨[0, 1, 2, 3, 4, 5, 6, 7, 8, 9, 6, 11, 9, 6, 11, 12, 6, 11, 12, 6, 11, 21, 22, 23, 24, 25, 26]⟩
def c3GM3 : Graph :=
  ⟨c3T3_1i, c3T3_2i, c3T3_3i, c3T3_4i, c3T3_5i, c3T3_6i, c3T3_7i, c3T3_8i, c3T3_9i, Table.new 1 2, c3UFcb3⟩
def c3G3 : Graph :=
  ⟨c3T3_1o, c3T3_2o, c3T3_3o, c3T3_4o, c3T3_5o, c3T3_6o, c3T3_7o, c3T3_8o, c3T3_9o, Table.new 1 2, c3U3_9o⟩

/-- Per-relation live-row counts of a graph, in the table order of `dump`. -/
def tableCounts (g : Graph) : List Nat :=
  [g.constant.iterRows.length, g.param.iterRows.length, g.start.iterRows.length,
   g.region.iterRows.length, g.branch.iterRows.length,
   g.control_proj.iterRows.length, g.finish.iterRows.length,
   g.phi.iterRows.length, g.add.iterRows.length]

/-! ### Concrete states for the remaining scenarios -/

/-- Hash-consing scenario (test `hash_cons`): the successive states. -/
def c2A : Graph × Nat := Graph.new.makeset
def c2B : Graph × Term := c2A.1.insert (Term.Constant 5 c2A.2)
def c2C : Graph × Nat := c2B.1.makeset
def c2D : Graph × Term := c2C.1.insert (Term.Constant 5 c2C.2)
def c2E : Graph × Nat := c2D.1.makeset
def c2F : Graph × Term := c2E.1.insert (Term.Constant 7 c2E.2)
def c2G : Graph × Nat := c2F.1.makeset
def c2H : Graph × Term := c2G.1.insert (Term.Add c2A.2 c2E.2 c2G.2)

/-- Simple-table scenario (test `simple_table`) with the resident-keeping
merge: the successive states. -/
def c4I1 : Unit × Table 2 1 × List Nat :=
  (Table.new 2 1).insert_row [0, 1] [2] Table.keepResident ()
def c4I2 : Unit × Table 2 1 × List Nat :=
  c4I1.2.1.insert_row [0, 2] [3] Table.keepResident ()
def c4I3 : Unit × Table 2 1 × List Nat :=
  c4I2.2.1.insert_row [0, 2] [4] Table.keepResident ()
def c4I4 : Unit × Table 2 1 × List Nat :=
  c4I3.2.1.insert_row [0, 1] [5] Table.keepResident ()
def c4I5 : Unit × Table 2 1 × List Nat :=
  c4I4.2.1.insert_row [1, 2] [3] Table.keepResident ()

/-- The claim's continuation: delete the row `first_row` returns, insert
`([0,1],[5])`. -/
def c4DelFirst : Table 2 1 × Bool :=
  c4I5.2.1.delete_row ((c4I5.2.1.first_row).getD 99)
def c4AfterFirst : Unit × Table 2 1 × List Nat :=
  c4DelFirst.1.insert_row [0, 1] [5] Table.keepResident ()

/-- The source test's continuation: delete the row `next_row(first_row)`
returns (the `[0,1]` row), then insert `([0,1],[5])` and `([0,1],[7])`. -/
def c4DelSecond : Table 2 1 × Bool :=
  c4I5.2.1.delete_row
    ((c4I5.2.1.next_row ((c4I5.2.1.first_row).getD 99)).getD 99)
def c4J1 : Unit × Table 2 1 × List Nat :=
  c4DelSecond.1.insert_row [0, 1] [5] Table.keepResident ()
def c4J2 : Unit × Table 2 1 × List Nat :=
  c4J1.2.1.insert_row [0, 1] [7] Table.keepResident ()

/-- Conflict-on-resident scenario for the frame claim: one row, then an
insert with the same determinant and a different dependent. -/
def c5T1 : Unit × Table 2 1 × List Nat :=
  (Table.new 2 1).insert_row [0, 1] [2] Table.keepResident ()
def c5T2 : Unit × Table 2 1 × List Nat :=
  c5T1.2.1.insert_row [0, 1] [5] Table.keepResident ()

/-- Two union-finds with the same `find` on every class but different parent
vectors, both built through the public operations. -/
def c8mk3 : UnionFind := (((UnionFind.new.makeset).1.makeset).1.makeset).1
def c8u : UnionFind := ((c8mk3.merge 2 1).1.merge 1 0).1
def c8v : UnionFind := ((c8mk3.merge 1 0).1.merge 2 0).1

/-- The divergence witness graph: five classes, seven rows, built through
the public `makeset`/`insert` interface (no merges, so the union-find is
still the identity when `rebuild` starts). -/
def c9mk5 : Graph :=
  (((((Graph.new.makeset).1.makeset).1.makeset).1.makeset).1.makeset).1
def c9G : Graph :=
  (((((((c9mk5.insert (Term.Finish 0 1 4)).1.insert (Term.Add 0 4 3)).1.insert
    (Term.Add 1 2 1)).1.insert (Term.Region 3 4 4)).1.insert
    (Term.Region 1 3 3)).1.insert (Term.Finish 0 3 0)).1.insert
    (Term.Add 2 3 2)).1
def c9ts : List Term :=
  [Term.Region 3 4 4, Term.Region 1 3 3, Term.Finish 0 1 4, Term.Finish 0 3 0,
   Term.Add 0 4 3, Term.Add 1 2 1, Term.Add 2 3 2]
def c9L : UnionFind := ⟨[0, 0, 1, 0, 0]⟩
def c9A : UnionFind := ⟨[0, 0, 0, 0, 0]⟩

/-! ### Invariant and specification predicates for the remaining claims -/

namespace UnionFind

/-- The coarsening `merge x y` is specified to perform: `a` and `b` are
related when they are already in one class, or they sit in the classes of
`x` and `y` (in either order). -/
def relPlus (uf : UnionFind) (x y a b : Nat) : Prop :=
  uf.root a = uf.root b ∨
  (uf.root a = uf.root x ∧ uf.root b = uf.root y) ∨
  (uf.root a = uf.root y ∧ uf.root b = uf.root x)

end UnionFind


namespace Table

variable {D P : Nat}

/-- Number of live (non-tombstone) physical rows. -/
def liveCount (t : Table D P) : Nat :=
  t.contents.countP (fun r => !decide (r = emptyRow D P))

/-- Number of tombstoned physical rows. -/
def tombCount (t : Table D P) : Nat :=
  t.contents.countP (fun r => decide (r = emptyRow D P))

/-- The structural invariant tying the determine map, the physical rows and
the counters together: the map's keys are distinct, every map entry points
at a live physical row holding exactly its key and value, every live
physical row is registered in the map under its determinant, and the two
counters count the live rows and the tombstones. -/
def Core (t : Table D P) : Prop :=
  (t.dmap.map (fun e => e.1)).Nodup ∧
  (∀ e ∈ t.dmap, e.2.1 < t.contents.length ∧
    t.get_row e.2.1 = (e.1, e.2.2) ∧ (e.1, e.2.2) ≠ emptyRow D P) ∧
  (∀ i, i < t.contents.length → t.get_row i ≠ emptyRow D P →
    mapGet t.dmap (t.get_row i).1 = some (i, (t.get_row i).2)) ∧
  t.num_allocated_rows = t.liveCount ∧
  t.num_free_rows = t.tombCount

instance (t : Table D P) : Decidable t.Core := by
  unfold Core; infer_instance

/-- No map key is the all-sentinel determinant; holds when `insert_row` is
never handed one. -/
def keysRegular (t : Table D P) : Prop :=
  ∀ e ∈ t.dmap, e.1 ≠ List.replicate D EMPTY

instance (t : Table D P) : Decidable t.keysRegular := by
  unfold keysRegular; infer_instance

/-- No two live rows share a determinant tuple. -/
def DetsDistinct (t : Table D P) : Prop :=
  ∀ i, i < t.contents.length → ∀ j, j < t.contents.length →
    t.get_row i ≠ emptyRow D P → t.get_row j ≠ emptyRow D P →
    (t.get_row i).1 = (t.get_row j).1 → i = j

set_option synthInstance.maxSize 512 in
instance (t : Table D P) : Decidable t.DetsDistinct := by
  unfold DetsDistinct; infer_instance

/-- Tables reachable from `Table::new` through `insert_row` and `delete_row`
calls whose tuple arguments are never the all-sentinel tuple and whose
delete argument is in range (the Rust indexing panics otherwise).  The
merge closure is arbitrary client code. -/
inductive Reach : Table D P → Prop where
  | new : Reach (Table.new D P)
  | ins {t : Table D P} {σ : Type} (det dep : List Nat)
      (mrg : σ → List Nat → List Nat → σ × List Nat) (s : σ)
      (ht : Reach t) (hdet : det ≠ List.replicate D EMPTY)
      (hdep : dep ≠ List.replicate P EMPTY) :
      Reach (t.insert_row det dep mrg s).2.1
  | del {t : Table D P} (row : Nat) (ht : Reach t)
      (hrow : row < t.contents.length) : Reach (t.delete_row row).1

end Table


/-- Apply a function to every ClassId column of a term (the specification of
what `canonicalize` does to the stored columns). -/
def Term.mapClasses (f : Nat → Nat) : Term → Term
  | .Constant v r => .Constant v (f r)
  | .Param i r => .Param i (f r)
  | .Start r => .Start (f r)
  | .Region a b r => .Region (f a) (f b) (f r)
  | .Branch p c r => .Branch (f p) (f c) (f r)
  | .ControlProj p i r => .ControlProj (f p) i (f r)
  | .Finish p v r => .Finish (f p) (f v) (f r)
  | .Phi g a b r => .Phi (f g) (f a) (f b) (f r)
  | .Add a b r => .Add (f a) (f b) (f r)

namespace Table

variable {D P : Nat}

/-- Every dependent column of every live row is below the sentinel (true of
every reachable graph table: dependents are class ids). -/
def depsBelow (t : Table D P) : Prop :=
  ∀ r ∈ t.contents, r ≠ emptyRow D P → ∀ v ∈ r.2, v < EMPTY

instance (t : Table D P) : Decidable t.depsBelow := by
  unfold depsBelow; infer_instance

/-- Every ClassId column of every live row equals its `find`. -/
def RowsCanonical (c : Ctor) (t : Table D P) (uf : UnionFind) : Prop :=
  ∀ i, i < t.contents.length → t.get_row i ≠ emptyRow D P →
    (decodeCtor c (t.get_row i).1 (t.get_row i).2).mapClasses
      (fun x => (uf.find x).2) =
      decodeCtor c (t.get_row i).1 (t.get_row i).2

set_option synthInstance.maxSize 512 in
instance (c : Ctor) (t : Table D P) (uf : UnionFind) :
    Decidable (RowsCanonical c t uf) := by
  unfold RowsCanonical; infer_instance

end Table

namespace Graph

/-- The per-table invariants of a graph's nine term tables. -/
def TablesOK (g : Graph) : Prop :=
  g.constant.Core ∧ g.param.Core ∧ g.start.Core ∧ g.region.Core ∧
  g.branch.Core ∧ g.control_proj.Core ∧ g.finish.Core ∧ g.phi.Core ∧
  g.add.Core ∧
  g.constant.depsBelow ∧ g.param.depsBelow ∧ g.start.depsBelow ∧
  g.region.depsBelow ∧ g.branch.depsBelow ∧ g.control_proj.depsBelow ∧
  g.finish.depsBelow ∧ g.phi.depsBelow ∧ g.add.depsBelow

instance (g : Graph) : Decidable g.TablesOK := by
  unfold TablesOK; infer_instance

/-- Every ClassId column of every live row of every term table equals its
`find` in the graph's union-find. -/
def Canonical (g : Graph) : Prop :=
  Table.RowsCanonical .constant g.constant g.uf ∧
  Table.RowsCanonical .param g.param g.uf ∧
  Table.RowsCanonical .start g.start g.uf ∧
  Table.RowsCanonical .region g.region g.uf ∧
  Table.RowsCanonical .branch g.branch g.uf ∧
  Table.RowsCanonical .controlProj g.control_proj g.uf ∧
  Table.RowsCanonical .finish g.finish g.uf ∧
  Table.RowsCanonical .phi g.phi g.uf ∧
  Table.RowsCanonical .add g.add g.uf

instance (g : Graph) : Decidable g.Canonical := by
  unfold Canonical; infer_instance

/-- No two live rows of one term table share a determinant tuple. -/
def DetsOK (g : Graph) : Prop :=
  g.constant.DetsDistinct ∧ g.param.DetsDistinct ∧ g.start.DetsDistinct ∧
  g.region.DetsDistinct ∧ g.branch.DetsDistinct ∧
  g.control_proj.DetsDistinct ∧ g.finish.DetsDistinct ∧ g.phi.DetsDistinct ∧
  g.add.DetsDistinct

instance (g : Graph) : Decidable g.DetsOK := by
  unfold DetsOK; infer_instance

end Graph

def c1G2 : Graph :=
  ⟨⟨[([4294967295], [4294967295]), ([5], [0]), ([7], [2])],
    [([5], 1, [0]), ([7], 2, [2])], 2, 1⟩,
   ⟨[], [], 0, 0⟩,
   ⟨[], [], 0, 0⟩,
   ⟨[], [], 0, 0⟩,
   ⟨[], [], 0, 0⟩,
   ⟨[], [], 0, 0⟩,
   ⟨[], [], 0, 0⟩,
   ⟨[], [], 0, 0⟩,
   ⟨[([0, 2], [3])], [([0, 2], 0, [3])], 1, 0⟩,
   Table.new 1 2,
   ⟨[0, 0, 2, 3]⟩⟩

/-! ## Theorems -/

lemma corebuildStep_eq (ts : List Term) (n : Nat) (last lastC : UnionFind)
    (obs : List (List Term)) (next : UnionFind)
    (h1 : obsPhase ts last (List.replicate n []) = (lastC, obs))
    (h2 : mergePhase obs n n (UnionFind.new_all_not_equals n) = next) :
    corebuildStep ts n last = (lastC, next) := by
  simp [corebuildStep, h1, h2]

lemma corebuildLoop_step (f : Nat) (ts : List Term) (n : Nat)
    (last lastC next : UnionFind)
    (h : corebuildStep ts n last = (lastC, next)) (hne : lastC ≠ next) :
    corebuildLoop (f + 1) ts n last = corebuildLoop f ts n next := by
  simp [corebuildLoop, h, hne]

lemma corebuildLoop_done (f : Nat) (ts : List Term) (n : Nat)
    (last lastC : UnionFind)
    (h : corebuildStep ts n last = (lastC, lastC)) :
    corebuildLoop (f + 1) ts n last = some lastC := by
  simp [corebuildLoop, h]

lemma corebuild_eq {f : Nat} {ts : List Term} {uf : UnionFind} (n : Nat)
    {last uf' : UnionFind} (hn : uf.num_classes = n)
    (hl : corebuildLoop f ts n (UnionFind.new_all_equals n) = some last)
    (hfm : finalMerges n n uf last = uf') :
    corebuild f ts uf = some uf' := by
  simp [corebuild, hn, hl, hfm]

lemma rebuildTables_eq {f : Nat} {g : Graph}
    {t1 : Table 1 1} {t2 : Table 1 1} {t3 : Table 0 1} {t4 t5 t6 t7 : Table 2 1}
    {t8 : Table 3 1} {t9 : Table 2 1} {u1 u2 u3 u4 u5 u6 u7 u8 u9 : UnionFind}
    {c1 c2 c3 c4 c5 c6 c7 c8 c9 : Bool}
    (h1 : rebuild_enode_table .constant f g.constant g.uf = some (t1, u1, c1))
    (h2 : rebuild_enode_table .param f g.param u1 = some (t2, u2, c2))
    (h3 : rebuild_enode_table .start f g.start u2 = some (t3, u3, c3))
    (h4 : rebuild_enode_table .region f g.region u3 = some (t4, u4, c4))
    (h5 : rebuild_enode_table .branch f g.branch u4 = some (t5, u5, c5))
    (h6 : rebuild_enode_table .controlProj f g.control_proj u5 = some (t6, u6, c6))
    (h7 : rebuild_enode_table .finish f g.finish u6 = some (t7, u7, c7))
    (h8 : rebuild_enode_table .phi f g.phi u7 = some (t8, u8, c8))
    (h9 : rebuild_enode_table .add f g.add u8 = some (t9, u9, c9)) :
    Graph.rebuildTables f g =
      some (⟨t1, t2, t3, t4, t5, t6, t7, t8, t9, g.interval, u9⟩,
            c1 || c2 || c3 || c4 || c5 || c6 || c7 || c8 || c9) := by
  simp [Graph.rebuildTables, h1, h2, h3, h4, h5, h6, h7, h8, h9]

lemma rebuildLoop_step {f : Nat} {g : Graph} {ts : List Term}
    {uf' : UnionFind} {gm g2 : Graph}
    (hterms : g.terms = ts) (hcb : corebuild (f + 1) ts g.uf = some uf')
    (hgm : ({ g with uf := uf' } : Graph) = gm)
    (hrt : Graph.rebuildTables (f + 1) gm = some (g2, true)) :
    Graph.rebuildLoop (f + 1) g = Graph.rebuildLoop f g2 := by
  simp [Graph.rebuildLoop, hterms, hcb, hgm, hrt]

lemma rebuildLoop_done {f : Nat} {g : Graph} {ts : List Term}
    {uf' : UnionFind} {gm g2 : Graph}
    (hterms : g.terms = ts) (hcb : corebuild (f + 1) ts g.uf = some uf')
    (hgm : ({ g with uf := uf' } : Graph) = gm)
    (hrt : Graph.rebuildTables (f + 1) gm = some (g2, false)) :
    Graph.rebuildLoop (f + 1) g = some g2 := by
  simp [Graph.rebuildLoop, hterms, hcb, hgm, hrt]

set_option maxRecDepth 10000 in
theorem c3_ai : abstract_interpret 20 basicProg = some [c3G0] := by decide
set_option maxRecDepth 10000 in
theorem c3terms1 : c3G0.terms = c3ts1 := by decide
set_option maxRecDepth 10000 in
theorem c3obs1_1 : obsPhase c3ts1 c3L1_1 (List.replicate 27 []) = (c3C1_1, c3O1_1) := by decide
set_option maxRecDepth 10000 in
theorem c3mrg1_1 : mergePhase c3O1_1 27 27 (UnionFind.new_all_not_equals 27) = c3N1_1 := by decide
theorem c3stp1_1 : corebuildStep c3ts1 27 c3L1_1 = (c3C1_1, c3N1_1) :=
  corebuildStep_eq _ _ _ _ _ _ c3obs1_1 c3mrg1_1
set_option maxRecDepth 10000 in
theorem c3obs1_2 : obsPhase c3ts1 c3L1_2 (List.replicate 27 []) = (c3C1_2, c3O1_2) := by decide
set_option maxRecDepth 10000 in
theorem c3mrg1_2 : mergePhase c3O1_2 27 27 (UnionFind.new_all_not_equals 27) = c3N1_2 := by decide
theorem c3stp1_2 : corebuildStep c3ts1 27 c3L1_2 = (c3C1_2, c3N1_2) :=
  corebuildStep_eq _ _ _ _ _ _ c3obs1_2 c3mrg1_2
set_option maxRecDepth 10000 in
theorem c3obs1_3 : obsPhase c3ts1 c3L1_3 (List.replicate 27 []) = (c3C1_3, c3O1_3) := by decide
set_option maxRecDepth 10000 in
theorem c3mrg1_3 : mergePhase c3O1_3 27 27 (UnionFind.new_all_not_equals 27) = c3N1_3 := by decide
theorem c3stp1_3 : corebuildStep c3ts1 27 c3L1_3 = (c3C1_3, c3N1_3) :=
  corebuildStep_eq _ _ _ _ _ _ c3obs1_3 c3mrg1_3
set_option maxRecDepth 10000 in
theorem c3obs1_4 : obsPhase c3ts1 c3L1_4 (List.replicate 27 []) = (c3C1_4, c3O1_4) := by decide
set_option maxRecDepth 10000 in
theorem c3mrg1_4 : mergePhase c3O1_4 27 27 (UnionFind.new_all_not_equals 27) = c3N1_4 := by decide
theorem c3stp1_4 : corebuildStep c3ts1 27 c3L1_4 = (c3C1_4, c3N1_4) :=
  corebuildStep_eq _ _ _ _ _ _ c3obs1_4 c3mrg1_4
theorem c3loop1 : corebuildLoop 30 c3ts1 27 (UnionFind.new_all_equals 27) = some c3C1_4 := by
  have e0 : UnionFind.new_all_equals 27 = c3L1_1 := by decide
  rw [e0]
  rw [show (30 : Nat) = 29 + 1 from rfl,
    corebuildLoop_step 29 c3ts1 27 c3L1_1 c3C1_1 c3N1_1 c3stp1_1 (by decide)]
  have e1 : c3N1_1 = c3L1_2 := by decide
  rw [e1]
  rw [show (29 : Nat) = 28 + 1 from rfl,
    corebuildLoop_step 28 c3ts1 27 c3L1_2 c3C1_2 c3N1_2 c3stp1_2 (by decide)]
  have e2 : c3N1_2 = c3L1_3 := by decide
  rw [e2]
  rw [show (28 : Nat) = 27 + 1 from rfl,
    corebuildLoop_step 27 c3ts1 27 c3L1_3 c3C1_3 c3N1_3 c3stp1_3 (by decide)]
  have e3 : c3N1_3 = c3L1_4 := by decide
  rw [e3]
  rw [show (27 : Nat) = 26 + 1 from rfl]
  have hlast : corebuildStep c3ts1 27 c3L1_4 = (c3C1_4, c3C1_4) := by
    rw [c3stp1_4]
    have h : c3N1_4 = c3C1_4 := by decide
    rw [h]
  exact corebuildLoop_done 26 c3ts1 27 c3L1_4 c3C1_4 hlast
set_option maxRecDepth 10000 in
theorem c3fm1 : finalMerges 27 27 c3UFin1 c3C1_4 = c3UFcb1 := by decide
theorem c3cb1 : corebuild 30 c3ts1 c3UFin1 = some c3UFcb1 :=
  corebuild_eq 27 (by decide) c3loop1 c3fm1
set_option maxRecDepth 10000 in
theorem c3re1_1 : rebuild_enode_table .constant 30 c3T1_1i c3U1_1i = some (c3T1_1o, c3U1_1o, false) := by decide
set_option maxRecDepth 10000 in
theorem c3re1_2 : rebuild_enode_table .param 30 c3T1_2i c3U1_2i = some (c3T1_2o, c3U1_2o, false) := by decide
set_option maxRecDepth 10000 in
theorem c3re1_3 : rebuild_enode_table .start 30 c3T1_3i c3U1_3i = some (c3T1_3o, c3U1_3o, false) := by decide
set_option maxRecDepth 10000 in
theorem c3re1_4 : rebuild_enode_table .region 30 c3T1_4i c3U1_4i = some (c3T1_4o, c3U1_4o, false) := by decide
set_option maxRecDepth 10000 in
theorem c3re1_5 : rebuild_enode_table .branch 30 c3T1_5i c3U1_5i = some (c3T1_5o, c3U1_5o, false) := by decide
set_option maxRecDepth 10000 in
theorem c3re1_6 : rebuild_enode_table .controlProj 30 c3T1_6i c3U1_6i = some (c3T1_6o, c3U1_6o, false) := by decide
set_option maxRecDepth 10000 in
theorem c3re1_7 : rebuild_enode_table .finish 30 c3T1_7i c3U1_7i = some (c3T1_7o, c3U1_7o, false) := by decide
set_option maxRecDepth 10000 in
theorem c3re1_8 : rebuild_enode_table .phi 30 c3T1_8i c3U1_8i = some (c3T1_8o, c3U1_8o, true) := by decide
set_option maxRecDepth 10000 in
theorem c3re1_9 : rebuild_enode_table .add 30 c3T1_9i c3U1_9i = some (c3T1_9o, c3U1_9o, true) := by decide
theorem c3rt1 : Graph.rebuildTables 30 c3GM1 = some (c3G1, true) :=
  rebuildTables_eq c3re1_1 c3re1_2 c3re1_3 c3re1_4 c3re1_5 c3re1_6 c3re1_7 c3re1_8 c3re1_9
set_option maxRecDepth 10000 in
theorem c3gm1 : ({ c3G0 with uf := c3UFcb1 } : Graph) = c3GM1 := by decide
set_option maxRecDepth 10000 in
theorem c3terms2 : c3G1.terms = c3ts2 := by decide
set_option maxRecDepth 10000 in
theorem c3obs2_1 : obsPhase c3ts2 c3L2_1 (List.replicate 27 []) = (c3C2_1, c3O2_1) := by decide
set_option maxRecDepth 10000 in
theorem c3mrg2_1 : mergePhase c3O2_1 27 27 (UnionFind.new_all_not_equals 27) = c3N2_1 := by decide
theorem c3stp2_1 : corebuildStep c3ts2 27 c3L2_1 = (c3C2_1, c3N2_1) :=
  corebuildStep_eq _ _ _ _ _ _ c3obs2_1 c3mrg2_1
set_option maxRecDepth 10000 in
theorem c3obs2_2 : obsPhase c3ts2 c3L2_2 (List.replicate 27 []) = (c3C2_2, c3O2_2) := by decide
set_option maxRecDepth 10000 in
theorem c3mrg2_2 : mergePhase c3O2_2 27 27 (UnionFind.new_all_not_equals 27) = c3N2_2 := by decide
theorem c3stp2_2 : corebuildStep c3ts2 27 c3L2_2 = (c3C2_2, c3N2_2) :=
  corebuildStep_eq _ _ _ _ _ _ c3obs2_2 c3mrg2_2
set_option maxRecDepth 10000 in
theorem c3obs2_3 : obsPhase c3ts2 c3L2_3 (List.replicate 27 []) = (c3C2_3, c3O2_3) := by decide
set_option maxRecDepth 10000 in
theorem c3mrg2_3 : mergePhase c3O2_3 27 27 (UnionFind.new_all_not_equals 27) = c3N2_3 := by decide
theorem c3stp2_3 : corebuildStep c3ts2 27 c3L2_3 = (c3C2_3, c3N2_3) :=
  corebuildStep_eq _ _ _ _ _ _ c3obs2_3 c3mrg2_3
set_option maxRecDepth 10000 in
theorem c3obs2_4 : obsPhase c3ts2 c3L2_4 (List.replicate 27 []) = (c3C2_4, c3O2_4) := by decide
set_option maxRecDepth 10000 in
theorem c3mrg2_4 : mergePhase c3O2_4 27 27 (UnionFind.new_all_not_equals 27) = c3N2_4 := by decide
theorem c3stp2_4 : corebuildStep c3ts2 27 c3L2_4 = (c3C2_4, c3N2_4) :=
  corebuildStep_eq _ _ _ _ _ _ c3obs2_4 c3mrg2_4
theorem c3loop2 : corebuildLoop 29 c3ts2 27 (UnionFind.new_all_equals 27) = some c3C2_4 := by
  have e0 : UnionFind.new_all_equals 27 = c3L2_1 := by decide
  rw [e0]
  rw [show (29 : Nat) = 28 + 1 from rfl,
    corebuildLoop_step 28 c3ts2 27 c3L2_1 c3C2_1 c3N2_1 c3stp2_1 (by decide)]
  have e1 : c3N2_1 = c3L2_2 := by decide
  rw [e1]
  rw [show (28 : Nat) = 27 + 1 from rfl,
    corebuildLoop_step 27 c3ts2 27 c3L2_2 c3C2_2 c3N2_2 c3stp2_2 (by decide)]
  have e2 : c3N2_2 = c3L2_3 := by decide
  rw [e2]
  rw [show (27 : Nat) = 26 + 1 from rfl,
    corebuildLoop_step 26 c3ts2 27 c3L2_3 c3C2_3 c3N2_3 c3stp2_3 (by decide)]
  have e3 : c3N2_3 = c3L2_4 := by decide
  rw [e3]
  rw [show (26 : Nat) = 25 + 1 from rfl]
  have hlast : corebuildStep c3ts2 27 c3L2_4 = (c3C2_4, c3C2_4) := by
    rw [c3stp2_4]
    have h : c3N2_4 = c3C2_4 := by decide
    rw [h]
  exact corebuildLoop_done 25 c3ts2 27 c3L2_4 c3C2_4 hlast
set_option maxRecDepth 10000 in
theorem c3fm2 : finalMerges 27 27 c3UFin2 c3C2_4 = c3UFcb2 := by decide
theorem c3cb2 : corebuild 29 c3ts2 c3UFin2 = some c3UFcb2 :=
  corebuild_eq 27 (by decide) c3loop2 c3fm2
set_option maxRecDepth 10000 in
theorem c3re2_1 : rebuild_enode_table .constant 29 c3T2_1i c3U2_1i = some (c3T2_1o, c3U2_1o, false) := by decide
set_option maxRecDepth 10000 in
theorem c3re2_2 : rebuild_enode_table .param 29 c3T2_2i c3U2_2i = some (c3T2_2o, c3U2_2o, false) := by decide
set_option maxRecDepth 10000 in
theorem c3re2_3 : rebuild_enode_table .start 29 c3T2_3i c3U2_3i = some (c3T2_3o, c3U2_3o, false) := by decide
set_option maxRecDepth 10000 in
theorem c3re2_4 : rebuild_enode_table .region 29 c3T2_4i c3U2_4i = some (c3T2_4o, c3U2_4o, false) := by decide
set_option maxRecDepth 10000 in
theorem c3re2_5 : rebuild_enode_table .branch 29 c3T2_5i c3U2_5i = some (c3T2_5o, c3U2_5o, true) := by decide
set_option maxRecDepth 10000 in
theorem c3re2_6 : rebuild_enode_table .controlProj 29 c3T2_6i c3U2_6i = some (c3T2_6o, c3U2_6o, false) := by decide
set_option maxRecDepth 10000 in
theorem c3re2_7 : rebuild_enode_table .finish 29 c3T2_7i c3U2_7i = some (c3T2_7o, c3U2_7o, false) := by decide
set_option maxRecDepth 10000 in
theorem c3re2_8 : rebuild_enode_table .phi 29 c3T2_8i c3U2_8i = some (c3T2_8o, c3U2_8o, true) := by decide
set_option maxRecDepth 10000 in
theorem c3re2_9 : rebuild_enode_table .add 29 c3T2_9i c3U2_9i = some (c3T2_9o, c3U2_9o, false) := by decide
theorem c3rt2 : Graph.rebuildTables 29 c3GM2 = some (c3G2, true) :=
  rebuildTables_eq c3re2_1 c3re2_2 c3re2_3 c3re2_4 c3re2_5 c3re2_6 c3re2_7 c3re2_8 c3re2_9
set_option maxRecDepth 10000 in
theorem c3gm2 : ({ c3G1 with uf := c3UFcb2 } : Graph) = c3GM2 := by decide
set_option maxRecDepth 10000 in
theorem c3terms3 : c3G2.terms = c3ts3 := by decide
set_option maxRecDepth 10000 in
theorem c3obs3_1 : obsPhase c3ts3 c3L3_1 (List.replicate 27 []) = (c3C3_1, c3O3_1) := by decide
set_option maxRecDepth 10000 in
theorem c3mrg3_1 : mergePhase c3O3_1 27 27 (UnionFind.new_all_not_equals 27) = c3N3_1 := by decide
theorem c3stp3_1 : corebuildStep c3ts3 27 c3L3_1 = (c3C3_1, c3N3_1) :=
  corebuildStep_eq _ _ _ _ _ _ c3obs3_1 c3mrg3_1
set_option maxRecDepth 10000 in
theorem c3obs3_2 : obsPhase c3ts3 c3L3_2 (List.replicate 27 []) = (c3C3_2, c3O3_2) := by decide
set_option maxRecDepth 10000 in
theorem c3mrg3_2 : mergePhase c3O3_2 27 27 (UnionFind.new_all_not_equals 27) = c3N3_2 := by decide
theorem c3stp3_2 : corebuildStep c3ts3 27 c3L3_2 = (c3C3_2, c3N3_2) :=
  corebuildStep_eq _ _ _ _ _ _ c3obs3_2 c3mrg3_2
set_option maxRecDepth 10000 in
theorem c3obs3_3 : obsPhase c3ts3 c3L3_3 (List.replicate 27 []) = (c3C3_3, c3O3_3) := by decide
set_option maxRecDepth 10000 in
theorem c3mrg3_3 : mergePhase c3O3_3 27 27 (UnionFind.new_all_not_equals 27) = c3N3_3 := by decide
theorem c3stp3_3 : corebuildStep c3ts3 27 c3L3_3 = (c3C3_3, c3N3_3) :=
  corebuildStep_eq _ _ _ _ _ _ c3obs3_3 c3mrg3_3
set_option maxRecDepth 10000 in
theorem c3obs3_4 : obsPhase c3ts3 c3L3_4 (List.replicate 27 []) = (c3C3_4, c3O3_4) := by decide
set_option maxRecDepth 10000 in
theorem c3mrg3_4 : mergePhase c3O3_4 27 27 (UnionFind.new_all_not_equals 27) = c3N3_4 := by decide
theorem c3stp3_4 : corebuildStep c3ts3 27 c3L3_4 = (c3C3_4, c3N3_4) :=
  corebuildStep_eq _ _ _ _ _ _ c3obs3_4 c3mrg3_4
theorem c3loop3 : corebuildLoop 28 c3ts3 27 (UnionFind.new_all_equals 27) = some c3C3_4 := by
  have e0 : UnionFind.new_all_equals 27 = c3L3_1 := by decide
  rw [e0]
  rw [show (28 : Nat) = 27 + 1 from rfl,
    corebuildLoop_step 27 c3ts3 27 c3L3_1 c3C3_1 c3N3_1 c3stp3_1 (by decide)]
  have e1 : c3N3_1 = c3L3_2 := by decide
  rw [e1]
  rw [show (27 : Nat) = 26 + 1 from rfl,
    corebuildLoop_step 26 c3ts3 27 c3L3_2 c3C3_2 c3N3_2 c3stp3_2 (by decide)]
  have e2 : c3N3_2 = c3L3_3 := by decide
  rw [e2]
  rw [show (26 : Nat) = 25 + 1 from rfl,
    corebuildLoop_step 25 c3ts3 27 c3L3_3 c3C3_3 c3N3_3 c3stp3_3 (by decide)]
  have e3 : c3N3_3 = c3L3_4 := by decide
  rw [e3]
  rw [show (25 : Nat) = 24 + 1 from rfl]
  have hlast : corebuildStep c3ts3 27 c3L3_4 = (c3C3_4, c3C3_4) := by
    rw [c3stp3_4]
    have h : c3N3_4 = c3C3_4 := by decide
    rw [h]
  exact corebuildLoop_done 24 c3ts3 27 c3L3_4 c3C3_4 hlast
set_option maxRecDepth 10000 in
theorem c3fm3 : finalMerges 27 27 c3UFin3 c3C3_4 = c3UFcb3 := by decide
theorem c3cb3 : corebuild 28 c3ts3 c3UFin3 = some c3UFcb3 :=
  corebuild_eq 27 (by decide) c3loop3 c3fm3
set_option maxRecDepth 10000 in
theorem c3re3_1 : rebuild_enode_table .constant 28 c3T3_1i c3U3_1i = some (c3T3_1o, c3U3_1o, false) := by decide
set_option maxRecDepth 10000 in
theorem c3re3_2 : rebuild_enode_table .param 28 c3T3_2i c3U3_2i = some (c3T3_2o, c3U3_2o, false) := by decide
set_option maxRecDepth 10000 in
theorem c3re3_3 : rebuild_enode_table .start 28 c3T3_3i c3U3_3i = some (c3T3_3o, c3U3_3o, false) := by decide
set_option maxRecDepth 10000 in
theorem c3re3_4 : rebuild_enode_table .region 28 c3T3_4i c3U3_4i = some (c3T3_4o, c3U3_4o, false) := by decide
set_option maxRecDepth 10000 in
theorem c3re3_5 : rebuild_enode_table .branch 28 c3T3_5i c3U3_5i = some (c3T3_5o, c3U3_5o, false) := by decide
set_option maxRecDepth 10000 in
theorem c3re3_6 : rebuild_enode_table .controlProj 28 c3T3_6i c3U3_6i = some (c3T3_6o, c3U3_6o, false) := by decide
set_option maxRecDepth 10000 in
theorem c3re3_7 : rebuild_enode_table .finish 28 c3T3_7i c3U3_7i = some (c3T3_7o, c3U3_7o, false) := by decide
set_option maxRecDepth 10000 in
theorem c3re3_8 : rebuild_enode_table .phi 28 c3T3_8i c3U3_8i = some (c3T3_8o, c3U3_8o, false) := by decide
set_option maxRecDepth 10000 in
theorem c3re3_9 : rebuild_enode_table .add 28 c3T3_9i c3U3_9i = some (c3T3_9o, c3U3_9o, false) := by decide
theorem c3rt3 : Graph.rebuildTables 28 c3GM3 = some (c3G3, false) :=
  rebuildTables_eq c3re3_1 c3re3_2 c3re3_3 c3re3_4 c3re3_5 c3re3_6 c3re3_7 c3re3_8 c3re3_9
set_option maxRecDepth 10000 in
theorem c3gm3 : ({ c3G2 with uf := c3UFcb3 } : Graph) = c3GM3 := by decide
/-- The full `Graph::rebuild` run on the abstract-interpreted graph. -/
theorem c3_rebuild : Graph.rebuildFuel 30 c3G0 = some c3G3 := by
  show Graph.rebuildLoop 30 c3G0 = some c3G3
  rw [show (30 : Nat) = 29 + 1 from rfl, rebuildLoop_step c3terms1 c3cb1 c3gm1 c3rt1]
  rw [show (29 : Nat) = 28 + 1 from rfl, rebuildLoop_step c3terms2 c3cb2 c3gm2 c3rt2]
  rw [show (28 : Nat) = 27 + 1 from rfl]
  exact rebuildLoop_done c3terms3 c3cb3 c3gm3 c3rt3
-- outer iterations: 3

set_option maxRecDepth 10000 in
lemma c3_pipeline :
    ((abstract_interpret 20 basicProg).bind (fun gs => gs.head?)).bind
      (fun g => Graph.rebuildFuel 30 g) = some c3G3 := by
  rw [c3_ai]
  simp only [Option.some_bind, List.head?_cons]
  exact c3_rebuild

/-- C3 (counterexample): on `fn basic(x) { while x { x = x + -1; } return x; }`
the graph after `abstract_interpret` and `rebuild` holds THREE live Phi rows,
not two: the per-relation live-row counts are `[1,1,1,2,2,4,1,3,2]`
(constant, param, start, region, branch, controlproj, finish, phi, add),
which differs from the claimed `[…,2,…]` in the phi position. -/
theorem c3_phi_three_not_two :
    (((abstract_interpret 20 basicProg).bind (fun gs => gs.head?)).bind
      (fun g => Graph.rebuildFuel 30 g)).map tableCounts =
      some [1, 1, 1, 2, 2, 4, 1, 3, 2] ∧
    ([1, 1, 1, 2, 2, 4, 1, 3, 2] : List Nat) ≠ [1, 1, 1, 2, 2, 4, 1, 2, 2] := by
  refine ⟨?_, by decide⟩
  rw [c3_pipeline]
  set_option maxRecDepth 10000 in decide

/-- C3 (amended): after `abstract_interpret` of the `basic` program and
`rebuild`, the graph holds exactly one Constant row, one Param row, one
Start row, two Region rows, two Branch rows, four ControlProj rows, one
Finish row, THREE Phi rows, and two Add rows. -/
theorem c3_table_counts :
    (((abstract_interpret 20 basicProg).bind (fun gs => gs.head?)).bind
      (fun g => Graph.rebuildFuel 30 g)).map tableCounts =
      some [1, 1, 1, 2, 2, 4, 1, 3, 2] := by
  rw [c3_pipeline]
  set_option maxRecDepth 10000 in decide

/-- C2: in a fresh graph, inserting `Constant{5,r1}` and `Constant{5,r2}`
with distinct fresh `r1`, `r2` returns the same term both times and merges
`r1` with `r2`; a fresh `Constant{7,r3}` stays in a different class; and an
`Add{r1,r3,r4}` leaves exactly one live row in the Add table (and the
Constant table keeps two live rows, as the source test asserts). -/
theorem c2_hash_cons :
    c2A.2 ≠ c2C.2 ∧
    c2B.2 = Term.Constant 5 c2A.2 ∧ c2D.2 = Term.Constant 5 c2A.2 ∧
    ((c2D.1.find c2A.2).2 = ((c2D.1.find c2A.2).1.find c2C.2).2) ∧
    c2F.2 = Term.Constant 7 c2E.2 ∧
    ((c2F.1.find c2A.2).2 ≠ ((c2F.1.find c2A.2).1.find c2E.2).2) ∧
    c2H.2 = Term.Add c2A.2 c2E.2 c2G.2 ∧
    c2H.1.add.iterRows.length = 1 ∧
    c2H.1.add.num_allocated_rows = 1 ∧
    c2H.1.constant.num_allocated_rows = 2 := by
  decide

/-- C4 (counterexample): after the five inserts (which do return
`[2],[3],[3],[2],[3]`), the row `first_row` returns is the `[0,2]` row at
physical index 2; deleting IT and inserting `([0,1],[5])` finds the still
live `[0,1]` resident and returns `[2]`, not `[5]` as the claim states. -/
theorem c4_first_row_returns_resident :
    c4I1.2.2 = [2] ∧ c4I2.2.2 = [3] ∧ c4I3.2.2 = [3] ∧ c4I4.2.2 = [2] ∧
    c4I5.2.2 = [3] ∧
    c4I5.2.1.first_row = some 2 ∧
    c4I5.2.1.get_row 2 = ([0, 2], [3]) ∧
    c4DelFirst.2 = true ∧
    c4AfterFirst.2.2 = [2] ∧ ([2] : List Nat) ≠ [5] := by
  decide

/-- C4 (amended): the five inserts return `[2],[3],[3],[2],[3]`; after
deleting the SECOND live row (the one `next_row(first_row)` returns, which
holds determinant `[0,1]`), inserting `([0,1],[5])` returns `[5]`, and a
subsequent `([0,1],[7])` returns `[5]`. -/
theorem c4_table_fd_scenario :
    c4I1.2.2 = [2] ∧ c4I2.2.2 = [3] ∧ c4I3.2.2 = [3] ∧ c4I4.2.2 = [2] ∧
    c4I5.2.2 = [3] ∧
    c4I5.2.1.next_row ((c4I5.2.1.first_row).getD 99) = some 3 ∧
    c4I5.2.1.get_row 3 = ([0, 1], [2]) ∧
    c4J1.2.2 = [5] ∧ c4J2.2.2 = [5] := by
  decide

/-- C6 (counterexample): the encoders do NOT forbid the `0xFFFFFFFF` bit
pattern in a column: `constant_encode` packs the legitimate value `-1` into
exactly that pattern (and the abstract-interpreter run above stores such a
row, `cons([4294967295]) -> [6]`). -/
theorem c6_encoder_emits_sentinel_column :
    constant_encode (-1) 6 = ([4294967295], [6]) ∧
    EMPTY ∈ (constant_encode (-1) 6).1 := by
  decide

/-- C6 (amended): individual columns may legitimately hold `0xFFFFFFFF`
(`Constant` with value `-1` encodes to it and decodes back); only the row
whose columns are ALL `0xFFFFFFFF` is the tombstone, and a row with any
other column non-sentinel is not a tombstone. -/
theorem c6_sentinel_column_is_live :
    constant_encode (-1) 6 = ([EMPTY], [6]) ∧
    ([EMPTY], [6]) ≠ Table.emptyRow 1 1 ∧
    decodeCtor .constant [EMPTY] [6] = Term.Constant (-1) 6 := by
  decide

/-- C8 (counterexample): two union-finds over three allocated classes, both
built by `makeset`/`merge`, whose `find` agrees on every class (every class
has root 0) but whose derived `==` (parent-vector equality, the test
`corebuild` uses as its termination condition) is false:
`[0,0,1] ≠ [0,0,0]`. -/
theorem c8_find_agreement_not_sufficient :
    (∀ i, i < 3 → (c8u.find i).2 = (c8v.find i).2) ∧ c8u ≠ c8v := by
  constructor
  · decide
  · decide

/-- C8 (amended): the program's equality test on `UnionFind` holds iff the
parent vectors are identical; vector equality implies agreement of `find`
on every class, but (by the counterexample) not conversely. -/
theorem c8_equality_is_vector_equality (u v : UnionFind) (n : Nat) :
    (u = v ↔ u.vec = v.vec) ∧
    (u = v → ∀ i, i < n → (u.find i).2 = (v.find i).2) := by
  constructor
  · constructor
    · intro h; rw [h]
    · intro h; cases u; cases v; simpa using h
  · intro h; subst h; intro i _; rfl

/-- C8 (witness for the amended claim). -/
theorem c8_equality_witness :
    (c8v = c8v ↔ c8v.vec = c8v.vec) ∧
    (c8v = c8v → ∀ i, i < 3 → (c8v.find i).2 = (c8v.find i).2) :=
  c8_equality_is_vector_equality c8v c8v 3

lemma c9_terms : c9G.terms = c9ts := by decide

lemma c9_cycle : corebuildStep c9ts 5 c9L = (c9A, c9L) := by decide

lemma c9_entry :
    corebuildStep c9ts 5 (UnionFind.new_all_equals 5) = (c9A, c9L) := by decide

lemma c9_loop_cycle : ∀ f, corebuildLoop f c9ts 5 c9L = none := by
  intro f
  induction f with
  | zero => rfl
  | succ n ih =>
    simp only [corebuildLoop]
    rw [c9_cycle]
    simp only [if_neg (show ¬ c9A = c9L by decide)]
    exact ih

lemma c9_loop : ∀ f, corebuildLoop f c9ts 5 (UnionFind.new_all_equals 5) = none := by
  intro f
  cases f with
  | zero => rfl
  | succ n =>
    simp only [corebuildLoop]
    rw [c9_entry]
    simp only [if_neg (show ¬ c9A = c9L by decide)]
    exact c9_loop_cycle n

lemma c9_corebuild : ∀ f, corebuild f c9ts c9G.uf = none := by
  intro f
  have hn : c9G.uf.num_classes = 5 := by decide
  simp only [corebuild, hn, c9_loop f]

/-- C9: `Graph::rebuild` does NOT terminate on every graph state.  On the
graph `c9G` — five classes and seven rows built through the public
`makeset`/`insert` interface — `corebuild`'s refinement loop never reaches
`last_uf == next_uf`: the partition stabilizes with all five classes equal,
but the freshly built `next_uf` parent vector `[0,0,1,0,0]` (class 2 at
depth two) never equals the path-compressed `last_uf` `[0,0,0,0,0]`, so the
state repeats forever and the model returns `none` for every fuel. -/
theorem c9_rebuild_diverges : ∀ fuel, Graph.rebuildFuel fuel c9G = none := by
  intro fuel
  cases fuel with
  | zero => rfl
  | succ n =>
    show Graph.rebuildLoop (n + 1) c9G = none
    simp only [Graph.rebuildLoop]
    rw [c9_terms, c9_corebuild (n + 1)]

end EqSat

namespace EqSat

namespace UnionFind

lemma parent_oob {uf : UnionFind} {i : Nat} (h : uf.vec.length ≤ i) :
    uf.parent i = i := by
  have : uf.vec[i]? = none := List.getElem?_eq_none h
  simp [parent, List.getD, this]

lemma parent_le {uf : UnionFind} (hWF : uf.WF) (i : Nat) : uf.parent i ≤ i := by
  by_cases h : i < uf.vec.length
  · exact hWF i h
  · rw [parent_oob (Nat.le_of_not_lt h)]

lemma parent_lt {uf : UnionFind} (hWF : uf.WF) {i : Nat}
    (h : uf.parent i ≠ i) : uf.parent i < i :=
  Nat.lt_of_le_of_ne (parent_le hWF i) h

lemma lt_length_of_parent_ne {uf : UnionFind} {i : Nat}
    (h : uf.parent i ≠ i) : i < uf.vec.length := by
  by_contra hn
  exact h (parent_oob (Nat.le_of_not_lt hn))

lemma setParent_length (uf : UnionFind) (v w : Nat) :
    (uf.setParent v w).vec.length = uf.vec.length := by
  simp [setParent]

lemma parent_set_self {uf : UnionFind} {v w : Nat} (hv : v < uf.vec.length) :
    (uf.setParent v w).parent v = w := by
  simp [setParent, parent, List.getD, List.getElem?_set_self hv]

lemma parent_set_other (uf : UnionFind) {v : Nat} (w : Nat) {a : Nat}
    (h : a ≠ v) : (uf.setParent v w).parent a = uf.parent a := by
  simp [setParent, parent, List.getD, List.getElem?_set_ne (Ne.symm h)]

lemma WF_set {uf : UnionFind} (hWF : uf.WF) {v w : Nat} (hwv : w ≤ v) :
    (uf.setParent v w).WF := by
  intro i hi
  rw [setParent_length] at hi
  by_cases h : i = v
  · subst h
    have : (uf.setParent i w).parent i = w := parent_set_self hi
    simpa [parent, List.getD] using le_trans (le_of_eq this) hwv
  · have : (uf.setParent v w).parent i = uf.parent i := parent_set_other uf w h
    simpa [parent, List.getD] using le_trans (le_of_eq this) (hWF i hi)

lemma rootFuel_congr {uf : UnionFind} (hWF : uf.WF) :
    ∀ i, ∀ f g, i < f → i < g → rootFuel f uf i = rootFuel g uf i := by
  intro i
  induction i using Nat.strong_induction_on with
  | _ i ih =>
    intro f g hf hg
    match f, g with
    | f + 1, g + 1 =>
      simp only [rootFuel]
      by_cases h : uf.parent i = i
      · simp [h]
      · have hlt : uf.parent i < i := parent_lt hWF h
        simp only [h, if_false]
        exact ih _ hlt f g (Nat.lt_of_lt_of_le hlt (Nat.lt_succ_iff.mp hf))
          (Nat.lt_of_lt_of_le hlt (Nat.lt_succ_iff.mp hg))

lemma root_eq {uf : UnionFind} (hWF : uf.WF) (i : Nat) :
    uf.root i = if uf.parent i = i then i else uf.root (uf.parent i) := by
  by_cases h : uf.parent i = i
  · simp [root, rootFuel, h]
  · have hlt : uf.parent i < i := parent_lt hWF h
    simp only [root, rootFuel, h, if_false]
    exact rootFuel_congr hWF _ _ _ hlt (Nat.lt_succ_self _)

lemma root_of_parent_eq {uf : UnionFind} {i : Nat}
    (h : uf.parent i = i) : uf.root i = i := by
  simp [root, rootFuel, h]

lemma root_parent {uf : UnionFind} (hWF : uf.WF) (i : Nat) :
    uf.root (uf.parent i) = uf.root i := by
  by_cases h : uf.parent i = i
  · rw [h]
  · rw [root_eq hWF i, if_neg h]

lemma parent_root {uf : UnionFind} (hWF : uf.WF) :
    ∀ i, uf.parent (uf.root i) = uf.root i := by
  intro i
  induction i using Nat.strong_induction_on with
  | _ i ih =>
    by_cases h : uf.parent i = i
    · rw [root_of_parent_eq h]; exact h
    · rw [root_eq hWF i, if_neg h]
      exact ih _ (parent_lt hWF h)

lemma root_le {uf : UnionFind} (hWF : uf.WF) : ∀ i, uf.root i ≤ i := by
  intro i
  induction i using Nat.strong_induction_on with
  | _ i ih =>
    by_cases h : uf.parent i = i
    · rw [root_of_parent_eq h]
    · rw [root_eq hWF i, if_neg h]
      exact le_trans (ih _ (parent_lt hWF h)) (le_of_lt (parent_lt hWF h))

lemma root_root {uf : UnionFind} (hWF : uf.WF) (i : Nat) :
    uf.root (uf.root i) = uf.root i :=
  root_of_parent_eq (parent_root hWF i)

lemma onChainFuel_congr {uf : UnionFind} (hWF : uf.WF) :
    ∀ a v, ∀ f g, a < f → a < g →
      onChainFuel f uf a v = onChainFuel g uf a v := by
  intro a
  induction a using Nat.strong_induction_on with
  | _ a ih =>
    intro v f g hf hg
    match f, g with
    | f + 1, g + 1 =>
      simp only [onChainFuel]
      by_cases h1 : a = v
      · simp [h1]
      · by_cases h2 : uf.parent a = a
        · simp [h1, h2]
        · have hlt : uf.parent a < a := parent_lt hWF h2
          simp only [h1, h2, if_false]
          exact ih _ hlt v f g (Nat.lt_of_lt_of_le hlt (Nat.lt_succ_iff.mp hf))
            (Nat.lt_of_lt_of_le hlt (Nat.lt_succ_iff.mp hg))

lemma onChain_eq {uf : UnionFind} (hWF : uf.WF) (a v : Nat) :
    uf.onChain a v =
      (if a = v then true
       else if uf.parent a = a then false else uf.onChain (uf.parent a) v) := by
  by_cases h1 : a = v
  · simp [onChain, onChainFuel, h1]
  · by_cases h2 : uf.parent a = a
    · simp [onChain, onChainFuel, h1, h2]
    · have hlt : uf.parent a < a := parent_lt hWF h2
      simp only [onChain, onChainFuel, h1, h2, if_false]
      exact onChainFuel_congr hWF _ _ _ _ hlt (Nat.lt_succ_self _)

lemma le_of_onChain {uf : UnionFind} (hWF : uf.WF) :
    ∀ a v, uf.onChain a v = true → v ≤ a := by
  intro a
  induction a using Nat.strong_induction_on with
  | _ a ih =>
    intro v h
    rw [onChain_eq hWF] at h
    by_cases h1 : a = v
    · exact le_of_eq h1.symm
    · by_cases h2 : uf.parent a = a
      · simp [h1, h2] at h
      · simp only [h1, if_false, h2] at h
        exact le_trans (ih _ (parent_lt hWF h2) v h)
          (le_of_lt (parent_lt hWF h2))

lemma root_of_onChain {uf : UnionFind} (hWF : uf.WF) :
    ∀ a v, uf.onChain a v = true → uf.root a = uf.root v := by
  intro a
  induction a using Nat.strong_induction_on with
  | _ a ih =>
    intro v h
    rw [onChain_eq hWF] at h
    by_cases h1 : a = v
    · rw [h1]
    · by_cases h2 : uf.parent a = a
      · simp [h1, h2] at h
      · simp only [h1, if_false, h2] at h
        rw [← root_parent hWF a]
        exact ih _ (parent_lt hWF h2) v h

lemma onChain_of_root_eq {uf : UnionFind} (hWF : uf.WF) :
    ∀ a {v}, uf.parent v = v → uf.root a = v → uf.onChain a v = true := by
  intro a
  induction a using Nat.strong_induction_on with
  | _ a ih =>
    intro v hv hr
    rw [onChain_eq hWF]
    by_cases h1 : a = v
    · simp [h1]
    · by_cases h2 : uf.parent a = a
      · rw [root_of_parent_eq h2] at hr
        exact absurd hr h1
      · simp only [h1, if_false, h2, if_false]
        exact ih _ (parent_lt hWF h2) hv (by rw [root_parent hWF]; exact hr)

end UnionFind

end EqSat

namespace EqSat

namespace UnionFind

/-- Roots of nodes strictly below a rewritten entry are unchanged. -/
lemma root_set_below {uf : UnionFind} (hWF : uf.WF) {v w : Nat} (hwv : w < v) :
    ∀ b, b < v → (uf.setParent v w).root b = uf.root b := by
  have hWF' : (uf.setParent v w).WF := WF_set hWF (le_of_lt hwv)
  intro b
  induction b using Nat.strong_induction_on with
  | _ b ih =>
    intro hb
    have hp : (uf.setParent v w).parent b = uf.parent b :=
      parent_set_other uf w (Nat.ne_of_lt hb)
    by_cases h : uf.parent b = b
    · rw [root_of_parent_eq h, root_of_parent_eq (by rw [hp]; exact h)]
    · rw [root_eq hWF' b, hp, if_neg h, root_eq hWF b, if_neg h]
      exact ih _ (parent_lt hWF h) (lt_trans (parent_lt hWF h) hb)

/-- The effect of one parent rewrite on every root: nodes whose chain passes
through `v` move to the class of `w`, all others keep their root. -/
lemma root_set {uf : UnionFind} (hWF : uf.WF) {v w : Nat} (hwv : w < v)
    (hv : v < uf.vec.length) :
    ∀ a, (uf.setParent v w).root a =
      if uf.onChain a v then uf.root w else uf.root a := by
  have hWF' : (uf.setParent v w).WF := WF_set hWF (le_of_lt hwv)
  intro a
  induction a using Nat.strong_induction_on with
  | _ a ih =>
    by_cases hav : a = v
    · subst hav
      rw [onChain_eq hWF, if_pos rfl, if_pos rfl]
      have hpv : (uf.setParent a w).parent a = w := parent_set_self hv
      have hwa : w ≠ a := Nat.ne_of_lt hwv
      rw [root_eq hWF' a, hpv, if_neg hwa]
      exact root_set_below hWF hwv w hwv
    · have hp : (uf.setParent v w).parent a = uf.parent a :=
        parent_set_other uf w hav
      by_cases h : uf.parent a = a
      · have hchain : uf.onChain a v = false := by
          rw [onChain_eq hWF, if_neg hav, if_pos h]
        rw [hchain, if_neg (by simp), root_of_parent_eq h,
          root_of_parent_eq (by rw [hp]; exact h)]
      · have hchain : uf.onChain a v = uf.onChain (uf.parent a) v := by
          rw [onChain_eq hWF, if_neg hav, if_neg h]
        rw [root_eq hWF' a, hp, if_neg h, ih _ (parent_lt hWF h), hchain,
          root_parent hWF a]

/-- What one call of `find` does: it returns the root, keeps the structure
well-formed, preserves every root, preserves rootness of every node, and
keeps the length. -/
lemma findFuel_spec :
    ∀ f (uf : UnionFind), uf.WF → ∀ i, i < f →
      (findFuel f uf i).2 = uf.root i ∧
      (findFuel f uf i).1.WF ∧
      (findFuel f uf i).1.vec.length = uf.vec.length ∧
      (∀ a, (findFuel f uf i).1.root a = uf.root a) ∧
      (∀ c, uf.parent c = c → (findFuel f uf i).1.parent c = c) := by
  intro f
  induction f with
  | zero => intro uf hWF i hi; exact absurd hi (Nat.not_lt_zero i)
  | succ f ih =>
    intro uf hWF i hi
    by_cases h : uf.parent i = i
    · simp only [findFuel, h, if_pos rfl]
      exact ⟨(root_of_parent_eq h).symm, hWF, rfl, fun a => rfl, fun c hc => hc⟩
    · have hin : i < uf.vec.length := lt_length_of_parent_ne h
      have hplt : uf.parent i < i := parent_lt hWF h
      have hgle : uf.parent (uf.parent i) ≤ uf.parent i := parent_le hWF _
      have hglt : uf.parent (uf.parent i) < i := Nat.lt_of_le_of_lt hgle hplt
      have hWF1 : (uf.setParent i (uf.parent (uf.parent i))).WF :=
        WF_set hWF (le_of_lt hglt)
      have hroot1 : ∀ a,
          (uf.setParent i (uf.parent (uf.parent i))).root a = uf.root a := by
        intro a
        rw [root_set hWF hglt hin a]
        by_cases hc : uf.onChain a i
        · rw [if_pos hc, root_parent hWF, root_parent hWF]
          exact (root_of_onChain hWF a i hc).symm
        · rw [if_neg (by simp [hc])]
      have hfix1 : ∀ c, uf.parent c = c →
          (uf.setParent i (uf.parent (uf.parent i))).parent c = c := by
        intro c hc
        have hci : c ≠ i := fun he => h (he ▸ hc)
        rw [parent_set_other uf _ hci]
        exact hc
      have hlen1 : (uf.setParent i (uf.parent (uf.parent i))).vec.length =
          uf.vec.length := setParent_length uf _ _
      have hrec := ih (uf.setParent i (uf.parent (uf.parent i))) hWF1
        (uf.parent (uf.parent i))
        (Nat.lt_of_lt_of_le hglt (Nat.lt_succ_iff.mp hi))
      simp only [findFuel, if_neg h]
      refine ⟨?_, hrec.2.1, hrec.2.2.1.trans hlen1, ?_, ?_⟩
      · rw [hrec.1, hroot1, root_parent hWF, root_parent hWF]
      · intro a
        rw [hrec.2.2.2.1 a, hroot1 a]
      · intro c hc
        exact hrec.2.2.2.2 c (hfix1 c hc)

/-- `find` returns the root and only compresses. -/
lemma find_spec {uf : UnionFind} (hWF : uf.WF) (i : Nat) :
    (uf.find i).2 = uf.root i ∧
    (uf.find i).1.WF ∧
    (uf.find i).1.vec.length = uf.vec.length ∧
    (∀ a, (uf.find i).1.root a = uf.root a) ∧
    (∀ c, uf.parent c = c → (uf.find i).1.parent c = c) :=
  findFuel_spec (i + 1) uf hWF i (Nat.lt_succ_self i)

lemma parent_makeset (uf : UnionFind) (a : Nat) :
    (uf.makeset).1.parent a =
      if a = uf.vec.length then uf.vec.length else uf.parent a := by
  by_cases h : a < uf.vec.length
  · rw [if_neg (Nat.ne_of_lt h)]
    simp only [parent, List.getD_eq_getElem?_getD]
    show ((uf.vec ++ [uf.vec.length])[a]?).getD a = _
    rw [List.getElem?_append_left h]
  · by_cases h2 : a = uf.vec.length
    · subst h2
      rw [if_pos rfl]
      simp only [parent, List.getD_eq_getElem?_getD]
      show ((uf.vec ++ [uf.vec.length])[uf.vec.length]?).getD _ = _
      rw [List.getElem?_append_right (le_refl _)]
      simp
    · rw [if_neg h2, parent_oob (i := a) (by
        by_contra hn
        have : a < uf.vec.length + 1 := by
          simpa [makeset] using Nat.lt_of_not_le hn
        omega), parent_oob (Nat.le_of_not_lt h)]

lemma makeset_length (uf : UnionFind) :
    (uf.makeset).1.vec.length = uf.vec.length + 1 := by
  simp [makeset]

lemma WF_makeset {uf : UnionFind} (hWF : uf.WF) : (uf.makeset).1.WF := by
  intro i hi
  show (uf.makeset).1.parent i ≤ i
  rw [parent_makeset]
  by_cases h2 : i = uf.vec.length
  · rw [if_pos h2, h2]
  · rw [if_neg h2]
    exact parent_le hWF i

/-- `makeset` appends a fresh singleton; old roots are unchanged. -/
lemma makeset_spec (uf : UnionFind) (hWF : uf.WF) :
    (uf.makeset).2 = uf.vec.length ∧
    (∀ a, a < uf.vec.length → (uf.makeset).1.root a = uf.root a) := by
  refine ⟨rfl, ?_⟩
  intro a
  induction a using Nat.strong_induction_on with
  | _ a ih =>
    intro ha
    have hpar : (uf.makeset).1.parent a = uf.parent a := by
      rw [parent_makeset, if_neg (Nat.ne_of_lt ha)]
    by_cases h : uf.parent a = a
    · rw [root_of_parent_eq h, root_of_parent_eq (by rw [hpar]; exact h)]
    · rw [root_eq (WF_makeset hWF) a, hpar, if_neg h, root_eq hWF a, if_neg h]
      exact ih _ (parent_lt hWF h) (lt_trans (parent_lt hWF h) ha)

end UnionFind

end EqSat

namespace EqSat

namespace UnionFind

lemma relPlus_symm {uf : UnionFind} {x y a b : Nat}
    (h : relPlus uf x y a b) : relPlus uf y x a b := by
  rcases h with h | ⟨h1, h2⟩ | ⟨h1, h2⟩
  · exact Or.inl h
  · exact Or.inr (Or.inr ⟨h1, h2⟩)
  · exact Or.inr (Or.inl ⟨h1, h2⟩)

lemma onChain_iff_root {uf : UnionFind} (hWF : uf.WF) {x : Nat}
    (hx : uf.parent x = x) (a : Nat) :
    uf.onChain a x = true ↔ uf.root a = x := by
  constructor
  · intro h
    rw [root_of_onChain hWF a x h, root_of_parent_eq hx]
  · intro h
    exact onChain_of_root_eq hWF a hx h

/-- Rewriting the parent of a root `x` to `w` moves exactly the class of `x`
to the class of `w`. -/
lemma root_set_root {uf : UnionFind} (hWF : uf.WF) {x w : Nat}
    (hx : uf.parent x = x) (hw : w < x) (hxl : x < uf.vec.length) (a : Nat) :
    (uf.setParent x w).root a =
      if uf.root a = x then uf.root w else uf.root a := by
  rw [root_set hWF hw hxl a]
  by_cases h : uf.root a = x
  · rw [if_pos ((onChain_iff_root hWF hx a).mpr h), if_pos h]
  · rw [if_neg (fun hc => h ((onChain_iff_root hWF hx a).mp hc)), if_neg h]

/-- The terminal break of the merge loop on the `x` side: `x` is a root and
its parent pointer is redirected to `parent y`.  All `relPlus`-related pairs
end up with one root. -/
lemma merge_terminal_x {uf : UnionFind} (hWF : uf.WF) {x y : Nat}
    (hx : uf.parent x = x) (hpy : uf.parent y < uf.parent x)
    (hxl : x < uf.vec.length) :
    ∀ a b, relPlus uf x y a b →
      (uf.setParent x (uf.parent y)).root a =
        (uf.setParent x (uf.parent y)).root b := by
  intro a b hab
  have hw : uf.parent y < x := hx ▸ hpy
  have hkey : ∀ c, (uf.setParent x (uf.parent y)).root c =
      if uf.root c = x then uf.root y else uf.root c := by
    intro c
    rw [root_set_root hWF hx hw hxl c, root_parent hWF y]
  rw [hkey a, hkey b]
  have hrx : uf.root x = x := root_of_parent_eq hx
  rcases hab with h | ⟨h1, h2⟩ | ⟨h1, h2⟩
  · by_cases hax : uf.root a = x
    · rw [if_pos hax, if_pos (h.symm.trans hax)]
    · rw [if_neg hax, if_neg (fun hbx => hax (h.trans hbx)), h]
  · rw [hrx] at h1
    rw [if_pos h1]
    by_cases hbx : uf.root b = x
    · rw [if_pos hbx]
    · rw [if_neg hbx, h2]
  · rw [hrx] at h2
    rw [if_pos h2]
    by_cases hax : uf.root a = x
    · rw [if_pos hax]
    · rw [if_neg hax, h1]

/-- The stepping case of the merge loop on the `x` side: the halving write
`setParent x (parent y)` keeps every `relPlus`-related pair related for the
recursive call at `(parent x, y)`. -/
lemma merge_step_x {uf : UnionFind} (hWF : uf.WF) {x y : Nat}
    (hx : uf.parent x ≠ x) (hpy : uf.parent y < uf.parent x) :
    ∀ a b, relPlus uf x y a b →
      relPlus (uf.setParent x (uf.parent y)) (uf.parent x) y a b := by
  intro a b hab
  have hxl : x < uf.vec.length := lt_length_of_parent_ne hx
  have hpx : uf.parent x < x := parent_lt hWF hx
  have hw : uf.parent y < x := lt_trans hpy hpx
  have hkey : ∀ c, (uf.setParent x (uf.parent y)).root c =
      if uf.onChain c x then uf.root y else uf.root c := by
    intro c
    rw [root_set hWF hw hxl c, root_parent hWF y]
  have hOCpx : ¬ (uf.onChain (uf.parent x) x = true) := fun hc =>
    absurd (le_of_onChain hWF _ _ hc) (Nat.not_le.mpr hpx)
  have hrpx : (uf.setParent x (uf.parent y)).root (uf.parent x) = uf.root x := by
    rw [hkey, if_neg hOCpx, root_parent hWF]
  have hry : (uf.setParent x (uf.parent y)).root y = uf.root y := by
    rw [hkey]
    by_cases h : uf.onChain y x = true
    · rw [if_pos h]
    · rw [if_neg h]
  have hroc : ∀ c, uf.onChain c x = true → uf.root c = uf.root x :=
    fun c hc => root_of_onChain hWF c x hc
  rcases hab with h | ⟨h1, h2⟩ | ⟨h1, h2⟩
  · by_cases hca : uf.onChain a x = true
    · by_cases hcb : uf.onChain b x = true
      · exact Or.inl (by rw [hkey a, hkey b, if_pos hca, if_pos hcb])
      · refine Or.inr (Or.inr ⟨?_, ?_⟩)
        · rw [hkey a, if_pos hca, hry]
        · rw [hkey b, if_neg hcb, hrpx, ← h, hroc a hca]
    · by_cases hcb : uf.onChain b x = true
      · refine Or.inr (Or.inl ⟨?_, ?_⟩)
        · rw [hkey a, if_neg hca, hrpx, h, hroc b hcb]
        · rw [hkey b, if_pos hcb, hry]
      · exact Or.inl (by rw [hkey a, hkey b, if_neg hca, if_neg hcb, h])
  · by_cases hca : uf.onChain a x = true
    · refine Or.inl ?_
      rw [hkey a, hkey b, if_pos hca]
      by_cases hcb : uf.onChain b x = true
      · rw [if_pos hcb]
      · rw [if_neg hcb, h2]
    · refine Or.inr (Or.inl ⟨?_, ?_⟩)
      · rw [hkey a, if_neg hca, hrpx, h1]
      · rw [hry]
        by_cases hcb : uf.onChain b x = true
        · rw [hkey b, if_pos hcb]
        · rw [hkey b, if_neg hcb, h2]
  · by_cases hcb : uf.onChain b x = true
    · refine Or.inl ?_
      rw [hkey a, hkey b, if_pos hcb]
      by_cases hca : uf.onChain a x = true
      · rw [if_pos hca]
      · rw [if_neg hca, h1]
    · refine Or.inr (Or.inr ⟨?_, ?_⟩)
      · rw [hry]
        by_cases hca : uf.onChain a x = true
        · rw [hkey a, if_pos hca]
        · rw [hkey a, if_neg hca, h1]
      · rw [hkey b, if_neg hcb, hrpx, h2]

/-- Unconditional preservation: the merge loop keeps well-formedness and the
vector length whatever its fuel and arguments. -/
lemma mergeFuel_preserves :
    ∀ fuel (uf : UnionFind) x y, uf.WF →
      (mergeFuel fuel uf x y).1.WF ∧
      (mergeFuel fuel uf x y).1.vec.length = uf.vec.length := by
  intro fuel
  induction fuel with
  | zero => intro uf x y hWF; exact ⟨hWF, rfl⟩
  | succ fuel ih =>
    intro uf x y hWF
    simp only [mergeFuel]
    by_cases h1 : uf.parent x = uf.parent y
    · rw [if_pos h1]; exact ⟨hWF, rfl⟩
    · rw [if_neg h1]
      by_cases h2 : uf.parent y < uf.parent x
      · rw [if_pos h2]
        have hpyx : uf.parent y ≤ x := le_trans (le_of_lt h2) (parent_le hWF x)
        by_cases h3 : x = uf.parent x
        · rw [if_pos h3]
          exact ⟨WF_set hWF hpyx, setParent_length uf _ _⟩
        · rw [if_neg h3]
          have h := ih (uf.setParent x (uf.parent y)) (uf.parent x) y
            (WF_set hWF hpyx)
          exact ⟨h.1, h.2.trans (setParent_length uf _ _)⟩
      · rw [if_neg h2]
        have hpxy : uf.parent x ≤ y := by
          have : uf.parent x ≤ uf.parent y := Nat.le_of_not_lt h2
          exact le_trans this (parent_le hWF y)
        by_cases h3 : y = uf.parent y
        · rw [if_pos h3]
          exact ⟨WF_set hWF hpxy, setParent_length uf _ _⟩
        · rw [if_neg h3]
          have h := ih (uf.setParent y (uf.parent x)) x (uf.parent y)
            (WF_set hWF hpxy)
          exact ⟨h.1, h.2.trans (setParent_length uf _ _)⟩

/-- The merge loop with sufficient fuel: well-formedness and length are
preserved, and every `relPlus`-related pair ends up with one root. -/
lemma mergeFuel_spec :
    ∀ fuel (uf : UnionFind) x y, uf.WF → x < uf.vec.length →
      y < uf.vec.length → x + y < fuel →
      (mergeFuel fuel uf x y).1.WF ∧
      (mergeFuel fuel uf x y).1.vec.length = uf.vec.length ∧
      ∀ a b, relPlus uf x y a b →
        (mergeFuel fuel uf x y).1.root a = (mergeFuel fuel uf x y).1.root b := by
  intro fuel
  induction fuel with
  | zero => intro uf x y _ _ _ hf; exact absurd hf (Nat.not_lt_zero _)
  | succ fuel ih =>
    intro uf x y hWF hx hy hf
    simp only [mergeFuel]
    by_cases h1 : uf.parent x = uf.parent y
    · rw [if_pos h1]
      refine ⟨hWF, rfl, ?_⟩
      have hxy : uf.root x = uf.root y := by
        rw [← root_parent hWF x, h1, root_parent hWF y]
      intro a b hab
      rcases hab with h | ⟨ha, hb⟩ | ⟨ha, hb⟩
      · exact h
      · rw [ha, hb, hxy]
      · rw [ha, hb, hxy]
    · rw [if_neg h1]
      by_cases h2 : uf.parent y < uf.parent x
      · rw [if_pos h2]
        by_cases h3 : x = uf.parent x
        · rw [if_pos h3]
          have hpyx : uf.parent y ≤ x := le_trans (le_of_lt h2) (parent_le hWF x)
          exact ⟨WF_set hWF hpyx, setParent_length uf _ _,
            merge_terminal_x hWF h3.symm h2 hx⟩
        · rw [if_neg h3]
          have hpxx : uf.parent x ≠ x := fun he => h3 he.symm
          have hpxlt : uf.parent x < x := parent_lt hWF hpxx
          have hw : uf.parent y < x := lt_trans h2 hpxlt
          have hWF1 : (uf.setParent x (uf.parent y)).WF :=
            WF_set hWF (le_of_lt hw)
          have hlen1 : (uf.setParent x (uf.parent y)).vec.length =
              uf.vec.length := setParent_length uf _ _
          have h := ih (uf.setParent x (uf.parent y)) (uf.parent x) y hWF1
            (by rw [hlen1]; exact lt_trans hpxlt hx) (by rw [hlen1]; exact hy)
            (by omega)
          exact ⟨h.1, h.2.1.trans hlen1,
            fun a b hab => h.2.2 a b (merge_step_x hWF hpxx h2 a b hab)⟩
      · rw [if_neg h2]
        have h2' : uf.parent x < uf.parent y :=
          Nat.lt_of_le_of_ne (Nat.le_of_not_lt h2) h1
        by_cases h3 : y = uf.parent y
        · rw [if_pos h3]
          have hpxy : uf.parent x ≤ y := le_trans (le_of_lt h2') (parent_le hWF y)
          exact ⟨WF_set hWF hpxy, setParent_length uf _ _,
            fun a b hab =>
              merge_terminal_x hWF h3.symm h2' hy a b (relPlus_symm hab)⟩
        · rw [if_neg h3]
          have hpyy : uf.parent y ≠ y := fun he => h3 he.symm
          have hpylt : uf.parent y < y := parent_lt hWF hpyy
          have hw : uf.parent x < y := lt_trans h2' hpylt
          have hWF1 : (uf.setParent y (uf.parent x)).WF :=
            WF_set hWF (le_of_lt hw)
          have hlen1 : (uf.setParent y (uf.parent x)).vec.length =
              uf.vec.length := setParent_length uf _ _
          have h := ih (uf.setParent y (uf.parent x)) x (uf.parent y) hWF1
            (by rw [hlen1]; exact hx) (by rw [hlen1]; exact lt_trans hpylt hy)
            (by omega)
          exact ⟨h.1, h.2.1.trans hlen1,
            fun a b hab => h.2.2 a b
              (relPlus_symm (merge_step_x hWF hpyy h2' a b (relPlus_symm hab)))⟩

lemma merge_fst (uf : UnionFind) (x y : Nat) :
    (uf.merge x y).1 = (mergeFuel (x + y + 1) uf x y).1 := by
  unfold merge
  rcases mergeFuel (x + y + 1) uf x y with ⟨u', x'⟩
  rfl

/-- `merge x y` preserves well-formedness and length, and makes the roots of
every `relPlus`-related pair coincide; in particular `x` and `y` end up in
one class, and classes never split. -/
lemma merge_spec {uf : UnionFind} (hWF : uf.WF) {x y : Nat}
    (hx : x < uf.vec.length) (hy : y < uf.vec.length) :
    (uf.merge x y).1.WF ∧
    (uf.merge x y).1.vec.length = uf.vec.length ∧
    ∀ a b, relPlus uf x y a b →
      (uf.merge x y).1.root a = (uf.merge x y).1.root b := by
  rw [merge_fst]
  exact mergeFuel_spec (x + y + 1) uf x y hWF hx hy (Nat.lt_succ_self _)

/-- `merge` preserves well-formedness and length unconditionally. -/
lemma merge_preserves {uf : UnionFind} (hWF : uf.WF) (x y : Nat) :
    (uf.merge x y).1.WF ∧ (uf.merge x y).1.vec.length = uf.vec.length := by
  rw [merge_fst]
  exact mergeFuel_preserves (x + y + 1) uf x y hWF

end UnionFind

open UnionFind in
/-- Root equality of two allocated ids is preserved by any valid operation
sequence, together with well-formedness and allocation. -/
lemma applyOps_root_eq : ∀ ops (uf : UnionFind) a b, uf.WF →
    a < uf.vec.length → b < uf.vec.length → validOps uf ops = true →
    uf.root a = uf.root b →
    (applyOps uf ops).WF ∧ a < (applyOps uf ops).vec.length ∧
    b < (applyOps uf ops).vec.length ∧
    (applyOps uf ops).root a = (applyOps uf ops).root b := by
  intro ops
  induction ops with
  | nil =>
    intro uf a b hWF ha hb _ hr
    exact ⟨hWF, ha, hb, hr⟩
  | cons op rest ih =>
    intro uf a b hWF ha hb hval hr
    show (applyOps (applyOp uf op) rest).WF ∧ _
    cases op with
    | mkset =>
      simp only [validOps, Bool.true_and] at hval
      have e : applyOp uf .mkset = (uf.makeset).1 := rfl
      rw [e] at hval ⊢
      exact ih _ a b (WF_makeset hWF)
        (by rw [makeset_length]; omega) (by rw [makeset_length]; omega) hval
        (by rw [(makeset_spec uf hWF).2 a ha, (makeset_spec uf hWF).2 b hb, hr])
    | findOp i =>
      simp only [validOps, Bool.and_eq_true, decide_eq_true_eq] at hval
      have e : applyOp uf (.findOp i) = (uf.find i).1 := rfl
      rw [e] at hval ⊢
      have h := find_spec hWF i
      exact ih _ a b h.2.1 (by rw [h.2.2.1]; exact ha)
        (by rw [h.2.2.1]; exact hb) hval.2
        (by rw [h.2.2.2.1 a, h.2.2.2.1 b, hr])
    | mergeOp i j =>
      simp only [validOps, Bool.and_eq_true, decide_eq_true_eq] at hval
      have e : applyOp uf (.mergeOp i j) = (uf.merge i j).1 := rfl
      rw [e] at hval ⊢
      have h := merge_spec hWF hval.1.1 hval.1.2
      exact ih _ a b h.1 (by rw [h.2.1]; exact ha) (by rw [h.2.1]; exact hb)
        hval.2 (h.2.2 a b (Or.inl hr))

/-- C7: for every union-find and every valid sequence of `makeset`,
`find`, and `merge` operations: once `find(a) == find(b)` holds for two
allocated class ids `a` and `b`, it still holds after the whole sequence —
no operation ever splits an equivalence class. -/
theorem c7_class_merge_monotone {uf : UnionFind} {a b : Nat} (hWF : uf.WF)
    (ha : a < uf.vec.length) (hb : b < uf.vec.length)
    (hab : (uf.find a).2 = (uf.find b).2) (ops : List UfOp)
    (hval : validOps uf ops = true) :
    ((applyOps uf ops).find a).2 = ((applyOps uf ops).find b).2 := by
  rw [(UnionFind.find_spec hWF a).1, (UnionFind.find_spec hWF b).1] at hab
  have h := applyOps_root_eq ops uf a b hWF ha hb hval hab
  rw [(UnionFind.find_spec h.1 a).1, (UnionFind.find_spec h.1 b).1]
  exact h.2.2.2

/-- Concrete instantiation of the C7 theorem: `⟨[0, 0]⟩` (two merged
classes), followed by a `makeset`, a `merge 2 0`, and a `find 1`. -/
theorem c7_class_merge_monotone_witness :
    (⟨[0, 0]⟩ : UnionFind).WF ∧
    ((⟨[0, 0]⟩ : UnionFind).find 0).2 = ((⟨[0, 0]⟩ : UnionFind).find 1).2 ∧
    validOps ⟨[0, 0]⟩ [.mkset, .mergeOp 2 0, .findOp 1] = true ∧
    ((applyOps ⟨[0, 0]⟩ [.mkset, .mergeOp 2 0, .findOp 1]).find 0).2 =
      ((applyOps ⟨[0, 0]⟩ [.mkset, .mergeOp 2 0, .findOp 1]).find 1).2 :=
  ⟨by decide, by decide, by decide,
   c7_class_merge_monotone (by decide) (by decide) (by decide) (by decide)
     [.mkset, .mergeOp 2 0, .findOp 1] (by decide)⟩

end EqSat

namespace EqSat

/-! ### List helpers for the table proofs -/

lemma getD_append_left {α : Type} {l l2 : List α} {i : Nat} (h : i < l.length)
    (d : α) : (l ++ l2).getD i d = l.getD i d := by
  simp only [List.getD_eq_getElem?_getD, List.getElem?_append_left h]

lemma getD_append_self {α : Type} (l : List α) (x d : α) :
    (l ++ [x]).getD l.length d = x := by
  simp only [List.getD_eq_getElem?_getD]
  rw [List.getElem?_append_right (le_refl _)]
  simp

lemma getD_set_self {α : Type} {l : List α} {i : Nat} (h : i < l.length)
    (x d : α) : (l.set i x).getD i d = x := by
  simp only [List.getD_eq_getElem?_getD, List.getElem?_set_self h,
    Option.getD_some]

lemma getD_set_ne {α : Type} {l : List α} {i j : Nat} (h : i ≠ j)
    (x d : α) : (l.set i x).getD j d = l.getD j d := by
  simp only [List.getD_eq_getElem?_getD, List.getElem?_set_ne h]

lemma getD_mem {α : Type} {l : List α} {i : Nat} (h : i < l.length) (d : α) :
    l.getD i d ∈ l := by
  rw [List.getD_eq_getElem l d h]
  exact List.getElem_mem h

lemma countP_set {α : Type} (p : α → Bool) :
    ∀ (l : List α) (i : Nat) (x d : α), i < l.length →
      (l.set i x).countP p + (if p (l.getD i d) then 1 else 0) =
        l.countP p + (if p x then 1 else 0) := by
  intro l
  induction l with
  | nil => intro i x d h; exact absurd h (Nat.not_lt_zero i)
  | cons a l ih =>
    intro i x d h
    cases i with
    | zero =>
      simp only [List.set_cons_zero, List.getD_cons_zero, List.countP_cons]
      omega
    | succ i =>
      simp only [List.set_cons_succ, List.getD_cons_succ, List.countP_cons]
      have := ih i x d (Nat.lt_of_succ_lt_succ h)
      omega

lemma countP_not_add {α : Type} (p : α → Bool) (l : List α) :
    l.countP (fun a => !p a) + l.countP p = l.length := by
  induction l with
  | nil => rfl
  | cons a l ih =>
    cases h : p a <;> simp [List.countP_cons, h, List.length_cons] <;> omega

lemma countP_set_true_false {α : Type} {p : α → Bool} {l : List α} {i : Nat}
    {x d : α} (h : i < l.length) (hold : p (l.getD i d) = true)
    (hnew : p x = false) : (l.set i x).countP p + 1 = l.countP p := by
  have hc := countP_set p l i x d h
  rw [hold, hnew] at hc
  simp at hc
  omega

lemma countP_set_false_true {α : Type} {p : α → Bool} {l : List α} {i : Nat}
    {x d : α} (h : i < l.length) (hold : p (l.getD i d) = false)
    (hnew : p x = true) : (l.set i x).countP p = l.countP p + 1 := by
  have hc := countP_set p l i x d h
  rw [hold, hnew] at hc
  simp at hc
  omega

namespace Table

variable {D P : Nat}

/-! ### The association-list map -/

lemma mapGet_eq_none {m : List (List Nat × Nat × List Nat)} {det : List Nat} :
    mapGet m det = none ↔ ∀ e ∈ m, e.1 ≠ det := by
  induction m with
  | nil => simp [mapGet]
  | cons e rest ih =>
    simp only [mapGet, List.mem_cons]
    by_cases h : e.1 = det
    · rw [if_pos h]
      constructor
      · intro hc; cases hc
      · intro hall; exact absurd h (hall e (Or.inl rfl))
    · rw [if_neg h]
      constructor
      · intro hn e2 he2
        rcases he2 with he2 | he2
        · subst he2; exact h
        · exact ih.mp hn e2 he2
      · intro hall
        exact ih.mpr (fun e2 he2 => hall e2 (Or.inr he2))

lemma mapGet_mem {m : List (List Nat × Nat × List Nat)} {det : List Nat}
    {v : Nat × List Nat} (h : mapGet m det = some v) : (det, v) ∈ m := by
  induction m with
  | nil => simp [mapGet] at h
  | cons e rest ih =>
    simp only [mapGet] at h
    by_cases he : e.1 = det
    · rw [if_pos he] at h
      injection h with h2
      have he2 : e = (det, v) := by rw [← he, ← h2]
      rw [← he2]
      exact List.mem_cons_self e rest
    · rw [if_neg he] at h
      exact List.mem_cons_of_mem e (ih h)

lemma mapInsert_absent {m : List (List Nat × Nat × List Nat)} {det : List Nat}
    (v : Nat × List Nat) (h : ∀ e ∈ m, e.1 ≠ det) :
    mapInsert m det v = m ++ [(det, v)] := by
  induction m with
  | nil => rfl
  | cons e rest ih =>
    simp only [mapInsert]
    rw [if_neg (h e (List.mem_cons_self e rest)),
      ih (fun e2 he2 => h e2 (List.mem_cons_of_mem e he2))]
    rfl

lemma mapGet_append_some {m m2 : List (List Nat × Nat × List Nat)}
    {det : List Nat} {v : Nat × List Nat} (h : mapGet m det = some v) :
    mapGet (m ++ m2) det = some v := by
  induction m with
  | nil => simp [mapGet] at h
  | cons e rest ih =>
    simp only [List.cons_append, mapGet] at h ⊢
    by_cases he : e.1 = det
    · rw [if_pos he] at h ⊢; exact h
    · rw [if_neg he] at h ⊢; exact ih h

lemma mapGet_append_none {m m2 : List (List Nat × Nat × List Nat)}
    {det : List Nat} (h : mapGet m det = none) :
    mapGet (m ++ m2) det = mapGet m2 det := by
  induction m with
  | nil => rfl
  | cons e rest ih =>
    simp only [List.cons_append, mapGet] at h ⊢
    by_cases he : e.1 = det
    · rw [if_pos he] at h; cases h
    · rw [if_neg he] at h ⊢; exact ih h

lemma mapRemove_absent {m : List (List Nat × Nat × List Nat)} {det : List Nat}
    (h : ∀ e ∈ m, e.1 ≠ det) : mapRemove m det = (m, false) := by
  induction m with
  | nil => rfl
  | cons e rest ih =>
    simp only [mapRemove]
    rw [if_neg (h e (List.mem_cons_self e rest)),
      ih (fun e2 he2 => h e2 (List.mem_cons_of_mem e he2))]

/-- A found key splits the association list, with the key nowhere else when
the keys are distinct. -/
lemma mapGet_split {m : List (List Nat × Nat × List Nat)} {det : List Nat}
    {v : Nat × List Nat} (hnd : (m.map (fun e => e.1)).Nodup)
    (h : mapGet m det = some v) :
    ∃ pre post, m = pre ++ (det, v) :: post ∧
      (∀ e ∈ pre, e.1 ≠ det) ∧ (∀ e ∈ post, e.1 ≠ det) := by
  induction m with
  | nil => simp [mapGet] at h
  | cons e rest ih =>
    simp only [mapGet] at h
    simp only [List.map_cons, List.nodup_cons] at hnd
    by_cases he : e.1 = det
    · rw [if_pos he] at h
      injection h with h2
      refine ⟨[], rest, ?_, ?_, ?_⟩
      · have he2 : e = (det, v) := by rw [← he, ← h2]
        rw [he2]; rfl
      · intro e2 he2; cases he2
      · intro e2 he2 hk
        apply hnd.1
        rw [he, ← hk]
        exact List.mem_map_of_mem (fun x => x.1) he2
    · rw [if_neg he] at h
      obtain ⟨pre, post, hsplit, hpre, hpost⟩ := ih hnd.2 h
      refine ⟨e :: pre, post, ?_, ?_, hpost⟩
      · rw [hsplit]; rfl
      · intro e2 he2
        rw [List.mem_cons] at he2
        rcases he2 with he2 | he2
        · subst he2; exact he
        · exact hpre e2 he2

lemma mapRemove_split {pre post : List (List Nat × Nat × List Nat)}
    {det : List Nat} {v : Nat × List Nat} (hpre : ∀ e ∈ pre, e.1 ≠ det) :
    mapRemove (pre ++ (det, v) :: post) det = (pre ++ post, true) := by
  induction pre with
  | nil =>
    simp [mapRemove]
  | cons e pre ih =>
    simp only [List.cons_append, mapRemove, List.append_eq]
    rw [if_neg (hpre e (List.mem_cons_self e pre)),
      ih (fun e2 he2 => hpre e2 (List.mem_cons_of_mem e he2))]

lemma mapGet_middle_ne {pre post : List (List Nat × Nat × List Nat)}
    {kr k : List Nat} {v : Nat × List Nat} (hk : k ≠ kr) :
    mapGet (pre ++ post) k = mapGet (pre ++ (kr, v) :: post) k := by
  cases hp : mapGet pre k with
  | some w => rw [mapGet_append_some hp, mapGet_append_some hp]
  | none =>
    rw [mapGet_append_none hp, mapGet_append_none hp]
    simp only [mapGet]
    rw [if_neg (fun h => hk h.symm)]

/-! ### `push_row`, `delete_row`, `insert_row` under `Core` -/

lemma core_push {t : Table D P} (hC : t.Core) {det dep : List Nat}
    (hnone : mapGet t.dmap det = none) (hlive : (det, dep) ≠ emptyRow D P) :
    (t.push_row det dep).1.Core ∧
    (t.push_row det dep).1.contents = t.contents ++ [(det, dep)] ∧
    (t.push_row det dep).1.dmap =
      t.dmap ++ [(det, (t.contents.length, dep))] ∧
    (t.push_row det dep).1.num_allocated_rows = t.num_allocated_rows + 1 ∧
    (t.push_row det dep).1.num_free_rows = t.num_free_rows ∧
    (t.push_row det dep).2 = dep := by
  obtain ⟨hnd, hent, hmapd, hal, hfr⟩ := hC
  have hkeys : ∀ e ∈ t.dmap, e.1 ≠ det := mapGet_eq_none.mp hnone
  have hdm : (t.push_row det dep).1.dmap =
      t.dmap ++ [(det, (t.contents.length, dep))] :=
    mapInsert_absent _ hkeys
  have hcon : (t.push_row det dep).1.contents = t.contents ++ [(det, dep)] :=
    rfl
  refine ⟨⟨?_, ?_, ?_, ?_, ?_⟩, hcon, hdm, rfl, rfl, rfl⟩
  · rw [hdm, List.map_append, List.nodup_append]
    refine ⟨hnd, List.nodup_singleton _, ?_⟩
    intro a ha hb
    rw [List.map_singleton, List.mem_singleton] at hb
    obtain ⟨e, he, hek⟩ := List.mem_map.mp ha
    exact hkeys e he (hek.trans hb)
  · intro e he
    rw [hdm] at he
    rcases List.mem_append.mp he with he | he
    · obtain ⟨h1, h2, h3⟩ := hent e he
      refine ⟨?_, ?_, h3⟩
      · rw [hcon, List.length_append]
        omega
      · show (t.push_row det dep).1.contents.getD e.2.1 (emptyRow D P) = _
        rw [hcon, getD_append_left h1]
        exact h2
    · rw [List.mem_singleton] at he
      subst he
      refine ⟨?_, ?_, hlive⟩
      · rw [hcon, List.length_append]
        simp
      · show (t.push_row det dep).1.contents.getD _ (emptyRow D P) = _
        rw [hcon]
        exact getD_append_self t.contents (det, dep) (emptyRow D P)
  · intro i hi hlivei
    rw [hcon, List.length_append, List.length_singleton] at hi
    rw [hdm]
    by_cases hi2 : i < t.contents.length
    · have hrow : (t.push_row det dep).1.get_row i = t.get_row i := by
        show (t.push_row det dep).1.contents.getD i (emptyRow D P) = _
        rw [hcon, getD_append_left hi2]
        rfl
      rw [hrow] at hlivei ⊢
      exact mapGet_append_some (hmapd i hi2 hlivei)
    · have hieq : i = t.contents.length := by omega
      subst hieq
      have hrow : (t.push_row det dep).1.get_row t.contents.length =
          (det, dep) := by
        show (t.push_row det dep).1.contents.getD _ (emptyRow D P) = _
        rw [hcon]
        exact getD_append_self t.contents (det, dep) (emptyRow D P)
      rw [hrow]
      show mapGet (t.dmap ++ [(det, (t.contents.length, dep))]) det =
        some (t.contents.length, dep)
      rw [mapGet_append_none hnone]
      simp [mapGet]
  · show t.num_allocated_rows + 1 =
      ((t.contents ++ [(det, dep)]).countP
        fun r => !decide (r = emptyRow D P))
    rw [hal]
    show t.contents.countP (fun r => !decide (r = emptyRow D P)) + 1 = _
    rw [List.countP_append, List.countP_cons, List.countP_nil]
    simp [hlive]
  · show t.num_free_rows =
      ((t.contents ++ [(det, dep)]).countP fun r => decide (r = emptyRow D P))
    rw [hfr]
    show t.contents.countP (fun r => decide (r = emptyRow D P)) = _
    rw [List.countP_append, List.countP_cons, List.countP_nil]
    simp [hlive]

lemma core_delete_live {t : Table D P} (hC : t.Core) {row : Nat}
    (hrow : row < t.contents.length) (hlive : t.get_row row ≠ emptyRow D P) :
    (t.delete_row row).1.Core ∧
    (t.delete_row row).2 = true ∧
    (t.delete_row row).1.contents = t.contents.set row (emptyRow D P) ∧
    mapGet (t.delete_row row).1.dmap (t.get_row row).1 = none ∧
    (∀ k, k ≠ (t.get_row row).1 →
      mapGet (t.delete_row row).1.dmap k = mapGet t.dmap k) ∧
    (∀ e ∈ (t.delete_row row).1.dmap, e ∈ t.dmap) ∧
    (t.delete_row row).1.num_allocated_rows + 1 = t.num_allocated_rows ∧
    (t.delete_row row).1.num_free_rows = t.num_free_rows + 1 := by
  obtain ⟨hnd, hent, hmapd, hal, hfr⟩ := hC
  have hm : mapGet t.dmap (t.get_row row).1 = some (row, (t.get_row row).2) :=
    hmapd row hrow hlive
  obtain ⟨pre, post, hsplit, hpre, hpost⟩ := mapGet_split hnd hm
  have hrem : mapRemove t.dmap (t.get_row row).1 = (pre ++ post, true) := by
    rw [hsplit]; exact mapRemove_split hpre
  have hd : t.delete_row row =
      (⟨t.contents.set row (emptyRow D P), pre ++ post,
        t.num_allocated_rows - 1, t.num_free_rows + 1⟩, true) := by
    simp [delete_row, hrem]
  have hmem : ∀ e ∈ pre ++ post, e ∈ t.dmap ∧ e.1 ≠ (t.get_row row).1 := by
    intro e he
    rcases List.mem_append.mp he with he | he
    · refine ⟨?_, hpre e he⟩
      rw [hsplit]
      exact List.mem_append.mpr (Or.inl he)
    · refine ⟨?_, hpost e he⟩
      rw [hsplit]
      exact List.mem_append.mpr (Or.inr (List.mem_cons_of_mem _ he))
  have hget : ∀ k, k ≠ (t.get_row row).1 →
      mapGet (pre ++ post) k = mapGet t.dmap k := by
    intro k hk
    rw [hsplit]
    exact mapGet_middle_ne hk
  have hgd : t.contents.getD row (emptyRow D P) = t.get_row row := rfl
  have hlc : (t.contents.set row (emptyRow D P)).countP
      (fun r => !decide (r = emptyRow D P)) + 1 =
      t.contents.countP (fun r => !decide (r = emptyRow D P)) :=
    countP_set_true_false hrow (by rw [hgd]; simp [hlive]) (by simp)
  have htc : (t.contents.set row (emptyRow D P)).countP
      (fun r => decide (r = emptyRow D P)) =
      t.contents.countP (fun r => decide (r = emptyRow D P)) + 1 :=
    countP_set_false_true hrow (by rw [hgd]; simp [hlive]) (by simp)
  have halv : t.num_allocated_rows =
      t.contents.countP (fun r => !decide (r = emptyRow D P)) := hal
  have hfrv : t.num_free_rows =
      t.contents.countP (fun r => decide (r = emptyRow D P)) := hfr
  rw [hd]
  refine ⟨⟨?_, ?_, ?_, ?_, ?_⟩, rfl, rfl, ?_, ?_, ?_, ?_, ?_⟩
  · have hnd2 := hnd
    rw [hsplit, List.map_append, List.map_cons] at hnd2
    rw [List.map_append]
    exact (List.nodup_middle.mp hnd2).of_cons
  · intro e he
    obtain ⟨hed, hek⟩ := hmem e he
    obtain ⟨h1, h2, h3⟩ := hent e hed
    have hne : e.2.1 ≠ row := by
      intro hcontra
      apply hek
      rw [← hcontra, h2]
    refine ⟨?_, ?_, h3⟩
    · show e.2.1 < (t.contents.set row (emptyRow D P)).length
      rw [List.length_set]; exact h1
    · show (t.contents.set row (emptyRow D P)).getD e.2.1 (emptyRow D P) = _
      rw [getD_set_ne (fun h => hne h.symm)]
      exact h2
  · intro i hi hlivei
    have hi2 : i < t.contents.length := by
      rw [show (⟨t.contents.set row (emptyRow D P), pre ++ post,
        t.num_allocated_rows - 1, t.num_free_rows + 1⟩ :
        Table D P).contents = t.contents.set row (emptyRow D P) from rfl,
        List.length_set] at hi
      exact hi
    have hir : i ≠ row := by
      intro hcontra
      apply hlivei
      show (t.contents.set row (emptyRow D P)).getD i (emptyRow D P) = _
      rw [hcontra, getD_set_self hrow]
    have hrowi : (⟨t.contents.set row (emptyRow D P), pre ++ post,
        t.num_allocated_rows - 1, t.num_free_rows + 1⟩ :
        Table D P).get_row i = t.get_row i := by
      show (t.contents.set row (emptyRow D P)).getD i (emptyRow D P) = _
      rw [getD_set_ne (fun h => hir h.symm)]
      rfl
    rw [hrowi] at hlivei ⊢
    have hki : (t.get_row i).1 ≠ (t.get_row row).1 := by
      intro hcontra
      have h1 := hmapd i hi2 hlivei
      rw [hcontra, hm] at h1
      injection h1 with h2
      exact hir (congrArg Prod.fst h2).symm
    show mapGet (pre ++ post) _ = _
    rw [hget _ hki]
    exact hmapd i hi2 hlivei
  · show t.num_allocated_rows - 1 =
      ((t.contents.set row (emptyRow D P)).countP
        fun r => !decide (r = emptyRow D P))
    omega
  · show t.num_free_rows + 1 =
      ((t.contents.set row (emptyRow D P)).countP
        fun r => decide (r = emptyRow D P))
    omega
  · show mapGet (pre ++ post) (t.get_row row).1 = none
    exact mapGet_eq_none.mpr (fun e he => (hmem e he).2)
  · exact hget
  · intro e he
    exact (hmem e he).1
  · show t.num_allocated_rows - 1 + 1 = t.num_allocated_rows
    omega
  · rfl

lemma delete_absent {t : Table D P} {row : Nat}
    (h : mapGet t.dmap (t.get_row row).1 = none) :
    t.delete_row row = (t, false) := by
  have hr := mapRemove_absent (mapGet_eq_none.mp h)
  simp [delete_row, hr]

lemma core_insert_fresh {σ : Type} {t : Table D P} (hC : t.Core)
    {det dep : List Nat}
    (mrg : σ → List Nat → List Nat → σ × List Nat) (s : σ)
    (hnone : mapGet t.dmap det = none) (hlive : (det, dep) ≠ emptyRow D P) :
    (t.insert_row det dep mrg s).2.1.Core ∧
    (t.insert_row det dep mrg s).2.1.contents = t.contents ++ [(det, dep)] ∧
    (∀ e ∈ (t.insert_row det dep mrg s).2.1.dmap, e ∈ t.dmap ∨ e.1 = det) ∧
    (t.insert_row det dep mrg s).2.1.num_allocated_rows =
      t.num_allocated_rows + 1 ∧
    (t.insert_row det dep mrg s).2.1.num_free_rows = t.num_free_rows ∧
    (t.insert_row det dep mrg s).2.2 = dep := by
  obtain ⟨hP, hc, hdm, ha, hf, hd⟩ := core_push hC hnone hlive
  have he : t.insert_row det dep mrg s =
      (s, (t.push_row det dep).1, (t.push_row det dep).2) := by
    rcases hp : t.push_row det dep with ⟨t1, dep1⟩
    simp [insert_row, hnone, hp]
  rw [he]
  refine ⟨hP, hc, ?_, ha, hf, hd⟩
  intro e hee
  rw [hdm] at hee
  rcases List.mem_append.mp hee with hee | hee
  · exact Or.inl hee
  · rw [List.mem_singleton] at hee
    subst hee
    exact Or.inr rfl

lemma core_insert_conflict {σ : Type} {t : Table D P} (hC : t.Core)
    {det : List Nat} {prior : Nat} {p : List Nat}
    (hsome : mapGet t.dmap det = some (prior, p))
    (dep : List Nat) (mrg : σ → List Nat → List Nat → σ × List Nat) (s : σ)
    (hlive2 : (det, (mrg s dep p).2) ≠ emptyRow D P) :
    (t.insert_row det dep mrg s).2.1.Core ∧
    (t.insert_row det dep mrg s).2.1.contents =
      t.contents.set prior (emptyRow D P) ++ [(det, (mrg s dep p).2)] ∧
    (∀ e ∈ (t.insert_row det dep mrg s).2.1.dmap, e ∈ t.dmap ∨ e.1 = det) ∧
    (t.insert_row det dep mrg s).2.1.num_allocated_rows =
      t.num_allocated_rows ∧
    (t.insert_row det dep mrg s).2.1.num_free_rows = t.num_free_rows + 1 ∧
    (t.insert_row det dep mrg s).2.2 = (mrg s dep p).2 ∧
    prior < t.contents.length ∧ t.get_row prior = (det, p) := by
  obtain ⟨hpl, hpc, hplive⟩ := hC.2.1 (det, (prior, p)) (mapGet_mem hsome)
  dsimp only at hpl hpc hplive
  have hlivep : t.get_row prior ≠ emptyRow D P := by rw [hpc]; exact hplive
  obtain ⟨hC1, _, hcon1, hgnone, _, hsub1, hal1, hfr1⟩ :=
    core_delete_live hC hpl hlivep
  have hkey : (t.get_row prior).1 = det := by rw [hpc]
  rw [hkey] at hgnone
  obtain ⟨hC2, hcon2, hdm2, hal2, hfr2, hd2⟩ :=
    core_push hC1 hgnone hlive2
  have he : t.insert_row det dep mrg s =
      ((mrg s dep p).1,
       ((t.delete_row prior).1.push_row det (mrg s dep p).2).1,
       ((t.delete_row prior).1.push_row det (mrg s dep p).2).2) := by
    rcases hm : mrg s dep p with ⟨s2, merged⟩
    rcases hdl : t.delete_row prior with ⟨t1, b⟩
    rcases hp2 : t1.push_row det merged with ⟨t2, dep2⟩
    simp [insert_row, hsome, hm, hdl, hp2]
  rw [he]
  refine ⟨hC2, ?_, ?_, ?_, ?_, hd2, hpl, hpc⟩
  · rw [hcon2, hcon1]
  · intro e hee
    rw [hdm2] at hee
    rcases List.mem_append.mp hee with hee | hee
    · exact Or.inl (hsub1 e hee)
    · rw [List.mem_singleton] at hee
      subst hee
      exact Or.inr rfl
  · dsimp only
    omega
  · rw [hfr2, hfr1]

/-- Any table reachable through sentinel-free calls satisfies the structural
invariant and has no sentinel map key. -/
lemma reach_core {t : Table D P} (h : t.Reach) : t.Core ∧ t.keysRegular := by
  induction h with
  | new =>
    refine ⟨⟨List.nodup_nil, ?_, ?_, rfl, rfl⟩, ?_⟩
    · intro e he; cases he
    · intro i hi; exact absurd hi (Nat.not_lt_zero i)
    · intro e he; cases he
  | ins det dep mrg s ht hdet hdep ih =>
    rename_i t σ
    obtain ⟨hC, hR⟩ := ih
    cases hg : mapGet t.dmap det with
    | none =>
      have hlive : (det, dep) ≠ emptyRow D P :=
        fun hcontra => hdet (congrArg Prod.fst hcontra)
      obtain ⟨hC2, _, hsub, _, _, _⟩ := core_insert_fresh hC mrg s hg hlive
      refine ⟨hC2, ?_⟩
      intro e he
      rcases hsub e he with he2 | he2
      · exact hR e he2
      · rw [he2]; exact hdet
    | some v =>
      rcases v with ⟨prior, p⟩
      have hlive2 : (det, (mrg s dep p).2) ≠ emptyRow D P :=
        fun hcontra => hdet (congrArg Prod.fst hcontra)
      obtain ⟨hC2, _, hsub, _, _, _, _, _⟩ :=
        core_insert_conflict hC hg dep mrg s hlive2
      refine ⟨hC2, ?_⟩
      intro e he
      rcases hsub e he with he2 | he2
      · exact hR e he2
      · rw [he2]; exact hdet
  | del row ht hrow ih =>
    rename_i t
    obtain ⟨hC, hR⟩ := ih
    by_cases hl : t.get_row row = emptyRow D P
    · have hnone : mapGet t.dmap (t.get_row row).1 = none := by
        refine mapGet_eq_none.mpr ?_
        intro e he
        rw [hl]
        exact hR e he
      rw [delete_absent hnone]
      exact ⟨hC, hR⟩
    · obtain ⟨hC2, _, _, _, _, hsub, _, _⟩ := core_delete_live hC hrow hl
      exact ⟨hC2, fun e he => hR e (hsub e he)⟩

/-- Distinct live rows have distinct determinants under the invariant. -/
lemma core_dets_distinct {t : Table D P} (hC : t.Core) : t.DetsDistinct := by
  intro i hi j hj hli hlj hk
  have h1 := hC.2.2.1 i hi hli
  have h2 := hC.2.2.1 j hj hlj
  rw [hk, h2] at h1
  injection h1 with h3
  exact (congrArg Prod.fst h3).symm

end Table

/-- C10: in every table reachable from `Table::new` by `insert_row` and
`delete_row` calls whose tuple arguments never form the all-`0xFFFFFFFF`
sentinel tuple (and whose deletes are in range), `num_allocated_rows` is the
number of live rows, `num_free_rows` is the number of tombstoned slots, and
their sum is the length of the physical row vector. -/
theorem c10_counters_track_rows {D P : Nat} {t : Table D P} (h : t.Reach) :
    t.num_allocated_rows = t.liveCount ∧
    t.num_free_rows = t.tombCount ∧
    t.num_allocated_rows + t.num_free_rows = t.contents.length := by
  obtain ⟨⟨_, _, _, hal, hfr⟩, _⟩ := Table.reach_core h
  refine ⟨hal, hfr, ?_⟩
  rw [hal, hfr]
  exact countP_not_add _ t.contents

/-- Concrete instantiation of the C10 theorem: a fresh insert, a conflicting
insert, then a delete of the moved row. -/
theorem c10_counters_track_rows_witness :
    ((((Table.new 2 1).insert_row [0, 1] [2] Table.keepResident
        ()).2.1.insert_row [0, 1] [5] Table.keepResident
        ()).2.1.delete_row 1).1.num_allocated_rows =
      ((((Table.new 2 1).insert_row [0, 1] [2] Table.keepResident
        ()).2.1.insert_row [0, 1] [5] Table.keepResident
        ()).2.1.delete_row 1).1.liveCount ∧
    ((((Table.new 2 1).insert_row [0, 1] [2] Table.keepResident
        ()).2.1.insert_row [0, 1] [5] Table.keepResident
        ()).2.1.delete_row 1).1.num_free_rows =
      ((((Table.new 2 1).insert_row [0, 1] [2] Table.keepResident
        ()).2.1.insert_row [0, 1] [5] Table.keepResident
        ()).2.1.delete_row 1).1.tombCount ∧
    ((((Table.new 2 1).insert_row [0, 1] [2] Table.keepResident
        ()).2.1.insert_row [0, 1] [5] Table.keepResident
        ()).2.1.delete_row 1).1.num_allocated_rows +
      ((((Table.new 2 1).insert_row [0, 1] [2] Table.keepResident
        ()).2.1.insert_row [0, 1] [5] Table.keepResident
        ()).2.1.delete_row 1).1.num_free_rows =
      ((((Table.new 2 1).insert_row [0, 1] [2] Table.keepResident
        ()).2.1.insert_row [0, 1] [5] Table.keepResident
        ()).2.1.delete_row 1).1.contents.length :=
  c10_counters_track_rows
    (Table.Reach.del 1
      (Table.Reach.ins [0, 1] [5] Table.keepResident ()
        (Table.Reach.ins [0, 1] [2] Table.keepResident ()
          Table.Reach.new (by decide) (by decide))
        (by decide) (by decide))
      (by decide))

/-- C5 (amended): an insert whose determinant already has a live row does
modify the table: it returns the merged dependent (the resident one under
the keep-resident closure), tombstones the prior physical row, and appends
the merged row at the tail, leaving `num_allocated_rows` unchanged and
incrementing `num_free_rows`. -/
theorem c5_conflicting_insert_moves_row {D P : Nat} {t : Table D P}
    (hC : t.Core) {det : List Nat} {prior : Nat} {p : List Nat}
    (hsome : Table.mapGet t.dmap det = some (prior, p)) (dep : List Nat) :
    (t.insert_row det dep Table.keepResident ()).2.2 = p ∧
    (t.insert_row det dep Table.keepResident ()).2.1.contents =
      t.contents.set prior (Table.emptyRow D P) ++ [(det, p)] ∧
    (t.insert_row det dep Table.keepResident ()).2.1.num_allocated_rows =
      t.num_allocated_rows ∧
    (t.insert_row det dep Table.keepResident ()).2.1.num_free_rows =
      t.num_free_rows + 1 := by
  have hplive := (hC.2.1 (det, (prior, p)) (Table.mapGet_mem hsome)).2.2
  have hlive2 : (det, (Table.keepResident () dep p).2) ≠
      Table.emptyRow D P := hplive
  obtain ⟨_, hcon, _, hal, hfr, hd, _, _⟩ :=
    Table.core_insert_conflict hC hsome dep Table.keepResident () hlive2
  exact ⟨hd, hcon, hal, hfr⟩

/-- Concrete instantiation of the amended C5 theorem on the
`simple_table` prefix: the one-row table with `([0,1],[2])` resident. -/
theorem c5_conflicting_insert_moves_row_witness :
    c5T1.2.1.Core ∧
    Table.mapGet c5T1.2.1.dmap [0, 1] = some (0, [2]) ∧
    (c5T2.2.2 = [2] ∧
     c5T2.2.1.contents =
       c5T1.2.1.contents.set 0 (Table.emptyRow 2 1) ++ [([0, 1], [2])] ∧
     c5T2.2.1.num_allocated_rows = c5T1.2.1.num_allocated_rows ∧
     c5T2.2.1.num_free_rows = c5T1.2.1.num_free_rows + 1) :=
  ⟨by decide, by decide,
   c5_conflicting_insert_moves_row (by decide) (by decide) [5]⟩

end EqSat

namespace EqSat

/-! ### Term-level helpers -/

lemma mapClasses_congr {f g : Nat → Nat} (h : ∀ x, f x = g x) (t : Term) :
    t.mapClasses f = t.mapClasses g := by
  cases t <;> simp [Term.mapClasses, h]

lemma mapClasses_root (f : Nat → Nat) (t : Term) :
    (t.mapClasses f).root = f t.root := by
  cases t <;> rfl

lemma encode_dep (t : Term) : (t.encode).2 = [t.root] := by
  cases t <;> rfl

lemma decode_root (c : Ctor) (det dep : List Nat) :
    (decodeCtor c det dep).root = dep.getD 0 0 := by
  cases c <;> rfl

/-- What `ENode::canonicalize` does: the returned union-find is the input
compressed (same roots, same length, still well-formed), and the returned
term has every ClassId column replaced by its root. -/
lemma canonicalize_spec {uf : UnionFind} (hWF : uf.WF) (t : Term) :
    (Term.canonicalize uf t).1.WF ∧
    (Term.canonicalize uf t).1.vec.length = uf.vec.length ∧
    (∀ a, (Term.canonicalize uf t).1.root a = uf.root a) ∧
    (Term.canonicalize uf t).2 = t.mapClasses uf.root := by
  cases t with
  | Constant v r =>
    rcases hf : uf.find r with ⟨u1, fr⟩
    have h1 := UnionFind.find_spec hWF r
    rw [hf] at h1
    dsimp only at h1
    simp only [Term.canonicalize, hf, Term.mapClasses]
    exact ⟨h1.2.1, h1.2.2.1, h1.2.2.2.1, by rw [h1.1]⟩
  | Param i r =>
    rcases hf : uf.find r with ⟨u1, fr⟩
    have h1 := UnionFind.find_spec hWF r
    rw [hf] at h1
    dsimp only at h1
    simp only [Term.canonicalize, hf, Term.mapClasses]
    exact ⟨h1.2.1, h1.2.2.1, h1.2.2.2.1, by rw [h1.1]⟩
  | Start r =>
    rcases hf : uf.find r with ⟨u1, fr⟩
    have h1 := UnionFind.find_spec hWF r
    rw [hf] at h1
    dsimp only at h1
    simp only [Term.canonicalize, hf, Term.mapClasses]
    exact ⟨h1.2.1, h1.2.2.1, h1.2.2.2.1, by rw [h1.1]⟩
  | Region a b r =>
    rcases hf1 : uf.find a with ⟨u1, fa⟩
    have h1 := UnionFind.find_spec hWF a
    rw [hf1] at h1
    dsimp only at h1
    rcases hf2 : u1.find b with ⟨u2, fb⟩
    have h2 := UnionFind.find_spec h1.2.1 b
    rw [hf2] at h2
    dsimp only at h2
    rcases hf3 : u2.find r with ⟨u3, fr⟩
    have h3 := UnionFind.find_spec h2.2.1 r
    rw [hf3] at h3
    dsimp only at h3
    simp only [Term.canonicalize, hf1, hf2, hf3, Term.mapClasses]
    refine ⟨h3.2.1, (h3.2.2.1.trans h2.2.2.1).trans h1.2.2.1,
      fun x => ((h3.2.2.2.1 x).trans (h2.2.2.2.1 x)).trans (h1.2.2.2.1 x), ?_⟩
    rw [h1.1, h2.1, h1.2.2.2.1 b, h3.1, h2.2.2.2.1 r, h1.2.2.2.1 r]
  | Branch a b r =>
    rcases hf1 : uf.find a with ⟨u1, fa⟩
    have h1 := UnionFind.find_spec hWF a
    rw [hf1] at h1
    dsimp only at h1
    rcases hf2 : u1.find b with ⟨u2, fb⟩
    have h2 := UnionFind.find_spec h1.2.1 b
    rw [hf2] at h2
    dsimp only at h2
    rcases hf3 : u2.find r with ⟨u3, fr⟩
    have h3 := UnionFind.find_spec h2.2.1 r
    rw [hf3] at h3
    dsimp only at h3
    simp only [Term.canonicalize, hf1, hf2, hf3, Term.mapClasses]
    refine ⟨h3.2.1, (h3.2.2.1.trans h2.2.2.1).trans h1.2.2.1,
      fun x => ((h3.2.2.2.1 x).trans (h2.2.2.2.1 x)).trans (h1.2.2.2.1 x), ?_⟩
    rw [h1.1, h2.1, h1.2.2.2.1 b, h3.1, h2.2.2.2.1 r, h1.2.2.2.1 r]
  | ControlProj a i r =>
    rcases hf1 : uf.find a with ⟨u1, fa⟩
    have h1 := UnionFind.find_spec hWF a
    rw [hf1] at h1
    dsimp only at h1
    rcases hf2 : u1.find r with ⟨u2, fr⟩
    have h2 := UnionFind.find_spec h1.2.1 r
    rw [hf2] at h2
    dsimp only at h2
    simp only [Term.canonicalize, hf1, hf2, Term.mapClasses]
    refine ⟨h2.2.1, h2.2.2.1.trans h1.2.2.1,
      fun x => (h2.2.2.2.1 x).trans (h1.2.2.2.1 x), ?_⟩
    rw [h1.1, h2.1, h1.2.2.2.1 r]
  | Finish a b r =>
    rcases hf1 : uf.find a with ⟨u1, fa⟩
    have h1 := UnionFind.find_spec hWF a
    rw [hf1] at h1
    dsimp only at h1
    rcases hf2 : u1.find b with ⟨u2, fb⟩
    have h2 := UnionFind.find_spec h1.2.1 b
    rw [hf2] at h2
    dsimp only at h2
    rcases hf3 : u2.find r with ⟨u3, fr⟩
    have h3 := UnionFind.find_spec h2.2.1 r
    rw [hf3] at h3
    dsimp only at h3
    simp only [Term.canonicalize, hf1, hf2, hf3, Term.mapClasses]
    refine ⟨h3.2.1, (h3.2.2.1.trans h2.2.2.1).trans h1.2.2.1,
      fun x => ((h3.2.2.2.1 x).trans (h2.2.2.2.1 x)).trans (h1.2.2.2.1 x), ?_⟩
    rw [h1.1, h2.1, h1.2.2.2.1 b, h3.1, h2.2.2.2.1 r, h1.2.2.2.1 r]
  | Phi gg a b r =>
    rcases hf1 : uf.find gg with ⟨u1, fg⟩
    have h1 := UnionFind.find_spec hWF gg
    rw [hf1] at h1
    dsimp only at h1
    rcases hf2 : u1.find a with ⟨u2, fa⟩
    have h2 := UnionFind.find_spec h1.2.1 a
    rw [hf2] at h2
    dsimp only at h2
    rcases hf3 : u2.find b with ⟨u3, fb⟩
    have h3 := UnionFind.find_spec h2.2.1 b
    rw [hf3] at h3
    dsimp only at h3
    rcases hf4 : u3.find r with ⟨u4, fr⟩
    have h4 := UnionFind.find_spec h3.2.1 r
    rw [hf4] at h4
    dsimp only at h4
    simp only [Term.canonicalize, hf1, hf2, hf3, hf4, Term.mapClasses]
    refine ⟨h4.2.1,
      ((h4.2.2.1.trans h3.2.2.1).trans h2.2.2.1).trans h1.2.2.1,
      fun x => (((h4.2.2.2.1 x).trans (h3.2.2.2.1 x)).trans
        (h2.2.2.2.1 x)).trans (h1.2.2.2.1 x), ?_⟩
    rw [h1.1, h2.1, h1.2.2.2.1 a, h3.1, h2.2.2.2.1 b, h1.2.2.2.1 b,
      h4.1, h3.2.2.2.1 r, h2.2.2.2.1 r, h1.2.2.2.1 r]
  | Add a b r =>
    rcases hf1 : uf.find a with ⟨u1, fa⟩
    have h1 := UnionFind.find_spec hWF a
    rw [hf1] at h1
    dsimp only at h1
    rcases hf2 : u1.find b with ⟨u2, fb⟩
    have h2 := UnionFind.find_spec h1.2.1 b
    rw [hf2] at h2
    dsimp only at h2
    rcases hf3 : u2.find r with ⟨u3, fr⟩
    have h3 := UnionFind.find_spec h2.2.1 r
    rw [hf3] at h3
    dsimp only at h3
    simp only [Term.canonicalize, hf1, hf2, hf3, Term.mapClasses]
    refine ⟨h3.2.1, (h3.2.2.1.trans h2.2.2.1).trans h1.2.2.1,
      fun x => ((h3.2.2.2.1 x).trans (h2.2.2.2.1 x)).trans (h1.2.2.2.1 x), ?_⟩
    rw [h1.1, h2.1, h1.2.2.2.1 b, h3.1, h2.2.2.2.1 r, h1.2.2.2.1 r]

namespace Table

variable {D P : Nat}

/-! ### Row-iteration order -/

lemma first_rowAux_spec (t : Table D P) :
    ∀ fuel, fuel ≤ t.contents.length →
      (first_rowAux t fuel = none →
        ∀ i, t.contents.length - fuel ≤ i → i < t.contents.length →
          t.get_row i = emptyRow D P) ∧
      (∀ r, first_rowAux t fuel = some r →
        r < t.contents.length ∧ t.get_row r ≠ emptyRow D P ∧
        ∀ i, t.contents.length - fuel ≤ i → i < r →
          t.get_row i = emptyRow D P) := by
  intro fuel
  induction fuel with
  | zero =>
    intro _
    constructor
    · intro _ i hi1 hi2
      omega
    · intro r hr
      cases hr
  | succ fuel ih =>
    intro hle
    have ih2 := ih (by omega)
    by_cases he : t.get_row (t.contents.length - (fuel + 1)) = emptyRow D P
    · have hstep : first_rowAux t (fuel + 1) = first_rowAux t fuel := by
        simp only [first_rowAux]
        rw [if_neg (fun hc => hc he)]
      constructor
      · intro hnone i hi1 hi2
        rw [hstep] at hnone
        by_cases hi3 : t.contents.length - fuel ≤ i
        · exact ih2.1 hnone i hi3 hi2
        · have : i = t.contents.length - (fuel + 1) := by omega
          rw [this]; exact he
      · intro r hr
        rw [hstep] at hr
        obtain ⟨h1, h2, h3⟩ := ih2.2 r hr
        refine ⟨h1, h2, ?_⟩
        intro i hi1 hi2
        by_cases hi3 : t.contents.length - fuel ≤ i
        · exact h3 i hi3 hi2
        · have : i = t.contents.length - (fuel + 1) := by omega
          rw [this]; exact he
    · have hstep : first_rowAux t (fuel + 1) =
          some (t.contents.length - (fuel + 1)) := by
        simp only [first_rowAux]
        rw [if_pos he]
      constructor
      · intro hnone
        rw [hstep] at hnone
        cases hnone
      · intro r hr
        rw [hstep] at hr
        injection hr with hr
        subst hr
        refine ⟨by omega, he, ?_⟩
        intro i hi1 hi2
        omega

lemma first_row_none {t : Table D P} (h : t.first_row = none) :
    ∀ i, i < t.contents.length → t.get_row i = emptyRow D P := by
  intro i hi
  exact (first_rowAux_spec t t.contents.length (le_refl _)).1 h i (by omega) hi

lemma first_row_some {t : Table D P} {r : Nat} (h : t.first_row = some r) :
    r < t.contents.length ∧ t.get_row r ≠ emptyRow D P ∧
    ∀ i, i < r → t.get_row i = emptyRow D P := by
  obtain ⟨h1, h2, h3⟩ :=
    (first_rowAux_spec t t.contents.length (le_refl _)).2 r h
  exact ⟨h1, h2, fun i hi => h3 i (by omega) hi⟩

lemma next_rowAux_spec (t : Table D P) :
    ∀ fuel idx,
      (next_rowAux t idx fuel = none →
        ∀ i, idx ≤ i → i < idx + fuel → t.get_row i = emptyRow D P) ∧
      (∀ r, next_rowAux t idx fuel = some r →
        idx ≤ r ∧ r < idx + fuel ∧ t.get_row r ≠ emptyRow D P ∧
        ∀ i, idx ≤ i → i < r → t.get_row i = emptyRow D P) := by
  intro fuel
  induction fuel with
  | zero =>
    intro idx
    constructor
    · intro _ i hi1 hi2
      omega
    · intro r hr
      cases hr
  | succ fuel ih =>
    intro idx
    by_cases he : t.get_row idx = emptyRow D P
    · have hstep : next_rowAux t idx (fuel + 1) =
          next_rowAux t (idx + 1) fuel := by
        simp only [next_rowAux]
        rw [if_neg (fun hc => hc he)]
      constructor
      · intro hnone i hi1 hi2
        rw [hstep] at hnone
        by_cases hi3 : idx + 1 ≤ i
        · exact (ih (idx + 1)).1 hnone i hi3 (by omega)
        · have : i = idx := by omega
          rw [this]; exact he
      · intro r hr
        rw [hstep] at hr
        obtain ⟨h1, h2, h3, h4⟩ := (ih (idx + 1)).2 r hr
        refine ⟨by omega, by omega, h3, ?_⟩
        intro i hi1 hi2
        by_cases hi3 : idx + 1 ≤ i
        · exact h4 i hi3 hi2
        · have : i = idx := by omega
          rw [this]; exact he
    · have hstep : next_rowAux t idx (fuel + 1) = some idx := by
        simp only [next_rowAux]
        rw [if_pos he]
      constructor
      · intro hnone
        rw [hstep] at hnone
        cases hnone
      · intro r hr
        rw [hstep] at hr
        injection hr with hr
        subst hr
        exact ⟨le_refl _, by omega, he, fun i hi1 hi2 => by omega⟩

lemma next_row_none {t : Table D P} {row : Nat} (h : t.next_row row = none) :
    ∀ i, row < i → i < t.contents.length → t.get_row i = emptyRow D P := by
  intro i hi1 hi2
  exact (next_rowAux_spec t (t.contents.length - (row + 1)) (row + 1)).1 h i
    (by omega) (by omega)

lemma next_row_some {t : Table D P} {row r : Nat}
    (h : t.next_row row = some r) :
    row < r ∧ r < t.contents.length ∧ t.get_row r ≠ emptyRow D P ∧
    ∀ i, row < i → i < r → t.get_row i = emptyRow D P := by
  obtain ⟨h1, h2, h3, h4⟩ :=
    (next_rowAux_spec t (t.contents.length - (row + 1)) (row + 1)).2 r h
  by_cases hcase : row + 1 ≤ t.contents.length
  · exact ⟨by omega, by omega, h3, fun i hi1 hi2 => h4 i (by omega) hi2⟩
  · exfalso
    omega

/-! ### Dep-column bounds -/

lemma depsBelow_set {t t2 : Table D P} {row : Nat}
    (h : t2.contents = t.contents.set row (emptyRow D P))
    (hdb : t.depsBelow) : t2.depsBelow := by
  intro r hr hne v hv
  rw [h] at hr
  rcases List.mem_or_eq_of_mem_set hr with hr | hr
  · exact hdb r hr hne v hv
  · exact absurd hr hne

lemma depsBelow_append {t t2 : Table D P} {det dep : List Nat}
    (h : t2.contents = t.contents ++ [(det, dep)])
    (hdb : t.depsBelow) (hdep : ∀ v ∈ dep, v < EMPTY) : t2.depsBelow := by
  intro r hr hne v hv
  rw [h] at hr
  rcases List.mem_append.mp hr with hr | hr
  · exact hdb r hr hne v hv
  · rw [List.mem_singleton] at hr
    subst hr
    exact hdep v hv

lemma depsBelow_set_append {t t2 : Table D P} {row : Nat} {det dep : List Nat}
    (h : t2.contents = t.contents.set row (emptyRow D P) ++ [(det, dep)])
    (hdb : t.depsBelow) (hdep : ∀ v ∈ dep, v < EMPTY) : t2.depsBelow := by
  intro r hr hne v hv
  rw [h] at hr
  rcases List.mem_append.mp hr with hr | hr
  · rcases List.mem_or_eq_of_mem_set hr with hr | hr
    · exact hdb r hr hne v hv
    · exact absurd hr hne
  · rw [List.mem_singleton] at hr
    subst hr
    exact hdep v hv

lemma getD_head_below {l : List Nat} (h : ∀ v ∈ l, v < EMPTY) :
    l.getD 0 0 < EMPTY := by
  cases l with
  | nil =>
    show (0 : Nat) < EMPTY
    decide
  | cons a l =>
    rw [List.getD_cons_zero]
    exact h a (List.mem_cons_self a l)

end Table

/-- Concrete refutation of the frame claim: the conflicting insert on the
resident determinant `[0,1]` returns the resident `[2]` but does modify the
table — the row moves to the tail with a fresh RowId and `num_free_rows`
grows. -/
theorem c5_insert_on_resident_mutates :
    c5T2.2.2 = [2] ∧
    c5T2.2.1 ≠ c5T1.2.1 ∧
    c5T1.2.1.num_free_rows = 0 ∧
    c5T2.2.1.num_free_rows = 1 ∧
    c5T1.2.1.contents = [([0, 1], [2])] ∧
    c5T2.2.1.contents = [Table.emptyRow 2 1, ([0, 1], [2])] ∧
    Table.mapGet c5T1.2.1.dmap [0, 1] = some (0, [2]) ∧
    Table.mapGet c5T2.2.1.dmap [0, 1] = some (1, [2]) := by decide

end EqSat

namespace EqSat

/-! ### Reduction lemmas for `passRows` -/

lemma passRows_eq_skip (c : Ctor) {D P : Nat} (fuel : Nat) (t : Table D P)
    (uf : UnionFind) (rid : Nat) (ch : Bool) {rdet rdep : List Nat}
    {uf1 : UnionFind} {cterm : Term}
    (hg : t.get_row rid = (rdet, rdep))
    (hc : Term.canonicalize uf (decodeCtor c rdet rdep) = (uf1, cterm))
    (ht : decodeCtor c rdet rdep = cterm) :
    passRows c (fuel + 1) t uf (some rid) ch =
      passRows c fuel t uf1 (t.next_row rid) ch := by
  simp only [passRows, hg, hc]
  rw [if_pos ht]

lemma passRows_eq_mod_merge (c : Ctor) {D P : Nat} (fuel : Nat)
    (t : Table D P) (uf : UnionFind) (rid : Nat) (ch : Bool)
    {rdet rdep : List Nat} {uf1 : UnionFind} {cterm : Term}
    {t1 : Table D P} {b1 : Bool} {cdet cdep : List Nat} {u0 : Unit}
    {t2 : Table D P} {newDep : List Nat} {uf2 : UnionFind} {z : Nat}
    (hg : t.get_row rid = (rdet, rdep))
    (hc : Term.canonicalize uf (decodeCtor c rdet rdep) = (uf1, cterm))
    (ht : decodeCtor c rdet rdep ≠ cterm)
    (hd : t.delete_row rid = (t1, b1))
    (he : cterm.encode = (cdet, cdep))
    (hi : t1.insert_row cdet cdep Table.keepResident () = (u0, t2, newDep))
    (hnd : newDep ≠ cdep)
    (hm : uf1.merge cterm.root (decodeCtor c cdet newDep).root = (uf2, z)) :
    passRows c (fuel + 1) t uf (some rid) ch =
      passRows c fuel t2 uf2 (t2.next_row rid) true := by
  simp only [passRows, hg, hc, if_neg ht, hd, he, hi, if_pos hnd, hm]

lemma passRows_eq_mod_keep (c : Ctor) {D P : Nat} (fuel : Nat)
    (t : Table D P) (uf : UnionFind) (rid : Nat) (ch : Bool)
    {rdet rdep : List Nat} {uf1 : UnionFind} {cterm : Term}
    {t1 : Table D P} {b1 : Bool} {cdet cdep : List Nat} {u0 : Unit}
    {t2 : Table D P} {newDep : List Nat}
    (hg : t.get_row rid = (rdet, rdep))
    (hc : Term.canonicalize uf (decodeCtor c rdet rdep) = (uf1, cterm))
    (ht : decodeCtor c rdet rdep ≠ cterm)
    (hd : t.delete_row rid = (t1, b1))
    (he : cterm.encode = (cdet, cdep))
    (hi : t1.insert_row cdet cdep Table.keepResident () = (u0, t2, newDep))
    (hnd : ¬ newDep ≠ cdep) :
    passRows c (fuel + 1) t uf (some rid) ch =
      passRows c fuel t2 uf1 (t2.next_row rid) true := by
  simp only [passRows, hg, hc, if_neg ht, hd, he, hi, if_neg hnd]

/-- The changed flag never resets. -/
lemma passRows_true (c : Ctor) {D P : Nat} :
    ∀ fuel (t : Table D P) uf o t2 uf2 ch2,
      passRows c fuel t uf o true = some (t2, uf2, ch2) → ch2 = true := by
  intro fuel
  induction fuel with
  | zero => intro t uf o t2 uf2 ch2 h; cases h
  | succ fuel ih =>
    intro t uf o t2 uf2 ch2 h
    cases o with
    | none =>
      simp only [passRows, Option.some.injEq, Prod.mk.injEq] at h
      exact h.2.2.symm
    | some rid =>
      rcases hg : t.get_row rid with ⟨rdet, rdep⟩
      rcases hc : Term.canonicalize uf (decodeCtor c rdet rdep) with
        ⟨uf1, cterm⟩
      by_cases ht : decodeCtor c rdet rdep = cterm
      · rw [passRows_eq_skip c fuel t uf rid true hg hc ht] at h
        exact ih _ _ _ _ _ _ h
      · rcases hd : t.delete_row rid with ⟨t1, b1⟩
        rcases he : cterm.encode with ⟨cdet, cdep⟩
        rcases hi : t1.insert_row cdet cdep Table.keepResident () with
          ⟨u0, t2x, newDep⟩
        by_cases hnd : newDep ≠ cdep
        · rcases hm : uf1.merge cterm.root (decodeCtor c cdet newDep).root
            with ⟨ufm, z⟩
          rw [passRows_eq_mod_merge c fuel t uf rid true hg hc ht hd he hi
            hnd hm] at h
          exact ih _ _ _ _ _ _ h
        · rw [passRows_eq_mod_keep c fuel t uf rid true hg hc ht hd he hi
            hnd] at h
          exact ih _ _ _ _ _ _ h

/-- Any `passRows` run preserves well-formedness of the union-find, its
length, the table invariant, and the dep-column bound. -/
lemma passRows_preserves (c : Ctor) {D P : Nat} :
    ∀ fuel (t : Table D P) uf o ch t2 uf2 ch2,
      passRows c fuel t uf o ch = some (t2, uf2, ch2) →
      uf.WF → t.Core → t.depsBelow →
      (∀ rid, o = some rid → rid < t.contents.length ∧
        t.get_row rid ≠ Table.emptyRow D P) →
      uf2.WF ∧ uf2.vec.length = uf.vec.length ∧ t2.Core ∧ t2.depsBelow := by
  intro fuel
  induction fuel with
  | zero => intro t uf o ch t2 uf2 ch2 h; cases h
  | succ fuel ih =>
    intro t uf o ch t2 uf2 ch2 h hWF hC hdb ho
    cases o with
    | none =>
      simp only [passRows, Option.some.injEq, Prod.mk.injEq] at h
      obtain ⟨h1, h2, _⟩ := h
      subst h1
      subst h2
      exact ⟨hWF, rfl, hC, hdb⟩
    | some rid =>
      obtain ⟨hrl, hrlive⟩ := ho rid rfl
      rcases hg : t.get_row rid with ⟨rdet, rdep⟩
      rcases hc : Term.canonicalize uf (decodeCtor c rdet rdep) with
        ⟨uf1, cterm⟩
      have hcs := canonicalize_spec hWF (decodeCtor c rdet rdep)
      rw [hc] at hcs
      obtain ⟨hWF1, hlen1, hroots1, hval⟩ := hcs
      by_cases ht : decodeCtor c rdet rdep = cterm
      · rw [passRows_eq_skip c fuel t uf rid ch hg hc ht] at h
        have hnext : ∀ rid2, t.next_row rid = some rid2 →
            rid2 < t.contents.length ∧
            t.get_row rid2 ≠ Table.emptyRow D P := by
          intro rid2 hr2
          obtain ⟨_, h2, h3, _⟩ := Table.next_row_some hr2
          exact ⟨h2, h3⟩
        have hrec := ih t uf1 (t.next_row rid) ch t2 uf2 ch2 h hWF1 hC hdb
          hnext
        exact ⟨hrec.1, hrec.2.1.trans hlen1, hrec.2.2⟩
      · rcases hd : t.delete_row rid with ⟨t1, b1⟩
        have hDel := Table.core_delete_live hC hrl hrlive
        rw [hd] at hDel
        obtain ⟨hC1, _, hcon1, _, _, _, _, _⟩ := hDel
        have hdb1 : t1.depsBelow := Table.depsBelow_set hcon1 hdb
        rcases he : cterm.encode with ⟨cdet, cdep⟩
        have hdep : cdep = [cterm.root] := by
          have h2 := encode_dep cterm
          rw [he] at h2
          exact h2
        have hrootlt : cterm.root < EMPTY := by
          have h1 : cterm = (decodeCtor c rdet rdep).mapClasses uf.root :=
            hval
          rw [h1, mapClasses_root, decode_root]
          have hmem : (rdet, rdep) ∈ t.contents := by
            rw [← hg]
            exact getD_mem hrl _
          have hbv : ∀ v ∈ rdep, v < EMPTY := by
            intro v hv
            exact hdb (rdet, rdep) hmem (by rw [← hg]; exact hrlive) v hv
          exact Nat.lt_of_le_of_lt (UnionFind.root_le hWF _)
            (Table.getD_head_below hbv)
        rcases hi : t1.insert_row cdet cdep Table.keepResident () with
          ⟨u0, t2x, newDep⟩
        have hins : t2x.Core ∧ t2x.depsBelow := by
          cases hmg : Table.mapGet t1.dmap cdet with
          | none =>
            have hlivenew : (cdet, cdep) ≠ Table.emptyRow D P := by
              intro hcontra
              have h2 : cdep = List.replicate P EMPTY :=
                congrArg Prod.snd hcontra
              rw [hdep] at h2
              have h3 : cterm.root ∈ List.replicate P EMPTY := by
                rw [← h2]
                exact List.mem_singleton_self _
              have h4 := (List.mem_replicate.mp h3).2
              omega
            have hF := Table.core_insert_fresh hC1 Table.keepResident () hmg
              hlivenew
            rw [hi] at hF
            refine ⟨hF.1, Table.depsBelow_append hF.2.1 hdb1 ?_⟩
            intro v hv
            rw [hdep, List.mem_singleton] at hv
            subst hv
            exact hrootlt
          | some pv =>
            rcases pv with ⟨prior, p⟩
            have hent := hC1.2.1 (cdet, (prior, p)) (Table.mapGet_mem hmg)
            have hCf := Table.core_insert_conflict hC1 hmg cdep
              Table.keepResident () hent.2.2
            rw [hi] at hCf
            refine ⟨hCf.1, Table.depsBelow_set_append hCf.2.1 hdb1 ?_⟩
            intro v hv
            have hpm : (cdet, p) ∈ t1.contents := by
              rw [← hent.2.1]
              exact getD_mem hent.1 _
            exact hdb1 (cdet, p) hpm hent.2.2 v hv
        have hnext2 : ∀ rid2, t2x.next_row rid = some rid2 →
            rid2 < t2x.contents.length ∧
            t2x.get_row rid2 ≠ Table.emptyRow D P := by
          intro rid2 hr2
          obtain ⟨_, h2, h3, _⟩ := Table.next_row_some hr2
          exact ⟨h2, h3⟩
        by_cases hnd : newDep ≠ cdep
        · rcases hm : uf1.merge cterm.root (decodeCtor c cdet newDep).root
            with ⟨ufm, z⟩
          have hmp := UnionFind.merge_preserves hWF1 cterm.root
            (decodeCtor c cdet newDep).root
          rw [hm] at hmp
          rw [passRows_eq_mod_merge c fuel t uf rid ch hg hc ht hd he hi
            hnd hm] at h
          have hrec := ih t2x ufm (t2x.next_row rid) true t2 uf2 ch2 h hmp.1
            hins.1 hins.2 hnext2
          exact ⟨hrec.1, (hrec.2.1.trans hmp.2).trans hlen1, hrec.2.2⟩
        · rw [passRows_eq_mod_keep c fuel t uf rid ch hg hc ht hd he hi
            hnd] at h
          have hrec := ih t2x uf1 (t2x.next_row rid) true t2 uf2 ch2 h hWF1
            hins.1 hins.2 hnext2
          exact ⟨hrec.1, hrec.2.1.trans hlen1, hrec.2.2⟩

/-- A `passRows` run that reports no change did not touch the table: the
union-find was only compressed, and every visited live row was already
canonical. -/
lemma passRows_nochange (c : Ctor) {D P : Nat} :
    ∀ fuel (t : Table D P) uf o t2 uf2,
      passRows c fuel t uf o false = some (t2, uf2, false) → uf.WF →
      t2 = t ∧ uf2.WF ∧ uf2.vec.length = uf.vec.length ∧
      (∀ a, uf2.root a = uf.root a) ∧
      (∀ rid, o = some rid → ∀ i, rid ≤ i → i < t.contents.length →
        t.get_row i ≠ Table.emptyRow D P →
        (decodeCtor c (t.get_row i).1 (t.get_row i).2).mapClasses uf.root =
          decodeCtor c (t.get_row i).1 (t.get_row i).2) := by
  intro fuel
  induction fuel with
  | zero => intro t uf o t2 uf2 h; cases h
  | succ fuel ih =>
    intro t uf o t2 uf2 h hWF
    cases o with
    | none =>
      simp only [passRows, Option.some.injEq, Prod.mk.injEq] at h
      obtain ⟨h1, h2, _⟩ := h
      subst h1
      subst h2
      exact ⟨rfl, hWF, rfl, fun a => rfl, fun rid hr => by cases hr⟩
    | some rid =>
      rcases hg : t.get_row rid with ⟨rdet, rdep⟩
      rcases hc : Term.canonicalize uf (decodeCtor c rdet rdep) with
        ⟨uf1, cterm⟩
      have hcs := canonicalize_spec hWF (decodeCtor c rdet rdep)
      rw [hc] at hcs
      obtain ⟨hWF1, hlen1, hroots1, hval⟩ := hcs
      by_cases ht : decodeCtor c rdet rdep = cterm
      · rw [passRows_eq_skip c fuel t uf rid false hg hc ht] at h
        obtain ⟨he1, hWF2, hlen2, hroots2, hcov⟩ :=
          ih t uf1 (t.next_row rid) t2 uf2 h hWF1
        refine ⟨he1, hWF2, hlen2.trans hlen1,
          fun a => (hroots2 a).trans (hroots1 a), ?_⟩
        intro rid2 hr2 i hle hilen hlive
        injection hr2 with hr2
        subst hr2
        rcases eq_or_lt_of_le hle with heq | hlt
        · subst heq
          rw [hg]
          show (decodeCtor c rdet rdep).mapClasses uf.root =
            decodeCtor c rdet rdep
          rw [← hval]
          exact ht.symm
        · cases hnr : t.next_row rid with
          | none =>
            exact absurd (Table.next_row_none hnr i hlt hilen) hlive
          | some rid3 =>
            have hleast := Table.next_row_some hnr
            have hle3 : rid3 ≤ i := by
              by_contra hgt
              exact hlive (hleast.2.2.2 i hlt (by omega))
            have hcv := hcov rid3 hnr i hle3 hilen hlive
            rw [← mapClasses_congr hroots1
              (decodeCtor c (t.get_row i).1 (t.get_row i).2)]
            exact hcv
      · rcases hd : t.delete_row rid with ⟨t1, b1⟩
        rcases he : cterm.encode with ⟨cdet, cdep⟩
        rcases hi : t1.insert_row cdet cdep Table.keepResident () with
          ⟨u0, t2x, newDep⟩
        by_cases hnd : newDep ≠ cdep
        · rcases hm : uf1.merge cterm.root (decodeCtor c cdet newDep).root
            with ⟨ufm, z⟩
          rw [passRows_eq_mod_merge c fuel t uf rid false hg hc ht hd he hi
            hnd hm] at h
          exact absurd
            (passRows_true c fuel t2x ufm (t2x.next_row rid) t2 uf2 false h)
            (by simp)
        · rw [passRows_eq_mod_keep c fuel t uf rid false hg hc ht hd he hi
            hnd] at h
          exact absurd
            (passRows_true c fuel t2x uf1 (t2x.next_row rid) t2 uf2 false h)
            (by simp)

end EqSat

namespace EqSat

/-! ### `rebuildPasses` and `rebuild_enode_table` -/

lemma rebuildPasses_eq_none (c : Ctor) {D P : Nat} (fuel : Nat)
    (t : Table D P) (uf : UnionFind) (ev : Bool)
    (hp : passRows c (fuel + 1) t uf t.first_row false = none) :
    rebuildPasses c (fuel + 1) t uf ev = none := by
  simp only [rebuildPasses, hp]

lemma rebuildPasses_eq_step (c : Ctor) {D P : Nat} (fuel : Nat)
    (t : Table D P) (uf : UnionFind) (ev : Bool) {t2 : Table D P}
    {uf2 : UnionFind}
    (hp : passRows c (fuel + 1) t uf t.first_row false = some (t2, uf2, true)) :
    rebuildPasses c (fuel + 1) t uf ev = rebuildPasses c fuel t2 uf2 true := by
  simp only [rebuildPasses, hp, if_true]

lemma rebuildPasses_eq_done (c : Ctor) {D P : Nat} (fuel : Nat)
    (t : Table D P) (uf : UnionFind) (ev : Bool) {t2 : Table D P}
    {uf2 : UnionFind}
    (hp : passRows c (fuel + 1) t uf t.first_row false =
      some (t2, uf2, false)) :
    rebuildPasses c (fuel + 1) t uf ev = some (t2, uf2, ev) := by
  simp only [rebuildPasses, hp, Bool.false_eq_true, if_false]

/-- The ever-changed flag never resets. -/
lemma rebuildPasses_true (c : Ctor) {D P : Nat} :
    ∀ fuel (t : Table D P) uf t2 uf2 ch2,
      rebuildPasses c fuel t uf true = some (t2, uf2, ch2) → ch2 = true := by
  intro fuel
  induction fuel with
  | zero => intro t uf t2 uf2 ch2 h; cases h
  | succ fuel ih =>
    intro t uf t2 uf2 ch2 h
    cases hp : passRows c (fuel + 1) t uf t.first_row false with
    | none =>
      rw [rebuildPasses_eq_none c fuel t uf true hp] at h
      cases h
    | some v =>
      rcases v with ⟨t3, uf3, changed⟩
      cases changed with
      | true =>
        rw [rebuildPasses_eq_step c fuel t uf true hp] at h
        exact ih _ _ _ _ _ h
      | false =>
        rw [rebuildPasses_eq_done c fuel t uf true hp] at h
        simp only [Option.some.injEq, Prod.mk.injEq] at h
        exact h.2.2.symm

lemma rebuildPasses_preserves (c : Ctor) {D P : Nat} :
    ∀ fuel (t : Table D P) uf ev t2 uf2 ch2,
      rebuildPasses c fuel t uf ev = some (t2, uf2, ch2) →
      uf.WF → t.Core → t.depsBelow →
      uf2.WF ∧ uf2.vec.length = uf.vec.length ∧ t2.Core ∧ t2.depsBelow := by
  intro fuel
  induction fuel with
  | zero => intro t uf ev t2 uf2 ch2 h; cases h
  | succ fuel ih =>
    intro t uf ev t2 uf2 ch2 h hWF hC hdb
    have hfr : ∀ rid, t.first_row = some rid →
        rid < t.contents.length ∧ t.get_row rid ≠ Table.emptyRow D P := by
      intro rid hr
      obtain ⟨h1, h2, _⟩ := Table.first_row_some hr
      exact ⟨h1, h2⟩
    cases hp : passRows c (fuel + 1) t uf t.first_row false with
    | none =>
      rw [rebuildPasses_eq_none c fuel t uf ev hp] at h
      cases h
    | some v =>
      rcases v with ⟨t3, uf3, changed⟩
      have hpass := passRows_preserves c (fuel + 1) t uf t.first_row false
        t3 uf3 changed hp hWF hC hdb hfr
      cases changed with
      | true =>
        rw [rebuildPasses_eq_step c fuel t uf ev hp] at h
        have hrec := ih t3 uf3 true t2 uf2 ch2 h hpass.1 hpass.2.2.1
          hpass.2.2.2
        exact ⟨hrec.1, hrec.2.1.trans hpass.2.1, hrec.2.2⟩
      | false =>
        rw [rebuildPasses_eq_done c fuel t uf ev hp] at h
        simp only [Option.some.injEq, Prod.mk.injEq] at h
        obtain ⟨e1, e2, _⟩ := h
        subst e1
        subst e2
        exact hpass

lemma rebuild_table_preserves {c : Ctor} {D P : Nat} {fuel : Nat}
    {t : Table D P} {uf : UnionFind} {t2 : Table D P} {uf2 : UnionFind}
    {ch2 : Bool}
    (h : rebuild_enode_table c fuel t uf = some (t2, uf2, ch2))
    (hWF : uf.WF) (hC : t.Core) (hdb : t.depsBelow) :
    uf2.WF ∧ uf2.vec.length = uf.vec.length ∧ t2.Core ∧ t2.depsBelow :=
  rebuildPasses_preserves c fuel t uf false t2 uf2 ch2 h hWF hC hdb

/-- A table rebuild that reports no change: the table is untouched, the
union-find is only compressed, and every live row is canonical. -/
lemma rebuild_table_nochange {c : Ctor} {D P : Nat} {fuel : Nat}
    {t : Table D P} {uf : UnionFind} {t2 : Table D P} {uf2 : UnionFind}
    (h : rebuild_enode_table c fuel t uf = some (t2, uf2, false))
    (hWF : uf.WF) :
    t2 = t ∧ uf2.WF ∧ uf2.vec.length = uf.vec.length ∧
    (∀ a, uf2.root a = uf.root a) ∧
    (∀ i, i < t.contents.length → t.get_row i ≠ Table.emptyRow D P →
      (decodeCtor c (t.get_row i).1 (t.get_row i).2).mapClasses uf.root =
        decodeCtor c (t.get_row i).1 (t.get_row i).2) := by
  cases fuel with
  | zero => cases h
  | succ fuel =>
    have h2 : rebuildPasses c (fuel + 1) t uf false = some (t2, uf2, false) :=
      h
    cases hp : passRows c (fuel + 1) t uf t.first_row false with
    | none =>
      rw [rebuildPasses_eq_none c fuel t uf false hp] at h2
      cases h2
    | some v =>
      rcases v with ⟨t3, uf3, changed⟩
      cases changed with
      | true =>
        rw [rebuildPasses_eq_step c fuel t uf false hp] at h2
        exact absurd (rebuildPasses_true c fuel t3 uf3 t2 uf2 false h2)
          (by simp)
      | false =>
        rw [rebuildPasses_eq_done c fuel t uf false hp] at h2
        simp only [Option.some.injEq, Prod.mk.injEq] at h2
        obtain ⟨e1, e2, _⟩ := h2
        subst e1
        subst e2
        obtain ⟨het, hWF2, hlen2, hroots2, hcov⟩ :=
          passRows_nochange c (fuel + 1) t uf t.first_row t3 uf3 hp hWF
        refine ⟨het, hWF2, hlen2, hroots2, ?_⟩
        intro i hi hlive
        cases hfr : t.first_row with
        | none => exact absurd (Table.first_row_none hfr i hi) hlive
        | some r0 =>
          have h0 := Table.first_row_some hfr
          have hle : r0 ≤ i := by
            by_contra hgt
            exact hlive (h0.2.2 i (by omega))
          exact hcov r0 hfr i hle hi hlive

/-! ### The nine-table rebuild -/

lemma rebuildTables_preserves {f : Nat} {g g2 : Graph} {ch : Bool}
    (H : Graph.rebuildTables f g = some (g2, ch)) (hWF : g.uf.WF)
    (hOK : g.TablesOK) :
    g2.uf.WF ∧ g2.uf.vec.length = g.uf.vec.length ∧ g2.TablesOK := by
  obtain ⟨k1, k2, k3, k4, k5, k6, k7, k8, k9,
    d1, d2, d3, d4, d5, d6, d7, d8, d9⟩ := hOK
  unfold Graph.rebuildTables at H
  cases h1 : rebuild_enode_table .constant f g.constant g.uf with
  | none => simp [h1] at H
  | some v1 =>
  rcases v1 with ⟨t1, u1, c1⟩
  simp only [h1] at H
  cases h2 : rebuild_enode_table .param f g.param u1 with
  | none => simp [h2] at H
  | some v2 =>
  rcases v2 with ⟨t2, u2, c2⟩
  simp only [h2] at H
  cases h3 : rebuild_enode_table .start f g.start u2 with
  | none => simp [h3] at H
  | some v3 =>
  rcases v3 with ⟨t3, u3, c3⟩
  simp only [h3] at H
  cases h4 : rebuild_enode_table .region f g.region u3 with
  | none => simp [h4] at H
  | some v4 =>
  rcases v4 with ⟨t4, u4, c4⟩
  simp only [h4] at H
  cases h5 : rebuild_enode_table .branch f g.branch u4 with
  | none => simp [h5] at H
  | some v5 =>
  rcases v5 with ⟨t5, u5, c5⟩
  simp only [h5] at H
  cases h6 : rebuild_enode_table .controlProj f g.control_proj u5 with
  | none => simp [h6] at H
  | some v6 =>
  rcases v6 with ⟨t6, u6, c6⟩
  simp only [h6] at H
  cases h7 : rebuild_enode_table .finish f g.finish u6 with
  | none => simp [h7] at H
  | some v7 =>
  rcases v7 with ⟨t7, u7, c7⟩
  simp only [h7] at H
  cases h8 : rebuild_enode_table .phi f g.phi u7 with
  | none => simp [h8] at H
  | some v8 =>
  rcases v8 with ⟨t8, u8, c8⟩
  simp only [h8] at H
  cases h9 : rebuild_enode_table .add f g.add u8 with
  | none => simp [h9] at H
  | some v9 =>
  rcases v9 with ⟨t9, u9, c9⟩
  simp only [h9, Option.some.injEq, Prod.mk.injEq] at H
  obtain ⟨hg2, hch⟩ := H
  subst hg2
  have p1 := rebuild_table_preserves h1 hWF k1 d1
  have p2 := rebuild_table_preserves h2 p1.1 k2 d2
  have p3 := rebuild_table_preserves h3 p2.1 k3 d3
  have p4 := rebuild_table_preserves h4 p3.1 k4 d4
  have p5 := rebuild_table_preserves h5 p4.1 k5 d5
  have p6 := rebuild_table_preserves h6 p5.1 k6 d6
  have p7 := rebuild_table_preserves h7 p6.1 k7 d7
  have p8 := rebuild_table_preserves h8 p7.1 k8 d8
  have p9 := rebuild_table_preserves h9 p8.1 k9 d9
  refine ⟨p9.1, ?_, ?_⟩
  · show u9.vec.length = g.uf.vec.length
    rw [p9.2.1, p8.2.1, p7.2.1, p6.2.1, p5.2.1, p4.2.1, p3.2.1, p2.2.1,
      p1.2.1]
  · exact ⟨p1.2.2.1, p2.2.2.1, p3.2.2.1, p4.2.2.1, p5.2.2.1, p6.2.2.1,
      p7.2.2.1, p8.2.2.1, p9.2.2.1, p1.2.2.2, p2.2.2.2, p3.2.2.2, p4.2.2.2,
      p5.2.2.2, p6.2.2.2, p7.2.2.2, p8.2.2.2, p9.2.2.2⟩

lemma rebuildTables_false {f : Nat} {g g2 : Graph}
    (H : Graph.rebuildTables f g = some (g2, false)) (hWF : g.uf.WF) :
    g2.uf.WF ∧ g2.Canonical := by
  unfold Graph.rebuildTables at H
  cases h1 : rebuild_enode_table .constant f g.constant g.uf with
  | none => simp [h1] at H
  | some v1 =>
  rcases v1 with ⟨t1, u1, c1⟩
  simp only [h1] at H
  cases h2 : rebuild_enode_table .param f g.param u1 with
  | none => simp [h2] at H
  | some v2 =>
  rcases v2 with ⟨t2, u2, c2⟩
  simp only [h2] at H
  cases h3 : rebuild_enode_table .start f g.start u2 with
  | none => simp [h3] at H
  | some v3 =>
  rcases v3 with ⟨t3, u3, c3⟩
  simp only [h3] at H
  cases h4 : rebuild_enode_table .region f g.region u3 with
  | none => simp [h4] at H
  | some v4 =>
  rcases v4 with ⟨t4, u4, c4⟩
  simp only [h4] at H
  cases h5 : rebuild_enode_table .branch f g.branch u4 with
  | none => simp [h5] at H
  | some v5 =>
  rcases v5 with ⟨t5, u5, c5⟩
  simp only [h5] at H
  cases h6 : rebuild_enode_table .controlProj f g.control_proj u5 with
  | none => simp [h6] at H
  | some v6 =>
  rcases v6 with ⟨t6, u6, c6⟩
  simp only [h6] at H
  cases h7 : rebuild_enode_table .finish f g.finish u6 with
  | none => simp [h7] at H
  | some v7 =>
  rcases v7 with ⟨t7, u7, c7⟩
  simp only [h7] at H
  cases h8 : rebuild_enode_table .phi f g.phi u7 with
  | none => simp [h8] at H
  | some v8 =>
  rcases v8 with ⟨t8, u8, c8⟩
  simp only [h8] at H
  cases h9 : rebuild_enode_table .add f g.add u8 with
  | none => simp [h9] at H
  | some v9 =>
  rcases v9 with ⟨t9, u9, c9⟩
  simp only [h9, Option.some.injEq, Prod.mk.injEq] at H
  obtain ⟨hg2, hch⟩ := H
  simp only [Bool.or_eq_false_iff] at hch
  obtain ⟨⟨⟨⟨⟨⟨⟨⟨e1, e2⟩, e3⟩, e4⟩, e5⟩, e6⟩, e7⟩, e8⟩, e9⟩ := hch
  subst e1
  subst e2
  subst e3
  subst e4
  subst e5
  subst e6
  subst e7
  subst e8
  subst e9
  subst hg2
  have n1 := rebuild_table_nochange h1 hWF
  have n2 := rebuild_table_nochange h2 n1.2.1
  have n3 := rebuild_table_nochange h3 n2.2.1
  have n4 := rebuild_table_nochange h4 n3.2.1
  have n5 := rebuild_table_nochange h5 n4.2.1
  have n6 := rebuild_table_nochange h6 n5.2.1
  have n7 := rebuild_table_nochange h7 n6.2.1
  have n8 := rebuild_table_nochange h8 n7.2.1
  have n9 := rebuild_table_nochange h9 n8.2.1
  have hWF9 : u9.WF := n9.2.1
  have w8 : ∀ a, u9.root a = u8.root a := n9.2.2.2.1
  have w7 : ∀ a, u9.root a = u7.root a :=
    fun a => (w8 a).trans (n8.2.2.2.1 a)
  have w6 : ∀ a, u9.root a = u6.root a :=
    fun a => (w7 a).trans (n7.2.2.2.1 a)
  have w5 : ∀ a, u9.root a = u5.root a :=
    fun a => (w6 a).trans (n6.2.2.2.1 a)
  have w4 : ∀ a, u9.root a = u4.root a :=
    fun a => (w5 a).trans (n5.2.2.2.1 a)
  have w3 : ∀ a, u9.root a = u3.root a :=
    fun a => (w4 a).trans (n4.2.2.2.1 a)
  have w2 : ∀ a, u9.root a = u2.root a :=
    fun a => (w3 a).trans (n3.2.2.2.1 a)
  have w1 : ∀ a, u9.root a = u1.root a :=
    fun a => (w2 a).trans (n2.2.2.2.1 a)
  have w0 : ∀ a, u9.root a = g.uf.root a :=
    fun a => (w1 a).trans (n1.2.2.2.1 a)
  have hfind : ∀ x, (u9.find x).2 = u9.root x :=
    fun x => (UnionFind.find_spec hWF9 x).1
  refine ⟨hWF9, ?_, ?_, ?_, ?_, ?_, ?_, ?_, ?_, ?_⟩
  · rw [show t1 = g.constant from n1.1]
    intro i hi hlive
    rw [mapClasses_congr hfind, mapClasses_congr w0]
    exact n1.2.2.2.2 i hi hlive
  · rw [show t2 = g.param from n2.1]
    intro i hi hlive
    rw [mapClasses_congr hfind, mapClasses_congr w1]
    exact n2.2.2.2.2 i hi hlive
  · rw [show t3 = g.start from n3.1]
    intro i hi hlive
    rw [mapClasses_congr hfind, mapClasses_congr w2]
    exact n3.2.2.2.2 i hi hlive
  · rw [show t4 = g.region from n4.1]
    intro i hi hlive
    rw [mapClasses_congr hfind, mapClasses_congr w3]
    exact n4.2.2.2.2 i hi hlive
  · rw [show t5 = g.branch from n5.1]
    intro i hi hlive
    rw [mapClasses_congr hfind, mapClasses_congr w4]
    exact n5.2.2.2.2 i hi hlive
  · rw [show t6 = g.control_proj from n6.1]
    intro i hi hlive
    rw [mapClasses_congr hfind, mapClasses_congr w5]
    exact n6.2.2.2.2 i hi hlive
  · rw [show t7 = g.finish from n7.1]
    intro i hi hlive
    rw [mapClasses_congr hfind, mapClasses_congr w6]
    exact n7.2.2.2.2 i hi hlive
  · rw [show t8 = g.phi from n8.1]
    intro i hi hlive
    rw [mapClasses_congr hfind, mapClasses_congr w7]
    exact n8.2.2.2.2 i hi hlive
  · rw [show t9 = g.add from n9.1]
    intro i hi hlive
    rw [mapClasses_congr hfind, mapClasses_congr w8]
    exact n9.2.2.2.2 i hi hlive

/-! ### `corebuild` and the outer loop -/

lemma finalMerges_preserves (n : Nat) :
    ∀ fuel (uf last : UnionFind), uf.WF →
      (finalMerges n fuel uf last).WF ∧
      (finalMerges n fuel uf last).vec.length = uf.vec.length := by
  intro fuel
  induction fuel with
  | zero => intro uf last hWF; exact ⟨hWF, rfl⟩
  | succ fuel ih =>
    intro uf last hWF
    rcases hf : last.find (n - (fuel + 1)) with ⟨last2, canon⟩
    rcases hm : uf.merge (n - (fuel + 1)) canon with ⟨uf2, z⟩
    have hmp := UnionFind.merge_preserves hWF (n - (fuel + 1)) canon
    rw [hm] at hmp
    have hrec := ih uf2 last2 hmp.1
    have he : finalMerges n (fuel + 1) uf last =
        finalMerges n fuel uf2 last2 := by
      simp only [finalMerges, hf, hm]
    rw [he]
    exact ⟨hrec.1, hrec.2.trans hmp.2⟩

lemma corebuild_WF {fuel : Nat} {ts : List Term} {uf uf2 : UnionFind}
    (h : corebuild fuel ts uf = some uf2) (hWF : uf.WF) :
    uf2.WF ∧ uf2.vec.length = uf.vec.length := by
  simp only [corebuild] at h
  cases hl : corebuildLoop fuel ts uf.num_classes
      (UnionFind.new_all_equals uf.num_classes) with
  | none => rw [hl] at h; cases h
  | some last =>
    rw [hl] at h
    injection h with h
    subst h
    exact finalMerges_preserves uf.num_classes uf.num_classes uf last hWF

lemma rebuildLoop_spec : ∀ fuel (g g2 : Graph),
    Graph.rebuildLoop fuel g = some g2 → g.uf.WF → g.TablesOK →
    g2.uf.WF ∧ g2.TablesOK ∧ g2.Canonical := by
  intro fuel
  induction fuel with
  | zero => intro g g2 h; cases h
  | succ fuel ih =>
    intro g g2 h hWF hOK
    cases hcb : corebuild (fuel + 1) g.terms g.uf with
    | none => simp [Graph.rebuildLoop, hcb] at h
    | some uf2 =>
      simp only [Graph.rebuildLoop, hcb] at h
      have hcw := corebuild_WF hcb hWF
      cases hrt : Graph.rebuildTables (fuel + 1) { g with uf := uf2 } with
      | none => simp [hrt] at h
      | some p =>
        rcases p with ⟨g3, changed⟩
        simp only [hrt] at h
        have hOK2 : ({ g with uf := uf2 } : Graph).TablesOK := hOK
        have hp := rebuildTables_preserves hrt hcw.1 hOK2
        cases changed with
        | true =>
          rw [if_pos rfl] at h
          exact ih g3 g2 h hp.1 hp.2.2
        | false =>
          rw [if_neg Bool.false_ne_true] at h
          injection h with h
          subst h
          have hf := rebuildTables_false hrt hcw.1
          exact ⟨hf.1, hp.2.2, hf.2⟩

/-- C1: after `Graph::rebuild` returns (on a graph whose union-find is
well-formed and whose tables satisfy the structural table invariants),
every ClassId column of every live row of every term table equals its
`find` in the returned graph's union-find, and no two live rows of one
table share a determinant tuple. -/
theorem c1_rebuild_rows_canonical {fuel : Nat} {g g2 : Graph}
    (hWF : g.uf.WF) (hOK : g.TablesOK)
    (h : Graph.rebuildFuel fuel g = some g2) :
    g2.Canonical ∧ g2.DetsOK := by
  have hs := rebuildLoop_spec fuel g g2 h hWF hOK
  refine ⟨hs.2.2, ?_⟩
  obtain ⟨k1, k2, k3, k4, k5, k6, k7, k8, k9,
    _, _, _, _, _, _, _, _, _⟩ := hs.2.1
  exact ⟨Table.core_dets_distinct k1, Table.core_dets_distinct k2,
    Table.core_dets_distinct k3, Table.core_dets_distinct k4,
    Table.core_dets_distinct k5, Table.core_dets_distinct k6,
    Table.core_dets_distinct k7, Table.core_dets_distinct k8,
    Table.core_dets_distinct k9⟩

/-- Concrete instantiation of the C1 theorem on the hash-consing graph. -/
theorem c1_rebuild_rows_canonical_witness :
    c2H.1.uf.WF ∧ c2H.1.TablesOK ∧
    Graph.rebuildFuel 10 c2H.1 = some c1G2 ∧
    (c1G2.Canonical ∧ c1G2.DetsOK) :=
  ⟨by decide, by decide, by decide,
   @c1_rebuild_rows_canonical 10 c2H.1 c1G2 (by decide) (by decide)
     (by decide)⟩

end EqSat
